import Mathlib

/-! zim_dump: a shallow embedding of `zim.c`.

The file models the reader of ZIM archives of `src/zim.c`: a file is the list
of its bytes together with a cursor, C integers are natural numbers reduced
modulo the width of their C type, a `char *` result is either `NULL` or the C
string found at the pointer, and calls into liblzma and libzstd are
parameters describing what the decoder hands back.
-/

namespace ZimDump

/-! ## Constants of `zim.c` -/

def MAX_MIME_TYPES_LEN : Nat := 10000
def COMPRESSION_XZ : Nat := 4
def COMPRESSION_ZSTD : Nat := 5
def MAX_ARTICLE_SIZE : Nat := 10000000
def MIME_TYPE_REDIRECT : Nat := 0xffff
def MIME_TYPE_REDLINK : Nat := 0xfffe
def MIME_TYPE_DELETED : Nat := 0xfffd

/-- Magic number tested by `zim_parse`. -/
def ZIM_MAGIC : Nat := 72173914

/-! ## Bytes, files and the C library calls used by `zim.c` -/

/-- Value of a byte sequence read as a little-endian unsigned integer,
the sum of `b_i * 256^i` (what the pointer casts of `read_int` give on the
little-endian hosts the program targets). -/
def le_int : List Nat → Nat
  | [] => 0
  | b :: bs => b + 256 * le_int bs

/-- C string held by a buffer: the bytes before the first NUL. -/
def cstr (buf : List Nat) : List Nat :=
  buf.takeWhile (fun b => b != 0)

/-- Conversion of an `unsigned long` value to `long` (two's complement). -/
def to_long (x : Nat) : Int :=
  if x % 2 ^ 64 < 2 ^ 63 then ((x % 2 ^ 64 : Nat) : Int) else ((x % 2 ^ 64 : Nat) : Int) - 2 ^ 64

/-- Conversion of an `unsigned long` value to `int` (low 32 bits, two's
complement). -/
def to_int (x : Nat) : Int :=
  if x % 2 ^ 32 < 2 ^ 31 then ((x % 2 ^ 32 : Nat) : Int) else ((x % 2 ^ 32 : Nat) : Int) - 2 ^ 32

/-- An open stream: the bytes of the file and the read cursor. -/
structure FILE where
  data : List Nat
  pos : Nat
deriving DecidableEq, Repr

/-- The files that can be opened, by path. -/
abbrev FileSystem := String → Option (List Nat)

/-- Model of `fopen (path, "r")`: `none` is the `NULL` stream. -/
def fopen (fs : FileSystem) (path : Option String) : Option FILE :=
  match path with
  | none => none
  | some p =>
    match fs p with
    | none => none
    | some d => some ⟨d, 0⟩

/-- Model of `fread (buf, 1, n, file)`: the bytes obtained (fewer than `n` at
the end of the file) and the stream afterwards. -/
def fread (file : FILE) (n : Nat) : List Nat × FILE :=
  ((file.data.drop file.pos).take n,
   ⟨file.data, file.pos + ((file.data.drop file.pos).take n).length⟩)

/-- Model of `fseek (file, offset, SEEK_SET)` where `offset` is an
`unsigned long` value: the call fails (`none`, the C result -1) when the value
is negative as a `long`; seeking past the end of the file is allowed. -/
def fseek_set (file : FILE) (offset : Nat) : Option FILE :=
  if 0 ≤ to_long offset then some ⟨file.data, (to_long offset).toNat⟩ else none

/-- Model of `fseek (file, offset, SEEK_CUR)` where `offset` is an
`unsigned long` value. -/
def fseek_cur (file : FILE) (offset : Nat) : Option FILE :=
  if 0 ≤ (file.pos : Int) + to_long offset then
    some ⟨file.data, ((file.pos : Int) + to_long offset).toNat⟩
  else none

/-- Model of `fgets (s, size, file)` as implemented by glibc: `none` is the
`NULL` result (nothing stored), otherwise the bytes stored before the
terminating NUL: at most `size - 1` of them, ending after the first newline. -/
def fgets (file : FILE) (size : Int) : Option (List Nat) × FILE :=
  if size ≤ 0 then (none, file)
  else if size = 1 then (some [], file)
  else
    let avail := (file.data.drop file.pos).take (size.toNat - 1)
    let upto := avail.takeWhile (fun b => b != 10)
    let line := if upto.length < avail.length then upto ++ [10] else upto
    if line.length = 0 then (none, file)
    else (some line, ⟨file.data, file.pos + line.length⟩)

/-- Storing the low `w` bytes of an integer object whose current value is
`dest`: the pointer casts of `read_int` write `w` bytes and leave the others. -/
def store_low (dest : Nat) (w : Nat) (bytes : List Nat) : Nat :=
  dest / 256 ^ w * 256 ^ w + le_int bytes

/-- Model of `read_int (file, len, dest)`: the error code, the value of the
object `dest` points to afterwards, and the stream. For `len = 16` the
destination is an `unsigned long long`, 8 bytes wide: the first 8 bytes read
are stored. -/
def read_int (file : FILE) (len : Nat) (dest : Nat) : Nat × Nat × FILE :=
  let r := fread file len
  if r.1.length ≠ len then (1, dest, r.2)
  else if len = 2 ∨ len = 4 ∨ len = 8 then (0, store_low dest len r.1, r.2)
  else if len = 16 then (0, store_low dest 8 (r.1.take 8), r.2)
  else (1, dest, r.2)

/-- Model of `strncmp (a, b, n)` on two C strings given without their
terminating NUL; only the sign of the result is used by the program. -/
def strncmp : List Nat → List Nat → Nat → Int
  | _, _, 0 => 0
  | [], [], _ + 1 => 0
  | [], y :: _, _ + 1 => 0 - (y : Int)
  | x :: _, [], _ + 1 => (x : Int)
  | x :: xs, y :: ys, n + 1 => if x = y then strncmp xs ys n else (x : Int) - (y : Int)

/-- How a run of a procedure ends: it returns, the process exits (`exit`), or
the run does not end within the steps granted to the model. -/
inductive Outcome (α : Type) where
  | ret : α → Outcome α
  | exit : Nat → Outcome α
  | diverge : Outcome α
deriving DecidableEq, Repr

/-! ## Data structures of `zim.c` -/

structure zim_header_t where
  magic_number : Nat
  major_version : Nat
  minor_version : Nat
  uuid : Nat
  article_count : Nat
  cluster_count : Nat
  url_ptr_pos : Nat
  title_ptr_pos : Nat
  dir_entries_pos : Nat
  cluster_ptr_pos : Nat
  mime_list_pos : Nat
  main_page : Nat
  layout_page : Nat
  checksum_pos : Nat
deriving DecidableEq, Repr

/-- The list of mime types; `len` is kept apart from `items` as in C. -/
structure zim_mime_type_list_t where
  items : List (List Nat)
  len : Nat
deriving DecidableEq, Repr

structure zim_archive_t where
  path : Option String
  header : zim_header_t
  mime_type_list : zim_mime_type_list_t
deriving DecidableEq, Repr

/-- A directory entry; `url` and `title` hold the C strings of the two
buffers. -/
structure zim_directory_entry_t where
  mime_type : Nat
  namespace_ : Nat
  revision : Nat
  redirect_index : Nat
  cluster_number : Nat
  blob_number : Nat
  url : List Nat
  title : List Nat
deriving DecidableEq, Repr

/-- Modelled from the spec: `utils.c` (the body of `xalloc`, declared in
`utils.h` as "Safely allocates memory") is not among the sources. The memory
it returns is taken to be zero-filled, which `new_zim_archive` relies on for
`len = 0` and `items = NULL`; this is the header of a fresh archive. -/
def zero_header : zim_header_t :=
  ⟨0, 0, 0, 0, 0, 0, 0, 0, 0, 0, 0, 0, 0, 0⟩

/-- Model of `new_zim_archive ()`. -/
def new_zim_archive : zim_archive_t :=
  ⟨none, zero_header, ⟨[], 0⟩⟩

/-- A freshly allocated directory entry (zero-filled, see `zero_header`). -/
def zero_entry : zim_directory_entry_t :=
  ⟨0, 0, 0, 0, 0, 0, [], []⟩

/-! ## Parsing: header, mime-type list, directory entries -/

/-- One field of `parse_headers`: unless an earlier field already failed,
`read_int` of `len` bytes into the field; an error makes `parse_headers`
return 1 with the field left as it was. -/
def header_field (st : Nat × zim_header_t × FILE) (len : Nat)
    (get : zim_header_t → Nat) (set : zim_header_t → Nat → zim_header_t) :
    Nat × zim_header_t × FILE :=
  if st.1 ≠ 0 then st
  else if (read_int st.2.2 len (get st.2.1)).1 ≠ 0 then
    (1, st.2.1, (read_int st.2.2 len (get st.2.1)).2.2)
  else
    (0, set st.2.1 (read_int st.2.2 len (get st.2.1)).2.1,
      (read_int st.2.2 len (get st.2.1)).2.2)

/-- Model of `parse_headers`: the error code, the header as filled so far and
the stream. Every integer goes through `read_int` with the length written in
the source (the checksum position is read with length 4). -/
def parse_headers (header : zim_header_t) (file : FILE) : Nat × zim_header_t × FILE :=
  let s0 : Nat × zim_header_t × FILE := (0, header, file)
  let s1 := header_field s0 2 (fun h => h.major_version) (fun h v => { h with major_version := v })
  let s2 := header_field s1 2 (fun h => h.minor_version) (fun h v => { h with minor_version := v })
  let s3 := header_field s2 16 (fun h => h.uuid) (fun h v => { h with uuid := v })
  let s4 := header_field s3 4 (fun h => h.article_count) (fun h v => { h with article_count := v })
  let s5 := header_field s4 4 (fun h => h.cluster_count) (fun h v => { h with cluster_count := v })
  let s6 := header_field s5 8 (fun h => h.url_ptr_pos) (fun h v => { h with url_ptr_pos := v })
  let s7 := header_field s6 8 (fun h => h.title_ptr_pos) (fun h v => { h with title_ptr_pos := v })
  let s8 := header_field s7 8 (fun h => h.cluster_ptr_pos) (fun h v => { h with cluster_ptr_pos := v })
  let s9 := header_field s8 8 (fun h => h.mime_list_pos) (fun h v => { h with mime_list_pos := v })
  let s10 := header_field s9 4 (fun h => h.main_page) (fun h v => { h with main_page := v })
  let s11 := header_field s10 4 (fun h => h.layout_page) (fun h v => { h with layout_page := v })
  header_field s11 4 (fun h => h.checksum_pos) (fun h v => { h with checksum_pos := v })

/-- The byte-by-byte loops of `parse_mime_type_list` (bound 100) and of
`parse_directory_entry` (bound 1000): read one byte at a time into the buffer
until a NUL has been stored or `bound` bytes were read. The result is the C
string of the buffer, or `none` when a byte could not be read. -/
def read_string_loop : Nat → FILE → List Nat → Option (List Nat × FILE)
  | 0, file, acc => some (acc, file)
  | bound + 1, file, acc =>
    match (fread file 1).1 with
    | [c] => if c = 0 then some (acc, (fread file 1).2)
             else read_string_loop bound (fread file 1).2 (acc ++ [c])
    | _ => none

/-- The `while (continue_parsing)` loop of `parse_mime_type_list`. A string
that cannot be read ends the process with `exit (1)`. The first argument
bounds the number of iterations of the model. -/
def parse_mime_type_loop : Nat → FILE → zim_mime_type_list_t →
    Outcome (zim_mime_type_list_t × FILE)
  | 0, _, _ => Outcome.diverge
  | fuel + 1, file, list =>
    match read_string_loop 100 file [] with
    | none => Outcome.exit 1
    | some (buf, file1) =>
      if strncmp buf [] 100 = 0 then Outcome.ret (list, file1)
      else if list.len + 1 > MAX_MIME_TYPES_LEN then
        Outcome.ret (⟨list.items, list.len + 1⟩, file1)
      else parse_mime_type_loop fuel file1 ⟨list.items ++ [buf], list.len + 1⟩

/-- Model of `parse_mime_type_list`. The result of the `fseek` is not tested
by the source. Every iteration but the last one adds an item and the loop
returns once `len` exceeds `MAX_MIME_TYPES_LEN`, so `MAX_MIME_TYPES_LEN + 2`
iterations are never used up. -/
def parse_mime_type_list (archive : zim_archive_t) (file : FILE) :
    Outcome (zim_mime_type_list_t × FILE) :=
  parse_mime_type_loop (MAX_MIME_TYPES_LEN + 2)
    ((fseek_set file archive.header.mime_list_pos).getD file) archive.mime_type_list

/-- Model of `parse_directory_entry`: the error code, the entry as filled so
far and the stream. -/
def parse_directory_entry (file : FILE) (entry : zim_directory_entry_t) :
    Nat × zim_directory_entry_t × FILE :=
  let r1 := read_int file 2 entry.mime_type
  if r1.1 ≠ 0 then (r1.1, entry, r1.2.2) else
  let e1 := { entry with mime_type := r1.2.1 }
  match fseek_cur r1.2.2 1 with
  | none => (1, e1, r1.2.2)
  | some f2 =>
    let r3 := fread f2 1
    if r3.1.length ≠ 1 then (1, e1, r3.2) else
    let e3 := { e1 with namespace_ := le_int r3.1 }
    let r4 := read_int r3.2 4 e3.revision
    if r4.1 ≠ 0 then (r4.1, e3, r4.2.2) else
    let e4 := { e3 with revision := r4.2.1 }
    let r5 :=
      if e4.mime_type = MIME_TYPE_REDIRECT then
        let a := read_int r4.2.2 4 e4.redirect_index
        (a.1, { e4 with redirect_index := a.2.1 }, a.2.2)
      else
        let a := read_int r4.2.2 4 e4.cluster_number
        if a.1 ≠ 0 then (a.1, e4, a.2.2) else
        let b := read_int a.2.2 4 e4.blob_number
        (b.1, { e4 with cluster_number := a.2.1, blob_number := b.2.1 }, b.2.2)
    if r5.1 ≠ 0 then (r5.1, e4, r5.2.2) else
    match read_string_loop 1000 r5.2.2 [] with
    | none => (1, r5.2.1, r5.2.2)
    | some (url, f6) =>
      match read_string_loop 1000 f6 [] with
      | none => (1, { r5.2.1 with url := url }, f6)
      | some (title, f7) => (0, { r5.2.1 with url := url, title := title }, f7)

/-- Second part of `zim_parse`, once the magic number has been accepted:
the header, the mime-type list and `dir_entries_pos`. -/
def zim_parse_after_magic (path : String) (archive : zim_archive_t) (magic_number : Nat)
    (file : FILE) : Outcome (Nat × zim_archive_t) :=
  let a1 : zim_archive_t :=
    ⟨some path, { archive.header with magic_number := magic_number }, archive.mime_type_list⟩
  let ph := parse_headers a1.header file
  let a2 : zim_archive_t := ⟨a1.path, ph.2.1, a1.mime_type_list⟩
  if ph.1 ≠ 0 then Outcome.ret (ph.1, a2)
  else
    match parse_mime_type_list a2 ph.2.2 with
    | Outcome.exit c => Outcome.exit c
    | Outcome.diverge => Outcome.diverge
    | Outcome.ret (list, f3) =>
      let a3 : zim_archive_t := ⟨a2.path, a2.header, list⟩
      match fseek_set f3 a3.header.url_ptr_pos with
      | none => Outcome.ret (1, a3)
      | some f4 =>
        let rd := read_int f4 8 a3.header.dir_entries_pos
        Outcome.ret (rd.1,
          ⟨a3.path, { a3.header with dir_entries_pos := rd.2.1 }, a3.mime_type_list⟩)

/-- Model of `zim_parse`: the error code and the archive as left by the call
(or the `exit` of `parse_mime_type_list`). -/
def zim_parse (fs : FileSystem) (path : String) (archive : zim_archive_t) :
    Outcome (Nat × zim_archive_t) :=
  match fopen fs (some path) with
  | none => Outcome.ret (1, archive)
  | some file =>
    if (fread file 4).1.length ≠ 4 then Outcome.ret (1, archive)
    else if le_int (fread file 4).1 ≠ ZIM_MAGIC then Outcome.ret (1, archive)
    else zim_parse_after_magic path archive (le_int (fread file 4).1) (fread file 4).2

/-! ## Reading a blob out of a cluster -/

/-- A `char *` handed back by the readers: `NULL`, the C string found at the
pointer, or an access outside the `MAX_ARTICLE_SIZE` bytes of the buffer
(undefined behaviour, not followed further). -/
inductive Content where
  | null : Content
  | str : List Nat → Content
  | out_of_bounds : Content
deriving DecidableEq, Repr

/-- Subtraction of two `unsigned long` values. -/
def usub64 (a b : Nat) : Nat :=
  (a % 2 ^ 64 + 2 ^ 64 - b % 2 ^ 64) % 2 ^ 64

/-- The bytes of the string literal `"Error reading article."`. -/
def error_reading_article : List Nat :=
  [69, 114, 114, 111, 114, 32, 114, 101, 97, 100, 105, 110, 103, 32,
   97, 114, 116, 105, 99, 108, 101, 46]

/-- What liblzma hands back to the loop of `read_from_xz_compressed_cluster`
for a given input: whether `lzma_stream_decoder` succeeds, the contents of
`outbuf` at each call of `lzma_code` that filled it while returning `LZMA_OK`,
the contents of `outbuf` at the first call returning something else, and
whether that return value is `LZMA_STREAM_END` (otherwise an error code).
Calls returning `LZMA_OK` without filling `outbuf` change nothing in the
loop. -/
structure LzmaRun where
  init_ok : Bool
  full : List (List Nat)
  last : List Nat
  stream_end : Bool
deriving DecidableEq, Repr

/-- The block run in `read_from_xz_compressed_cluster` when `outbuf` is full
or the stream has ended, for the bytes `outbuf` holds: whether the procedure
returns `true` there ("all is read"), and `read_count`, `buf_pos` and the
bytes copied to `buf` afterwards. -/
def xz_output_block (BUFSIZ start len : Nat) (read_count buf_pos : Nat)
    (captured outbuf : List Nat) : Bool × Nat × Nat × List Nat :=
  if read_count < start ∧ ¬ (read_count + outbuf.length ≥ start) then
    (false, read_count + BUFSIZ, buf_pos, captured)
  else
    let offset := if read_count < start then start - read_count else 0
    let write_size := outbuf.length - offset
    let should_write := if buf_pos + write_size ≥ len then len - buf_pos else write_size
    let copied := captured.take buf_pos ++ (outbuf.drop offset).take should_write
    if buf_pos + should_write ≥ len then (true, read_count, buf_pos + should_write, copied)
    else (false, read_count + BUFSIZ, buf_pos + should_write, copied)

/-- The `while (true)` loop of `read_from_xz_compressed_cluster` over the
calls of `lzma_code` that matter: the value returned (`true` is 1, `false`
is 0) and the bytes copied to `buf`. -/
def xz_decode_loop (BUFSIZ start len : Nat) :
    List (List Nat) → List Nat → Bool → Nat → Nat → List Nat → Nat × List Nat
  | [], last, stream_end, read_count, buf_pos, captured =>
    if last.length = BUFSIZ ∨ stream_end = true then
      if (xz_output_block BUFSIZ start len read_count buf_pos captured last).1 = true then
        (1, (xz_output_block BUFSIZ start len read_count buf_pos captured last).2.2.2)
      else (0, (xz_output_block BUFSIZ start len read_count buf_pos captured last).2.2.2)
    else (0, captured)
  | outbuf :: rest, last, stream_end, read_count, buf_pos, captured =>
    if (xz_output_block BUFSIZ start len read_count buf_pos captured outbuf).1 = true then
      (1, (xz_output_block BUFSIZ start len read_count buf_pos captured outbuf).2.2.2)
    else
      xz_decode_loop BUFSIZ start len rest last stream_end
        (xz_output_block BUFSIZ start len read_count buf_pos captured outbuf).2.1
        (xz_output_block BUFSIZ start len read_count buf_pos captured outbuf).2.2.1
        (xz_output_block BUFSIZ start len read_count buf_pos captured outbuf).2.2.2

/-- Model of `read_from_xz_compressed_cluster (file, start, len, buf)` for the
decoder run `run` of the bytes under the cursor: the `int` returned and the
bytes copied to the start of `buf`. -/
def read_from_xz_compressed_cluster (BUFSIZ : Nat) (run : LzmaRun) (start len : Nat) :
    Nat × List Nat :=
  if run.init_ok = false then (1, [])
  else xz_decode_loop BUFSIZ start len run.full run.last run.stream_end 0 0 []

/-- Model of `read_article_from_xz_compressed_cluster`. The three passes
start from the same cursor, hence see the same decoder run; `blob_index` and
`blob_index_end` are zero-initialised `unsigned long` objects whose first
bytes receive the copied bytes. -/
def read_article_from_xz_compressed_cluster (lzma : List Nat → LzmaRun) (BUFSIZ : Nat)
    (entry : zim_directory_entry_t) (file : FILE) (offset_size : Nat) : Content :=
  let run := lzma (file.data.drop file.pos)
  let blob_index_pos := (offset_size * entry.blob_number) % 2 ^ 64
  let a := read_from_xz_compressed_cluster BUFSIZ run blob_index_pos offset_size
  if a.1 ≠ 0 then Content.str error_reading_article
  else
    let blob_index := le_int a.2
    let b := read_from_xz_compressed_cluster BUFSIZ run
      ((blob_index_pos + offset_size) % 2 ^ 64) offset_size
    if b.1 ≠ 0 then Content.str error_reading_article
    else
      let blob_index_end := le_int b.2
      let c := read_from_xz_compressed_cluster BUFSIZ run blob_index
        (usub64 blob_index_end blob_index)
      if c.2.length > MAX_ARTICLE_SIZE then Content.out_of_bounds
      else Content.str (cstr c.2)

/-- Model of `ZSTD_decompress (dst, capacity, src, n)`: `zstd` gives the
content of the frame, `none` when the input is not a valid frame; the call
also fails when the content does not fit in `capacity` bytes. -/
def ZSTD_decompress (zstd : List Nat → Option (List Nat)) (capacity : Nat)
    (src : List Nat) : Option (List Nat) :=
  match zstd src with
  | none => none
  | some d => if d.length ≤ capacity then some d else none

/-- The `n` bytes at `pos` of the zero-filled buffer of `MAX_ARTICLE_SIZE`
bytes into which `d` was decompressed; `none` outside the buffer. -/
def article_buf_read (d : List Nat) (pos n : Nat) : Option (List Nat) :=
  if pos + n ≤ MAX_ARTICLE_SIZE then
    some ((d.drop pos).take n ++ List.replicate (n - ((d.drop pos).take n).length) 0)
  else none

/-- Model of `read_int_from_buf (buf + pos, len, dest)` on that buffer. -/
def read_int_from_buf (d : List Nat) (pos len : Nat) (dest : Nat) : Option (Nat × Nat) :=
  match article_buf_read d pos len with
  | none => none
  | some bytes =>
    if len = 2 ∨ len = 4 ∨ len = 8 then some (0, store_low dest len bytes)
    else if len = 16 then some (0, store_low dest 8 (bytes.take 8))
    else some (1, dest)

/-- Model of `strndup (buf + pos, n)` on that buffer: the bytes before the
first NUL, at most `n` of them; `none` when the scan leaves the buffer. -/
def strndup_buf (d : List Nat) (pos n : Nat) : Option (List Nat) :=
  let avail := (d.drop pos).take n
  if (cstr avail).length < avail.length then some (cstr avail)
  else if avail.length = n then some (cstr avail)
  else if max pos d.length < MAX_ARTICLE_SIZE then some (cstr avail)
  else none

/-- Model of `read_article_from_zstd_compressed_cluster`. -/
def read_article_from_zstd_compressed_cluster (zstd : List Nat → Option (List Nat))
    (entry : zim_directory_entry_t) (file : FILE) (offset_size cluster_len : Nat) : Content :=
  let r := fread file cluster_len
  if r.1.length ≠ cluster_len then Content.null
  else
    match ZSTD_decompress zstd MAX_ARTICLE_SIZE r.1 with
    | none => Content.null
    | some d =>
      let pos := (offset_size * entry.blob_number) % 2 ^ 64
      match read_int_from_buf d pos offset_size 0 with
      | none => Content.out_of_bounds
      | some (err, blob_index) =>
        if err ≠ 0 then Content.null
        else
          match read_int_from_buf d ((pos + offset_size) % 2 ^ 64) offset_size 0 with
          | none => Content.out_of_bounds
          | some (err2, blob_end_index) =>
            if err2 ≠ 0 then Content.null
            else
              match strndup_buf d blob_index (usub64 blob_end_index blob_index) with
              | none => Content.out_of_bounds
              | some s => Content.str s

/-- Model of `read_article_from_uncompressed_cluster`. The result of the first
`fseek` is not tested; `entry->blob_number + 2` is computed on `unsigned int`;
the length handed to `fgets` is converted to `int`; when `fgets` fails the
freshly allocated (empty) buffer is returned. -/
def read_article_from_uncompressed_cluster (entry : zim_directory_entry_t) (file : FILE)
    (offset_size : Nat) : Content :=
  let f1 := (fseek_cur file ((offset_size * entry.blob_number) % 2 ^ 64)).getD file
  let r1 := read_int f1 offset_size 0
  if r1.1 ≠ 0 then Content.null
  else
    let blob_index := r1.2.1
    let r2 := read_int r1.2.2 offset_size 0
    if r2.1 ≠ 0 then Content.null
    else
      let blob_end_index := r2.2.1
      match fseek_cur r2.2.2
          (usub64 blob_index ((offset_size * ((entry.blob_number + 2) % 2 ^ 32)) % 2 ^ 64)) with
      | none => Content.null
      | some f3 =>
        match (fgets f3 (to_int (usub64 blob_end_index blob_index))).1 with
        | none => Content.str []
        | some line =>
          if line.length + 1 > MAX_ARTICLE_SIZE then Content.out_of_bounds
          else Content.str (cstr line)

/-- What the program runs against: the files, the two decoders, and the
`BUFSIZ` of `<stdio.h>`. -/
structure Env where
  fs : FileSystem
  lzma : List Nat → LzmaRun
  zstd : List Nat → Option (List Nat)
  BUFSIZ : Nat

/-- First part of `retrieve_directory_entry_content`, up to the read of the
info byte: the value of the low byte of `cluster_information`, `cluster_len`,
and the stream placed after the info byte; `none` when the procedure leaves
through `cleanup` before that. `entry->cluster_number * 8` and
`cluster_count - 1` are computed on `unsigned int`; `cluster_end` stays 0 when
it is not read. -/
def locate_cluster (env : Env) (archive : zim_archive_t) (entry : zim_directory_entry_t) :
    Option (Nat × Nat × FILE) :=
  match fopen env.fs archive.path with
  | none => none
  | some file =>
    match fseek_set file
        ((archive.header.cluster_ptr_pos + (entry.cluster_number * 8) % 2 ^ 32) % 2 ^ 64) with
    | none => none
    | some f1 =>
      let r1 := read_int f1 8 0
      if r1.1 ≠ 0 then none
      else
        let cluster_start := r1.2.1
        let r2 :=
          if entry.cluster_number < (archive.header.cluster_count + 2 ^ 32 - 1) % 2 ^ 32 then
            read_int r1.2.2 8 0
          else (0, 0, r1.2.2)
        if r2.1 ≠ 0 then none
        else
          let cluster_end := r2.2.1
          match fseek_set r2.2.2 cluster_start with
          | none => none
          | some f3 =>
            let r3 := fread f3 1
            if r3.1.length ≠ 1 then none
            else some (le_int r3.1, usub64 (usub64 cluster_end cluster_start) 1, r3.2)

/-- Second part of `retrieve_directory_entry_content`: the choice of the
reader from the info byte. Only the low five bits of `cluster_information`
are used. -/
def read_located_cluster (env : Env) (entry : zim_directory_entry_t)
    (cluster_information cluster_len : Nat) (file : FILE) : Content :=
  let compressed := cluster_information &&& 0x0F
  let extended := cluster_information &&& 0x10
  let offset_size := if extended ≠ 0 then 8 else 4
  if compressed = COMPRESSION_XZ then
    read_article_from_xz_compressed_cluster env.lzma env.BUFSIZ entry file offset_size
  else if compressed = COMPRESSION_ZSTD then
    read_article_from_zstd_compressed_cluster env.zstd entry file offset_size cluster_len
  else read_article_from_uncompressed_cluster entry file offset_size

/-- Model of `retrieve_directory_entry_content`. -/
def retrieve_directory_entry_content (env : Env) (archive : zim_archive_t)
    (entry : zim_directory_entry_t) : Content :=
  match locate_cluster env archive entry with
  | none => Content.null
  | some (cluster_information, cluster_len, file) =>
    read_located_cluster env entry cluster_information cluster_len file

/-! ## Reading an article by index and by url -/

/-- A `char *` returned by `read_article_at_index` or `read_article_at_url`,
with the number of calls of `retrieve_directory_entry_content` made to get
it (the only procedure that opens the cluster pointer table and a cluster). -/
structure ReadResult where
  content : Content
  lookups : Nat
deriving DecidableEq, Repr

/-- Model of `read_article_at_index`. The test after `read_int` is the one of
the source, `if (!read_int (file, 8, &dir_entry))`: the procedure leaves with
`NULL` when the pointer was read, and goes on with `dir_entry` still 0 when it
was not. The first argument bounds the depth of the recursion on redirects. -/
def read_article_at_index (env : Env) :
    Nat → zim_archive_t → Nat → Outcome ReadResult
  | 0, _, _ => Outcome.diverge
  | fuel + 1, archive, i =>
    match fopen env.fs archive.path with
    | none => Outcome.ret ⟨Content.null, 0⟩
    | some file =>
      match fseek_set file ((archive.header.url_ptr_pos + (i * 8) % 2 ^ 64) % 2 ^ 64) with
      | none => Outcome.ret ⟨Content.null, 0⟩
      | some f1 =>
        if (read_int f1 8 0).1 = 0 then Outcome.ret ⟨Content.null, 0⟩
        else
          match fseek_set (read_int f1 8 0).2.2 (read_int f1 8 0).2.1 with
          | none => Outcome.ret ⟨Content.null, 0⟩
          | some f2 =>
            if (parse_directory_entry f2 zero_entry).1 ≠ 0 then
              Outcome.ret ⟨Content.null, 0⟩
            else if (parse_directory_entry f2 zero_entry).2.1.mime_type
                = MIME_TYPE_REDIRECT then
              read_article_at_index env fuel archive
                (parse_directory_entry f2 zero_entry).2.1.redirect_index
            else if (parse_directory_entry f2 zero_entry).2.1.mime_type = MIME_TYPE_REDLINK
                ∨ (parse_directory_entry f2 zero_entry).2.1.mime_type
                  = MIME_TYPE_DELETED then
              Outcome.ret ⟨Content.null, 0⟩
            else
              Outcome.ret ⟨retrieve_directory_entry_content env archive
                (parse_directory_entry f2 zero_entry).2.1, 1⟩

/-- The directory entry reached through the `i`-th url pointer, the way the
loop body of `dump_all_articles` fetches it: seek to `url_ptr_pos + i * 8`,
read the pointer, seek there, parse. `none` when a step fails. -/
def entry_at_index (env : Env) (archive : zim_archive_t) (i : Nat) :
    Option zim_directory_entry_t :=
  match fopen env.fs archive.path with
  | none => none
  | some file =>
    match fseek_set file ((archive.header.url_ptr_pos + (i * 8) % 2 ^ 64) % 2 ^ 64) with
    | none => none
    | some f1 =>
      if (read_int f1 8 0).1 ≠ 0 then none
      else
        match fseek_set (read_int f1 8 0).2.2 (read_int f1 8 0).2.1 with
        | none => none
        | some f2 =>
          if (parse_directory_entry f2 zero_entry).1 ≠ 0 then none
          else some (parse_directory_entry f2 zero_entry).2.1

/-- How the `while (true)` loop of `read_article_at_url` is left: through a
`goto cleanup` after a failed seek, read or parse; through a `break`, with
`entry` either `NULL` or the entry the comparison stopped on; or not within
the iterations granted to the model. -/
inductive SearchEnd where
  | failed : SearchEnd
  | stopped : Option zim_directory_entry_t → SearchEnd
  | out_of_steps : SearchEnd
deriving DecidableEq, Repr

/-- The `while (true)` loop of `read_article_at_url`, from the values of
`floor` and `ceil`. The last component counts the calls of
`parse_directory_entry`. -/
def url_search_loop (file : FILE) (header : zim_header_t) (url : List Nat) :
    Nat → Nat → Nat → Nat → SearchEnd × Nat
  | 0, _, _, parses => (SearchEnd.out_of_steps, parses)
  | steps + 1, floor, ceil, parses =>
    let cut := floor + (ceil - floor) / 2
    if floor = cut then (SearchEnd.stopped none, parses)
    else
      match fseek_set file ((header.url_ptr_pos + (cut * 8) % 2 ^ 64) % 2 ^ 64) with
      | none => (SearchEnd.failed, parses)
      | some f1 =>
        if (read_int f1 8 0).1 ≠ 0 then (SearchEnd.failed, parses)
        else
          match fseek_set (read_int f1 8 0).2.2 (read_int f1 8 0).2.1 with
          | none => (SearchEnd.failed, parses)
          | some f2 =>
            if (parse_directory_entry f2 zero_entry).1 ≠ 0 then
              (SearchEnd.failed, parses + 1)
            else if strncmp url (parse_directory_entry f2 zero_entry).2.1.url url.length
                = 0 then
              (SearchEnd.stopped (some (parse_directory_entry f2 zero_entry).2.1), parses + 1)
            else if strncmp url (parse_directory_entry f2 zero_entry).2.1.url url.length
                < 0 then
              url_search_loop file header url steps floor cut (parses + 1)
            else url_search_loop file header url steps cut ceil (parses + 1)

/-- Model of `read_article_at_url`; `url` is the C string asked for. The loop
is granted `article_count + 1` iterations, more than it can use since
`ceil - floor` decreases at every iteration that does not leave it. -/
def read_article_at_url (env : Env) (fuel : Nat) (archive : zim_archive_t)
    (url : List Nat) : Outcome ReadResult :=
  match fopen env.fs archive.path with
  | none => Outcome.ret ⟨Content.null, 0⟩
  | some file =>
    match (url_search_loop file archive.header url (archive.header.article_count + 1)
        0 archive.header.article_count 0).1 with
    | SearchEnd.out_of_steps => Outcome.diverge
    | SearchEnd.failed => Outcome.ret ⟨Content.null, 0⟩
    | SearchEnd.stopped none => Outcome.ret ⟨Content.null, 0⟩
    | SearchEnd.stopped (some entry) =>
      if entry.mime_type = MIME_TYPE_REDIRECT then
        read_article_at_index env fuel archive entry.redirect_index
      else if entry.mime_type = MIME_TYPE_REDLINK ∨ entry.mime_type = MIME_TYPE_DELETED then
        Outcome.ret ⟨Content.null, 0⟩
      else Outcome.ret ⟨retrieve_directory_entry_content env archive entry, 1⟩

/-- The indices `cut` at which the `while (true)` loop of
`read_article_at_url` calls `parse_directory_entry`, in the order of the
calls: the loop of `url_search_loop`, keeping the indices instead of their
number. -/
def url_search_cuts (file : FILE) (header : zim_header_t) (url : List Nat) :
    Nat → Nat → Nat → List Nat
  | 0, _, _ => []
  | steps + 1, floor, ceil =>
    let cut := floor + (ceil - floor) / 2
    if floor = cut then []
    else
      match fseek_set file ((header.url_ptr_pos + (cut * 8) % 2 ^ 64) % 2 ^ 64) with
      | none => []
      | some f1 =>
        if (read_int f1 8 0).1 ≠ 0 then []
        else
          match fseek_set (read_int f1 8 0).2.2 (read_int f1 8 0).2.1 with
          | none => []
          | some f2 =>
            if (parse_directory_entry f2 zero_entry).1 ≠ 0 then [cut]
            else if strncmp url (parse_directory_entry f2 zero_entry).2.1.url url.length
                = 0 then [cut]
            else if strncmp url (parse_directory_entry f2 zero_entry).2.1.url url.length
                < 0 then
              cut :: url_search_cuts file header url steps floor cut
            else cut :: url_search_cuts file header url steps cut ceil

/-- Model of `show_article`: the value returned (the exit code of `main`) and
the article handed to `puts` (`Content.null` when nothing is printed). -/
def show_article (env : Env) (fuel : Nat) (zimfile_path : String) (url : List Nat) :
    Outcome (Nat × Content) :=
  match zim_parse env.fs zimfile_path new_zim_archive with
  | Outcome.exit c => Outcome.exit c
  | Outcome.diverge => Outcome.diverge
  | Outcome.ret (err, archive) =>
    if err ≠ 0 then Outcome.ret (err, Content.null)
    else
      match read_article_at_url env fuel archive url with
      | Outcome.exit c => Outcome.exit c
      | Outcome.diverge => Outcome.diverge
      | Outcome.ret article => Outcome.ret (err, article.content)

/-! ## Dumping all articles and the mime types -/

/-- The tokens that `strtok (list, ",")` and the calls `strtok (NULL, ",")`
yield in turn: the non-empty runs of bytes between commas. The second
argument is the run being read. -/
def strtok_commas : List Nat → List Nat → List (List Nat)
  | [], cur => if cur = [] then [] else [cur]
  | c :: rest, cur =>
    if c = 44 then
      if cur = [] then strtok_commas rest [] else cur :: strtok_commas rest []
    else strtok_commas rest (cur ++ [c])

/-- Model of `is_accepted_mimetype`: some token of the whitelist compares
equal to `mime_type` over the length of the token. -/
def is_accepted_mimetype (mime_type mime_type_whitelist : List Nat) : Bool :=
  (strtok_commas mime_type_whitelist []).any
    (fun accepted => strncmp mime_type accepted accepted.length == 0)

/-- The bytes of `none (redirect)`. -/
def none_redirect : List Nat :=
  [110, 111, 110, 101, 32, 40, 114, 101, 100, 105, 114, 101, 99, 116, 41]

/-- The bytes of `none (deleted page)`. -/
def none_deleted_page : List Nat :=
  [110, 111, 110, 101, 32, 40, 100, 101, 108, 101, 116, 101, 100, 32, 112, 97, 103, 101, 41]

/-- The bytes of `unknown`. -/
def unknown : List Nat := [117, 110, 107, 110, 111, 119, 110]

/-- The `switch (entry->mime_type)` of `dump_all_articles`: the text printed
after `mime-type: ` for a code outside the list. -/
def sentinel_mime_line (mime_type : Nat) : List Nat :=
  if mime_type = MIME_TYPE_REDIRECT then none_redirect
  else if mime_type = MIME_TYPE_REDLINK ∨ mime_type = MIME_TYPE_DELETED then none_deleted_page
  else unknown

/-- The text `dump_all_articles` prints after `mime-type: ` for an entry:
`items[entry->mime_type]` when the code is below `len` (`none` when that
element lies outside the array `items`), the text of the `switch` otherwise. -/
def mime_type_line (list : zim_mime_type_list_t) (entry : zim_directory_entry_t) :
    Option (List Nat) :=
  if entry.mime_type < list.len then list.items[entry.mime_type]?
  else some (sentinel_mime_line entry.mime_type)

/-- What `dump_all_articles` prints about the content of an entry: nothing,
`content:` followed by `NOT-WHITELISTED-MIME-TYPE`, or `content:` followed by
the article `read_article_at_url` returned (nothing more when it is `NULL`). -/
inductive ContentLines where
  | absent : ContentLines
  | not_whitelisted : ContentLines
  | article : Content → ContentLines
deriving DecidableEq, Repr

/-- One record printed by `dump_all_articles`, between `<START_OF_ZIM_ARTICLE>`
and `<END_OF_ZIM_ARTICLE>`. -/
structure ArticleRecord where
  url : List Nat
  title : List Nat
  mime_type : Option (List Nat)
  content : ContentLines
deriving DecidableEq, Repr

/-- The record `dump_all_articles` prints for a parsed entry. An element
`items[entry->mime_type]` outside the array is not followed further. -/
def article_record (env : Env) (fuel : Nat) (archive : zim_archive_t)
    (show_article_content : Bool) (mime_type_whitelist : List Nat)
    (entry : zim_directory_entry_t) : Outcome ArticleRecord :=
  if entry.mime_type < archive.mime_type_list.len then
    match archive.mime_type_list.items[entry.mime_type]? with
    | none =>
      Outcome.ret ⟨entry.url, entry.title, mime_type_line archive.mime_type_list entry,
        ContentLines.absent⟩
    | some mime_type =>
      if show_article_content = true then
        if is_accepted_mimetype mime_type mime_type_whitelist = true then
          match read_article_at_url env fuel archive entry.url with
          | Outcome.exit c => Outcome.exit c
          | Outcome.diverge => Outcome.diverge
          | Outcome.ret r =>
            Outcome.ret ⟨entry.url, entry.title, mime_type_line archive.mime_type_list entry,
              ContentLines.article r.content⟩
        else
          Outcome.ret ⟨entry.url, entry.title, mime_type_line archive.mime_type_list entry,
            ContentLines.not_whitelisted⟩
      else
        Outcome.ret ⟨entry.url, entry.title, mime_type_line archive.mime_type_list entry,
          ContentLines.absent⟩
  else
    Outcome.ret ⟨entry.url, entry.title, mime_type_line archive.mime_type_list entry,
      ContentLines.absent⟩

/-- Putting a record in front of what the rest of the loop prints. -/
def add_record (record : ArticleRecord) :
    Outcome (Nat × List ArticleRecord) → Outcome (Nat × List ArticleRecord)
  | Outcome.ret (err, records) => Outcome.ret (err, record :: records)
  | Outcome.exit c => Outcome.exit c
  | Outcome.diverge => Outcome.diverge

/-- The `for` loop of `dump_all_articles`, for the `remaining` iterations
from index `i` on, `err` being the value of the variable `err` when the
iteration starts: the value of `err` when the procedure leaves and the
records printed. A failed seek or pointer read leaves the loop; an entry that
does not parse is skipped by `continue`, with `err` as the parser set it. -/
def dump_articles_loop (env : Env) (fuel : Nat) (archive : zim_archive_t) (file : FILE)
    (show_article_content : Bool) (mime_type_whitelist : List Nat) :
    Nat → Nat → Nat → Outcome (Nat × List ArticleRecord)
  | 0, _, err => Outcome.ret (err, [])
  | remaining + 1, i, _ =>
    match fseek_set file ((archive.header.url_ptr_pos + (i * 8) % 2 ^ 64) % 2 ^ 64) with
    | none => Outcome.ret (1, [])
    | some f1 =>
      if (read_int f1 8 0).1 ≠ 0 then Outcome.ret ((read_int f1 8 0).1, [])
      else
        match fseek_set (read_int f1 8 0).2.2 (read_int f1 8 0).2.1 with
        | none => Outcome.ret (1, [])
        | some f2 =>
          if (parse_directory_entry f2 zero_entry).1 ≠ 0 then
            dump_articles_loop env fuel archive file show_article_content mime_type_whitelist
              remaining (i + 1) (parse_directory_entry f2 zero_entry).1
          else
            match article_record env fuel archive show_article_content mime_type_whitelist
                (parse_directory_entry f2 zero_entry).2.1 with
            | Outcome.exit c => Outcome.exit c
            | Outcome.diverge => Outcome.diverge
            | Outcome.ret record =>
              add_record record
                (dump_articles_loop env fuel archive file show_article_content
                  mime_type_whitelist remaining (i + 1) 0)

/-- Model of `dump_all_articles`: the value returned and the records printed,
in order. -/
def dump_all_articles (env : Env) (fuel : Nat) (zimfile_path : String)
    (show_article_content : Bool) (mime_type_whitelist : List Nat) :
    Outcome (Nat × List ArticleRecord) :=
  match zim_parse env.fs zimfile_path new_zim_archive with
  | Outcome.exit c => Outcome.exit c
  | Outcome.diverge => Outcome.diverge
  | Outcome.ret (err, archive) =>
    if err ≠ 0 then Outcome.ret (err, [])
    else
      match fopen env.fs archive.path with
      | none => Outcome.ret (1, [])
      | some file =>
        dump_articles_loop env fuel archive file show_article_content mime_type_whitelist
          archive.header.article_count 0 err

/-- Model of `dump_mime_types`: the value returned and, for each `i < len`,
the string `items[i]` printed (`none` when that element lies outside the
array). -/
def dump_mime_types (fs : FileSystem) (zimfile_path : String) :
    Outcome (Nat × List (Option (List Nat))) :=
  match zim_parse fs zimfile_path new_zim_archive with
  | Outcome.exit c => Outcome.exit c
  | Outcome.diverge => Outcome.diverge
  | Outcome.ret (err, archive) =>
    if err ≠ 0 then Outcome.ret (err, [])
    else
      Outcome.ret (err,
        (List.range archive.mime_type_list.len).map
          (fun i => archive.mime_type_list.items[i]?))

/-! ## Example archives -/

/-- The `w` little-endian bytes of `v`. -/
def le_bytes : Nat → Nat → List Nat
  | 0, _ => []
  | w + 1, v => v % 256 :: le_bytes w (v / 256)

/-- An 80-byte ZIM header (version 5.0, zero uuid) with the given counts and
positions. -/
def example_header (article_count cluster_count url_ptr_pos title_ptr_pos cluster_ptr_pos
    mime_list_pos checksum_pos : Nat) : List Nat :=
  le_bytes 4 ZIM_MAGIC ++ le_bytes 2 5 ++ le_bytes 2 0 ++ List.replicate 16 0
    ++ le_bytes 4 article_count ++ le_bytes 4 cluster_count
    ++ le_bytes 8 url_ptr_pos ++ le_bytes 8 title_ptr_pos ++ le_bytes 8 cluster_ptr_pos
    ++ le_bytes 8 mime_list_pos ++ le_bytes 4 0xffffffff ++ le_bytes 4 0xffffffff
    ++ le_bytes 8 checksum_pos

/-- The mime-type list `text/plain`, closed by an empty string (12 bytes). -/
def example_mime_list : List Nat :=
  [116, 101, 120, 116, 47, 112, 108, 97, 105, 110, 0, 0]

/-- A content entry in namespace `A` with a one-letter title `T`. -/
def example_content_entry (mime cluster blob : Nat) (url : List Nat) : List Nat :=
  le_bytes 2 mime ++ [0, 65] ++ le_bytes 4 0 ++ le_bytes 4 cluster ++ le_bytes 4 blob
    ++ url ++ [0] ++ [84, 0]

/-- A redirect entry in namespace `A` with a one-letter title `T`. -/
def example_redirect_entry (redirect_index : Nat) (url : List Nat) : List Nat :=
  le_bytes 2 0xffff ++ [0, 65] ++ le_bytes 4 0 ++ le_bytes 4 redirect_index
    ++ url ++ [0] ++ [84, 0]

/-- The bytes of `hello`. -/
def hello : List Nat := [104, 101, 108, 108, 111]

/-- The bytes of `world`. -/
def world : List Nat := [119, 111, 114, 108, 100]

/-- A cluster with info byte `info`, 4-byte offsets and the one blob `blob`. -/
def example_cluster (info : Nat) (blob : List Nat) : List Nat :=
  [info] ++ le_bytes 4 8 ++ le_bytes 4 (8 + blob.length) ++ blob

/-- The archive of one article: url `hello`, mime type 0, blob `world` in one
cluster whose info byte is `info`. Layout: header 0..79, mime list 80..91, url
pointer 92..99, title pointer 100..103, entry 104..127, cluster pointer
128..135, cluster 136..149, checksum from 150. -/
def hello_archive (info : Nat) : List Nat :=
  example_header 1 1 92 100 128 80 150 ++ example_mime_list
    ++ le_bytes 8 104 ++ le_bytes 4 0
    ++ example_content_entry 0 0 0 hello
    ++ le_bytes 8 136
    ++ example_cluster info world
    ++ List.replicate 16 0

/-- An environment holding one file, read whatever the path, with decoders
that accept nothing. -/
def one_file_env (data : List Nat) : Env :=
  ⟨fun _ => some data, fun _ => ⟨false, [], [], false⟩, fun _ => none, 8192⟩

/-- An environment holding one file whose XZ streams all decode as `run`. -/
def lzma_env (data : List Nat) (run : LzmaRun) : Env :=
  ⟨fun _ => some data, fun _ => run, fun _ => none, 8192⟩

/-- An environment holding one file whose zstd frames all decode to `d`. -/
def zstd_env (data : List Nat) (d : List Nat) : Env :=
  ⟨fun _ => some data, fun _ => ⟨false, [], [], false⟩, fun _ => some d, 8192⟩

/-- The bytes of `alpha`. -/
def alpha : List Nat := [97, 108, 112, 104, 97]

/-- The bytes of `bravo-bravo`. -/
def bravo_bravo : List Nat := [98, 114, 97, 118, 111, 45, 98, 114, 97, 118, 111]

/-- Logical content of a cluster holding the blobs `alpha` and `bravo-bravo`
with 4-byte offsets 12, 17 and 28. -/
def two_blobs : List Nat :=
  le_bytes 4 12 ++ le_bytes 4 17 ++ le_bytes 4 28 ++ alpha ++ bravo_bravo

/-- The entry of the single-article archive: mime type 0, namespace `A`,
cluster 0, blob `blob_number`, url `hello`, title `T`. -/
def hello_entry (blob_number : Nat) : zim_directory_entry_t :=
  ⟨0, 65, 0, 0, 0, blob_number, hello, [84]⟩

/-- The `i`-th offset of the table at the start of the logical content `d`
of a cluster, for offsets of `offset_size` bytes. -/
def blob_offset (offset_size : Nat) (d : List Nat) (i : Nat) : Nat :=
  le_int ((d.drop (offset_size * i)).take offset_size)

/-- A logical content `d` starting with a well-formed table for `n` blobs:
the `n + 1` offsets lie in `d`, they do not decrease, and the last one is the
length of `d`. -/
def well_formed_offsets (offset_size : Nat) (d : List Nat) (n : Nat) : Prop :=
  offset_size * (n + 1) ≤ d.length
    ∧ (∀ i, i < n → blob_offset offset_size d i ≤ blob_offset offset_size d (i + 1))
    ∧ blob_offset offset_size d n = d.length

instance (offset_size : Nat) (d : List Nat) (n : Nat) :
    Decidable (well_formed_offsets offset_size d n) := by
  unfold well_formed_offsets
  infer_instance

/-- The bytes of blob `k` in the logical content `d`. -/
def blob_bytes (offset_size : Nat) (d : List Nat) (k : Nat) : List Nat :=
  (d.drop (blob_offset offset_size d k)).take
    (blob_offset offset_size d (k + 1) - blob_offset offset_size d k)

/-- The archive `zim_parse` builds from a file (the fresh archive when the
file is rejected). -/
def archive_of (data : List Nat) : zim_archive_t :=
  match zim_parse (fun _ => some data) "a.zim" new_zim_archive with
  | Outcome.ret (_, archive) => archive
  | _ => new_zim_archive

/-- An archive of three entries in url order: `a` (content, blob `world`),
`b` (redirect to index 0) and `c` (deleted, mime code 0xfffd). Layout: header
0..79, mime list 80..91, url pointers 92..115, title pointers 116..127,
entries at 128, 148 and 164, cluster pointer 184..191, cluster 192..205,
checksum from 206. -/
def three_archive : List Nat :=
  example_header 3 1 92 116 184 80 206 ++ example_mime_list
    ++ le_bytes 8 128 ++ le_bytes 8 148 ++ le_bytes 8 164
    ++ le_bytes 4 0 ++ le_bytes 4 1 ++ le_bytes 4 2
    ++ example_content_entry 0 0 0 [97]
    ++ example_redirect_entry 0 [98]
    ++ example_content_entry 0xfffd 0 0 [99]
    ++ le_bytes 8 192
    ++ example_cluster 1 world
    ++ List.replicate 16 0

/-- The single-article archive (see `hello_archive`) with info byte `info`
and the eight bytes of `checksum_pos` in the header holding `checksum_pos`. -/
def hello_archive_with (info checksum_pos : Nat) : List Nat :=
  example_header 1 1 92 100 128 80 checksum_pos ++ example_mime_list
    ++ le_bytes 8 104 ++ le_bytes 4 0
    ++ example_content_entry 0 0 0 hello
    ++ le_bytes 8 136
    ++ example_cluster info world
    ++ List.replicate 16 0

/-- An archive without article whose mime-type list holds a string of 100
letters `a` and then `text/plain`. Layout: header 0..79, mime list 80..192
(the long string 80..179, its NUL at 180, `text/plain` 181..190, its NUL at
191, the closing NUL at 192), one url pointer slot 193..200, checksum from 201. -/
def long_mime_archive : List Nat :=
  example_header 0 0 193 201 201 80 201 ++ (List.replicate 100 97 ++ [0]) ++ example_mime_list
    ++ le_bytes 8 0 ++ List.replicate 16 0

/-- A content record whose url is 1000 letters `a`, with title `T`. -/
def long_url_record : List Nat :=
  example_content_entry 0 0 0 (List.replicate 1000 97)

/-- A content record with url `a` whose title is 1001 letters `t`. -/
def long_title_record : List Nat :=
  le_bytes 2 0 ++ [0, 65] ++ le_bytes 4 0 ++ le_bytes 4 0 ++ le_bytes 4 0
    ++ [97] ++ [0] ++ List.replicate 1001 116 ++ [0]

/-- The archive of three entries (see `three_archive`) with the three url
pointers given; the entries lie at 128, 148 and 164 and the file has 222
bytes. -/
def three_archive_with (p0 p1 p2 : Nat) : List Nat :=
  example_header 3 1 92 116 184 80 206 ++ example_mime_list
    ++ le_bytes 8 p0 ++ le_bytes 8 p1 ++ le_bytes 8 p2
    ++ le_bytes 4 0 ++ le_bytes 4 1 ++ le_bytes 4 2
    ++ example_content_entry 0 0 0 [97]
    ++ example_redirect_entry 0 [98]
    ++ example_content_entry 0xfffd 0 0 [99]
    ++ le_bytes 8 192
    ++ example_cluster 1 world
    ++ List.replicate 16 0

/-- The bytes of a mime-type list holding the given strings, each followed
by its NUL (the closing empty string is not included). -/
def mime_list_bytes : List (List Nat) → List Nat
  | [] => []
  | s :: rest => s ++ 0 :: mime_list_bytes rest

/-- An archive without article whose mime-type list holds 10001 strings `a`.
Layout: header 0..79, mime list 80..20081, its closing NUL at 20082, one url
pointer slot 20083..20090, checksum from 20091. -/
def many_mimes_archive : List Nat :=
  example_header 0 0 20083 20091 20091 80 20091
    ++ (mime_list_bytes (List.replicate 10001 [97]) ++ 0 :: (le_bytes 8 0 ++ List.replicate 16 0))

/-- The archive of three entries (see `three_archive`) whose first entry has
the mime code `mime`. -/
def three_archive_mime (mime : Nat) : List Nat :=
  example_header 3 1 92 116 184 80 206 ++ example_mime_list
    ++ le_bytes 8 128 ++ le_bytes 8 148 ++ le_bytes 8 164
    ++ le_bytes 4 0 ++ le_bytes 4 1 ++ le_bytes 4 2
    ++ example_content_entry mime 0 0 [97]
    ++ example_redirect_entry 0 [98]
    ++ example_content_entry 0xfffd 0 0 [99]
    ++ le_bytes 8 192
    ++ example_cluster 1 world
    ++ List.replicate 16 0

/-- The offsets of consecutive records laid out from offset `p` on. -/
def record_offsets : Nat → List (List Nat) → List Nat
  | _, [] => []
  | p, r :: rest => p :: record_offsets (p + r.length) rest

/-- An archive built from its directory records, given in the order of the
url pointers, and from the bytes of its one cluster. Layout: header 0..79,
mime list `text/plain` 80..91, the url pointers from 92, the title pointers,
the records, the cluster pointer, the cluster, 16 bytes of checksum. -/
def archive_with (records : List (List Nat)) (cluster : List Nat) : List Nat :=
  example_header records.length 1 92 (92 + 8 * records.length)
      (92 + 12 * records.length + records.flatten.length) 80
      (92 + 12 * records.length + records.flatten.length + 8 + cluster.length)
    ++ example_mime_list
    ++ ((record_offsets (92 + 12 * records.length) records).map (le_bytes 8)).flatten
    ++ ((List.range records.length).map (le_bytes 4)).flatten
    ++ records.flatten
    ++ le_bytes 8 (92 + 12 * records.length + records.flatten.length + 8)
    ++ cluster
    ++ List.replicate 16 0

/-- The offsets of a blob table whose first blob starts at `p`: one offset
per blob and the offset of the end of the last one. -/
def blob_table_offsets : Nat → List (List Nat) → List Nat
  | p, [] => [p]
  | p, b :: rest => p :: blob_table_offsets (p + b.length) rest

/-- The logical content of a cluster holding the given blobs behind a table
of offsets of `w` bytes. -/
def cluster_content (w : Nat) (blobs : List (List Nat)) : List Nat :=
  ((blob_table_offsets (w * (blobs.length + 1)) blobs).map (le_bytes w)).flatten ++ blobs.flatten

/-- An archive of five entries: `a` (content, blob `world`), `b` (redirect to
index 0), `c` (redirect to index 3), `d` (redirect to index 2) and `e`
(redirect to index 4, itself). -/
def redirect_archive : List Nat :=
  archive_with
    [example_content_entry 0 0 0 [97], example_redirect_entry 0 [98],
     example_redirect_entry 3 [99], example_redirect_entry 2 [100],
     example_redirect_entry 4 [101]]
    (example_cluster 1 world)

/-- The bytes of `one`, `two`, `three` and `four`. -/
def four_blobs : List (List Nat) :=
  [[111, 110, 101], [116, 119, 111], [116, 104, 114, 101, 101], [102, 111, 117, 114]]

/-- An archive of four content entries in url order, `a`, `b`, `bc` and `d`,
whose blobs are the four blobs `one`, `two`, `three` and `four` of one
uncompressed cluster with 4-byte offsets. -/
def prefix_archive : List Nat :=
  archive_with
    [example_content_entry 0 0 0 [97], example_content_entry 0 0 1 [98],
     example_content_entry 0 0 2 [98, 99], example_content_entry 0 0 3 [100]]
    (1 :: cluster_content 4 four_blobs)

/-- The single-entry archive whose cluster holds `alpha` and `bravo-bravo`
behind offsets of `w` bytes, with info byte `info`. -/
def two_blob_archive (info w : Nat) : List Nat :=
  archive_with [example_content_entry 0 0 0 hello]
    (info :: cluster_content w [alpha, bravo_bravo])

/-- A record laid out as if the parameter-length byte, here 2, were followed
by that many bytes of parameters (7 and 9): the mime code 0, the byte 2, the
two bytes, then namespace `A`, revision 1, cluster 0, blob 0, url `a`, title
`T`. -/
def parameter_record : List Nat :=
  le_bytes 2 0 ++ [2] ++ [7, 9] ++ [65] ++ le_bytes 4 1 ++ le_bytes 4 0 ++ le_bytes 4 0
    ++ [97, 0] ++ [84, 0]

/-- The bytes of `text/plain;charset=UTF-8`. -/
def text_plain_utf8 : List Nat :=
  [116, 101, 120, 116, 47, 112, 108, 97, 105, 110, 59, 99, 104, 97, 114, 115, 101, 116, 61,
   85, 84, 70, 45, 56]

/-- The bytes of `text/html,text/plain`. -/
def html_or_plain : List Nat :=
  [116, 101, 120, 116, 47, 104, 116, 109, 108, 44, 116, 101, 120, 116, 47, 112, 108, 97,
   105, 110]

/-! ## The url search misses index 0 -/

/-- With one article the search loop of `read_article_at_url` leaves at its
first test, before any entry is parsed: `cut = 0 + (1 - 0) / 2 = floor`. -/
theorem url_search_loop_one_article (file : FILE) (header : zim_header_t) (url : List Nat)
    (steps : Nat) :
    url_search_loop file header url (steps + 1) 0 1 0 = (SearchEnd.stopped none, 0) := by
  simp [url_search_loop]

/-- C1, evaluated on the archive of the single article `hello`: the file is
accepted by `zim_parse`, its only entry has url `hello`, and the search of
`read_article_at_url` for `hello` stops with no entry after parsing none, so
that `read_article_at_url` returns `NULL` ("can't find provided url") where
the claim promises the entry. -/
theorem single_article_search_finds_nothing :
    zim_parse (one_file_env (hello_archive 1)).fs "a.zim" new_zim_archive
        = Outcome.ret (0, archive_of (hello_archive 1))
      ∧ (archive_of (hello_archive 1)).header.article_count = 1
      ∧ (entry_at_index (one_file_env (hello_archive 1)) (archive_of (hello_archive 1)) 0).map
          (fun e => e.url) = some hello
      ∧ url_search_loop ⟨hello_archive 1, 0⟩ (archive_of (hello_archive 1)).header hello 2 0 1 0
          = (SearchEnd.stopped none, 0)
      ∧ read_article_at_url (one_file_env (hello_archive 1)) 5 (archive_of (hello_archive 1))
          hello = Outcome.ret ⟨Content.null, 0⟩ := by
  decide

/-! ## The uncompressed reader drops the last byte -/

/-- What `fgets` stores is shorter than the size it is given: a reader that
passes the length of the blob as size never gets the whole blob. -/
theorem fgets_stores_less_than_size (file : FILE) (size : Int) (line : List Nat)
    (h : (fgets file size).1 = some line) : (line.length : Int) < size := by
  unfold fgets at h
  by_cases h0 : size ≤ 0
  · simp [h0] at h
  · by_cases h1 : size = 1
    · simp [h1] at h
      simp [← h, h1]
    · simp only [if_neg h0, if_neg h1] at h
      have havail : ((file.data.drop file.pos).take (size.toNat - 1)).length
          ≤ size.toNat - 1 := by
        rw [List.length_take]
        exact Nat.min_le_left _ _
      have hupto : (((file.data.drop file.pos).take (size.toNat - 1)).takeWhile
          (fun b => b != 10)).length
          ≤ ((file.data.drop file.pos).take (size.toNat - 1)).length :=
        (List.takeWhile_sublist _).length_le
      have key : ∀ l : List Nat,
          l.length ≤ ((file.data.drop file.pos).take (size.toNat - 1)).length →
          (l.length : Int) < size := by
        intro l hl
        omega
      by_cases hlt : (((file.data.drop file.pos).take (size.toNat - 1)).takeWhile
          (fun b => b != 10)).length
          < ((file.data.drop file.pos).take (size.toNat - 1)).length
      · simp only [if_pos hlt] at h
        split at h
        · simp at h
        · simp only [Option.some.injEq] at h
          rw [← h]
          apply key
          rw [List.length_append, List.length_singleton]
          omega
      · simp only [if_neg hlt] at h
        split at h
        · simp at h
        · simp only [Option.some.injEq] at h
          rw [← h]
          exact key _ hupto

/-- C2, evaluated on the one-blob cluster holding `world` (offsets 8 and
13, info byte 1): `retrieve_directory_entry_content` returns the four bytes
`worl`, since `fgets` is asked for `blob_end - blob_start = 5` bytes and
stores at most one less. -/
theorem uncompressed_world_reads_worl :
    (entry_at_index (one_file_env (hello_archive 1)) (archive_of (hello_archive 1)) 0).map
        (retrieve_directory_entry_content (one_file_env (hello_archive 1))
          (archive_of (hello_archive 1)))
      = some (Content.str [119, 111, 114, 108])
      ∧ ((hello_archive 1).drop (136 + 1 + 8)).take (13 - 8) = world := by
  decide

/-! ## Redirects and sentinel entries -/

/-- When the `i`-th url pointer can be read, `read_article_at_index` returns
`NULL` at once (the test `if (!read_int (...))` takes the success of the read
for its failure): no entry is parsed and no cluster is consulted. -/
theorem read_article_at_index_null_of_pointer_read (env : Env) (fuel : Nat)
    (archive : zim_archive_t) (i : Nat) (file f1 : FILE)
    (hopen : fopen env.fs archive.path = some file)
    (hseek : fseek_set file ((archive.header.url_ptr_pos + (i * 8) % 2 ^ 64) % 2 ^ 64)
      = some f1)
    (hread : (read_int f1 8 0).1 = 0) :
    read_article_at_index env (fuel + 1) archive i = Outcome.ret ⟨Content.null, 0⟩ := by
  unfold read_article_at_index
  rw [hopen]
  dsimp only
  rw [hseek]
  dsimp only
  rw [if_pos hread]

/-- C3, evaluated on the archive of three entries: the search for `b` stops
on entry 1, a redirect to index 0; entry 0 is a content entry whose blob
`retrieve_directory_entry_content` reads (non-`NULL`); yet
`read_article_at_url` returns `NULL` for `b`, because
`read_article_at_index (archive, 0)` gives up once it has read the url
pointer. -/
theorem redirect_read_returns_null :
    (url_search_loop ⟨three_archive, 0⟩ (archive_of three_archive).header [98] 4 0 3 0).1
        = SearchEnd.stopped
            (entry_at_index (one_file_env three_archive) (archive_of three_archive) 1)
      ∧ (entry_at_index (one_file_env three_archive) (archive_of three_archive) 1).map
          (fun e => (e.mime_type, e.redirect_index)) = some (0xffff, 0)
      ∧ (entry_at_index (one_file_env three_archive) (archive_of three_archive) 0).map
          (retrieve_directory_entry_content (one_file_env three_archive)
            (archive_of three_archive))
          = some (Content.str [119, 111, 114, 108])
      ∧ read_article_at_index (one_file_env three_archive) 5 (archive_of three_archive) 0
          = Outcome.ret ⟨Content.null, 0⟩
      ∧ read_article_at_url (one_file_env three_archive) 5 (archive_of three_archive) [98]
          = Outcome.ret ⟨Content.null, 0⟩ := by
  decide

/-- C6: reading an entry whose mime code is 0xfffe (redlink) or 0xfffd
(deleted) gives `NULL` without any call of
`retrieve_directory_entry_content`: through `read_article_at_url` once its
search has stopped on the entry; through `read_article_at_index` for the
index of the entry; and through `read_article_at_index` whenever the entry it
parses itself is such an entry (for any positive recursion allowance). -/
theorem sentinel_entry_reads_null (env : Env) (fuel : Nat) (archive : zim_archive_t)
    (file : FILE) (hopen : fopen env.fs archive.path = some file) :
    (∀ (url : List Nat) (e : zim_directory_entry_t),
        (url_search_loop file archive.header url (archive.header.article_count + 1) 0
            archive.header.article_count 0).1 = SearchEnd.stopped (some e) →
        (e.mime_type = MIME_TYPE_REDLINK ∨ e.mime_type = MIME_TYPE_DELETED) →
        read_article_at_url env fuel archive url = Outcome.ret ⟨Content.null, 0⟩)
      ∧ (∀ (i : Nat) (e : zim_directory_entry_t),
        entry_at_index env archive i = some e →
        (e.mime_type = MIME_TYPE_REDLINK ∨ e.mime_type = MIME_TYPE_DELETED) →
        read_article_at_index env (fuel + 1) archive i = Outcome.ret ⟨Content.null, 0⟩)
      ∧ (∀ (i : Nat) (f1 f2 : FILE),
        fseek_set file ((archive.header.url_ptr_pos + (i * 8) % 2 ^ 64) % 2 ^ 64) = some f1 →
        fseek_set (read_int f1 8 0).2.2 (read_int f1 8 0).2.1 = some f2 →
        (parse_directory_entry f2 zero_entry).1 = 0 →
        ((parse_directory_entry f2 zero_entry).2.1.mime_type = MIME_TYPE_REDLINK
          ∨ (parse_directory_entry f2 zero_entry).2.1.mime_type = MIME_TYPE_DELETED) →
        read_article_at_index env (fuel + 1) archive i = Outcome.ret ⟨Content.null, 0⟩) := by
  refine ⟨?_, ?_, ?_⟩
  · intro url e hsearch hmime
    have hne : e.mime_type ≠ MIME_TYPE_REDIRECT := by
      rcases hmime with h | h <;> rw [h] <;> decide
    simp [read_article_at_url, hopen, hsearch, hne, hmime]
  · intro i e hentry _
    unfold entry_at_index at hentry
    rw [hopen] at hentry
    cases hseek : fseek_set file
        ((archive.header.url_ptr_pos + (i * 8) % 2 ^ 64) % 2 ^ 64) with
    | none =>
      unfold read_article_at_index
      rw [hopen]
      dsimp only
      rw [hseek]
    | some f1 =>
      dsimp only at hentry
      rw [hseek] at hentry
      by_cases hread : (read_int f1 8 0).1 = 0
      · exact read_article_at_index_null_of_pointer_read env fuel archive i file f1 hopen
          hseek hread
      · simp [hread] at hentry
  · intro i f1 f2 hseek hseek2 hparse hmime
    have hne : (parse_directory_entry f2 zero_entry).2.1.mime_type ≠ MIME_TYPE_REDIRECT := by
      rcases hmime with h | h <;> rw [h] <;> decide
    unfold read_article_at_index
    rw [hopen]
    dsimp only
    rw [hseek]
    dsimp only
    by_cases hread : (read_int f1 8 0).1 = 0
    · rw [if_pos hread]
    · rw [if_neg hread, hseek2]
      dsimp only
      rw [if_neg (by simpa using hparse), if_neg hne, if_pos hmime]

/-- C6 at a concrete input: in the archive of three entries, entry 2 (url
`c`) has mime code 0xfffd; the search for `c` stops on it and both ways of
reading it give `NULL` with no cluster lookup. -/
theorem sentinel_entry_reads_null_witness :
    read_article_at_url (one_file_env three_archive) 5 (archive_of three_archive) [99]
        = Outcome.ret ⟨Content.null, 0⟩
      ∧ read_article_at_index (one_file_env three_archive) (5 + 1) (archive_of three_archive) 2
        = Outcome.ret ⟨Content.null, 0⟩ :=
  ⟨(sentinel_entry_reads_null (one_file_env three_archive) 5 (archive_of three_archive)
      ⟨three_archive, 0⟩ rfl).1 [99]
      ⟨0xfffd, 65, 0, 0, 0, 0, [99], [84]⟩ (by decide) (by decide),
   (sentinel_entry_reads_null (one_file_env three_archive) 5 (archive_of three_archive)
      ⟨three_archive, 0⟩ rfl).2.1 2
      ⟨0xfffd, 65, 0, 0, 0, 0, [99], [84]⟩ (by decide) (by decide)⟩

/-! ## Rejection of a file without the magic number -/

/-- C7: a file shorter than 4 bytes, or whose first 4 bytes read as a
little-endian integer differ from 72173914, makes `zim_parse` return 1 and
leave the archive as it was; for the archive `new_zim_archive` gives, that is
an empty mime-type list and a header with no field set. -/
theorem zim_parse_rejects_bad_magic (fs : FileSystem) (path : String) (data : List Nat)
    (archive : zim_archive_t) (hfile : fs path = some data)
    (hbad : data.length < 4 ∨ le_int (data.take 4) ≠ 72173914) :
    zim_parse fs path archive = Outcome.ret (1, archive)
      ∧ zim_parse fs path new_zim_archive = Outcome.ret (1, new_zim_archive)
      ∧ new_zim_archive.mime_type_list = ⟨[], 0⟩
      ∧ new_zim_archive.header = zero_header := by
  have hopen : fopen fs (some path) = some ⟨data, 0⟩ := by
    simp [fopen, hfile]
  have hbytes : (fread ⟨data, 0⟩ 4).1 = data.take 4 := by
    simp [fread]
  have key : ∀ a : zim_archive_t, zim_parse fs path a = Outcome.ret (1, a) := by
    intro a
    unfold zim_parse
    rw [hopen]
    dsimp only
    rw [hbytes]
    rcases hbad with hshort | hmagic
    · have hlen : (List.take 4 data).length ≠ 4 := by
        rw [List.length_take]
        omega
      rw [if_pos hlen]
    · by_cases hlen : (List.take 4 data).length ≠ 4
      · rw [if_pos hlen]
      · have hm : le_int (List.take 4 data) ≠ ZIM_MAGIC := hmagic
        rw [if_neg hlen, if_pos hm]
  exact ⟨key archive, key new_zim_archive, rfl, rfl⟩

/-- C7 at a concrete input: a file of 32 zero bytes is rejected. -/
theorem zim_parse_rejects_bad_magic_witness :
    zim_parse (fun _ => some (List.replicate 32 0)) "a.zim" new_zim_archive
        = Outcome.ret (1, new_zim_archive)
      ∧ zim_parse (fun _ => some (List.replicate 32 0)) "a.zim" new_zim_archive
        = Outcome.ret (1, new_zim_archive)
      ∧ new_zim_archive.mime_type_list = ⟨[], 0⟩
      ∧ new_zim_archive.header = zero_header :=
  zim_parse_rejects_bad_magic (fun _ => some (List.replicate 32 0)) "a.zim"
    (List.replicate 32 0) new_zim_archive rfl (Or.inr (by decide))

/-! ## The exit code of `show_article` -/

/-- Whenever the archive opens and `read_article_at_url` returns `NULL`,
`show_article` returns 0: the branch `if (!article)` leaves `err` as
`zim_parse` set it. -/
theorem show_article_zero_of_null (env : Env) (fuel : Nat) (path : String) (url : List Nat)
    (archive : zim_archive_t) (n : Nat)
    (hparse : zim_parse env.fs path new_zim_archive = Outcome.ret (0, archive))
    (hread : read_article_at_url env fuel archive url = Outcome.ret ⟨Content.null, n⟩) :
    show_article env fuel path url = Outcome.ret (0, Content.null) := by
  simp [show_article, hparse, hread]

/-- C8, evaluated on two openable archives: for the url `z`, absent from the
single-article archive, and for the url `c` of a deleted entry,
`read_article_at_url` returns `NULL` and `show_article` returns 0, where the
claim promises a non-zero value. -/
theorem show_article_returns_zero_when_not_found :
    zim_parse (one_file_env (hello_archive 1)).fs "a.zim" new_zim_archive
        = Outcome.ret (0, archive_of (hello_archive 1))
      ∧ zim_parse (one_file_env three_archive).fs "a.zim" new_zim_archive
        = Outcome.ret (0, archive_of three_archive)
      ∧ read_article_at_url (one_file_env (hello_archive 1)) 5 (archive_of (hello_archive 1)) [122]
        = Outcome.ret ⟨Content.null, 0⟩
      ∧ show_article (one_file_env (hello_archive 1)) 5 "a.zim" [122]
        = Outcome.ret (0, Content.null)
      ∧ read_article_at_url (one_file_env three_archive) 5 (archive_of three_archive) [99]
        = Outcome.ret ⟨Content.null, 0⟩
      ∧ show_article (one_file_env three_archive) 5 "a.zim" [99]
        = Outcome.ret (0, Content.null) := by
  decide

/-! ## The XZ reader -/

/-- Whenever the first pass of `read_article_from_xz_compressed_cluster`
returns a non-zero value, which is what `read_from_xz_compressed_cluster`
does once it has captured the bytes asked for, the result is the string
`Error reading article.`. -/
theorem xz_first_pass_nonzero_gives_message (lzma : List Nat → LzmaRun) (BUFSIZ : Nat)
    (entry : zim_directory_entry_t) (file : FILE) (offset_size : Nat)
    (h : (read_from_xz_compressed_cluster BUFSIZ (lzma (file.data.drop file.pos))
      ((offset_size * entry.blob_number) % 2 ^ 64) offset_size).1 ≠ 0) :
    read_article_from_xz_compressed_cluster lzma BUFSIZ entry file offset_size
      = Content.str error_reading_article := by
  unfold read_article_from_xz_compressed_cluster
  simp only [h, ne_eq, not_false_eq_true, if_true]

/-- C4, evaluated on an XZ cluster (info byte 4) whose stream decodes, in one
final output buffer, to the offsets 12, 17, 28 followed by `alpha` and
`bravo-bravo`: blob 0 is `alpha` and blob 1 is `bravo-bravo` in the decoded
content, the first pass captures the 4 bytes of the offset and returns
`true`, and `read_article_from_xz_compressed_cluster` hands back the string
`Error reading article.` for both blobs, also through
`retrieve_directory_entry_content`. -/
theorem xz_blob_reads_error_message :
    (two_blobs.drop 12).take (17 - 12) = alpha
      ∧ (two_blobs.drop 17).take (28 - 17) = bravo_bravo
      ∧ read_from_xz_compressed_cluster 8192 ⟨true, [], two_blobs, true⟩ 0 4 = (1, le_bytes 4 12)
      ∧ read_article_from_xz_compressed_cluster (fun _ => ⟨true, [], two_blobs, true⟩) 8192
          (hello_entry 0) ⟨hello_archive 4, 137⟩ 4 = Content.str error_reading_article
      ∧ read_article_from_xz_compressed_cluster (fun _ => ⟨true, [], two_blobs, true⟩) 8192
          (hello_entry 1) ⟨hello_archive 4, 137⟩ 4 = Content.str error_reading_article
      ∧ retrieve_directory_entry_content
          (lzma_env (hello_archive 4) ⟨true, [], two_blobs, true⟩)
          (archive_of (hello_archive 4)) (hello_entry 1) = Content.str error_reading_article := by
  decide

/-! ## Error cases that do not return `NULL` -/

set_option maxRecDepth 8000 in
/-- C9, evaluated on three error cases: an uncompressed cluster cut after
its offset table, so that the blob bytes cannot be read (`fgets` fails); an
XZ cluster whose decoder reports an error at its first call; an XZ cluster
whose decoder cannot be initialised. `retrieve_directory_entry_content`
returns a non-`NULL` buffer in each: the empty string twice, then the string
`Error reading article.`. -/
theorem error_cases_return_buffers :
    ((hello_archive 1).take 145).length = 145
      ∧ entry_at_index (one_file_env ((hello_archive 1).take 145))
          (archive_of ((hello_archive 1).take 145)) 0 = some (hello_entry 0)
      ∧ retrieve_directory_entry_content (one_file_env ((hello_archive 1).take 145))
          (archive_of ((hello_archive 1).take 145)) (hello_entry 0) = Content.str []
      ∧ read_article_from_uncompressed_cluster (hello_entry 0)
          ⟨(hello_archive 1).take 145, 137⟩ 4 = Content.str []
      ∧ retrieve_directory_entry_content
          (lzma_env (hello_archive 4) ⟨true, [], [], false⟩)
          (archive_of (hello_archive 4)) (hello_entry 0) = Content.str []
      ∧ read_article_from_xz_compressed_cluster (fun _ => ⟨true, [], [], false⟩) 8192
          (hello_entry 0) ⟨hello_archive 4, 137⟩ 4 = Content.str []
      ∧ retrieve_directory_entry_content
          (lzma_env (hello_archive 4) ⟨false, [], [], false⟩)
          (archive_of (hello_archive 4)) (hello_entry 0)
          = Content.str error_reading_article := by
  decide

/-! ## Compression codes other than XZ and zstd -/

/-- C10 as stated fails: a cluster whose info byte is 2 (compression code 2,
outside 1, 4 and 5) is read by `retrieve_directory_entry_content`, which
returns blob bytes instead of `NULL`. -/
theorem compression_code_two_cluster_is_read :
    (locate_cluster (one_file_env (hello_archive 2)) (archive_of (hello_archive 2))
        (hello_entry 0)).map (fun r => r.1 &&& 0x0F) = some 2
      ∧ retrieve_directory_entry_content (one_file_env (hello_archive 2))
        (archive_of (hello_archive 2)) (hello_entry 0) = Content.str [119, 111, 114, 108] := by
  decide

/-- C10, amended: when the compression code of the info byte is none of 1, 4
and 5, `retrieve_directory_entry_content` reads the cluster with
`read_article_from_uncompressed_cluster`, the offset width coming from bit 4,
and that is the result the choice of reader gives for any info byte with
code 1 and the same bit 4. -/
theorem other_compression_code_read_as_uncompressed (env : Env) (archive : zim_archive_t)
    (entry : zim_directory_entry_t) (info cluster_len : Nat) (file : FILE)
    (hloc : locate_cluster env archive entry = some (info, cluster_len, file))
    (hcode : info &&& 0x0F ≠ 1 ∧ info &&& 0x0F ≠ 4 ∧ info &&& 0x0F ≠ 5) :
    retrieve_directory_entry_content env archive entry
        = read_article_from_uncompressed_cluster entry file (if info &&& 0x10 ≠ 0 then 8 else 4)
      ∧ ∀ info1 : Nat, info1 &&& 0x0F = 1 → info1 &&& 0x10 = info &&& 0x10 →
          read_located_cluster env entry info1 cluster_len file
            = retrieve_directory_entry_content env archive entry := by
  have h4 : ¬ (info &&& 0x0F = COMPRESSION_XZ) := hcode.2.1
  have h5 : ¬ (info &&& 0x0F = COMPRESSION_ZSTD) := hcode.2.2
  have hret : retrieve_directory_entry_content env archive entry
      = read_article_from_uncompressed_cluster entry file
          (if info &&& 0x10 ≠ 0 then 8 else 4) := by
    unfold retrieve_directory_entry_content
    rw [hloc]
    simp only [read_located_cluster]
    rw [if_neg h4, if_neg h5]
  refine ⟨hret, ?_⟩
  intro info1 h1 hbit
  rw [hret]
  have g4 : ¬ (info1 &&& 0x0F = COMPRESSION_XZ) := by rw [h1]; decide
  have g5 : ¬ (info1 &&& 0x0F = COMPRESSION_ZSTD) := by rw [h1]; decide
  simp only [read_located_cluster]
  rw [if_neg g4, if_neg g5, hbit]

set_option maxRecDepth 8000 in
/-- C10, amended, at a concrete input: the single-article archive whose
cluster has info byte 2. -/
theorem other_compression_code_read_as_uncompressed_witness :
    retrieve_directory_entry_content (one_file_env (hello_archive 2))
        (archive_of (hello_archive 2)) (hello_entry 0)
        = read_article_from_uncompressed_cluster (hello_entry 0) ⟨hello_archive 2, 137⟩
            (if 2 &&& 0x10 ≠ 0 then 8 else 4)
      ∧ ∀ info1 : Nat, info1 &&& 0x0F = 1 → info1 &&& 0x10 = 2 &&& 0x10 →
          read_located_cluster (one_file_env (hello_archive 2)) (hello_entry 0) info1
              (2 ^ 64 - 137) ⟨hello_archive 2, 137⟩
            = retrieve_directory_entry_content (one_file_env (hello_archive 2))
                (archive_of (hello_archive 2)) (hello_entry 0) :=
  other_compression_code_read_as_uncompressed (one_file_env (hello_archive 2))
    (archive_of (hello_archive 2)) (hello_entry 0) 2 (2 ^ 64 - 137) ⟨hello_archive 2, 137⟩
    (by decide) (by decide)

/-! ## The zstd reader -/

theorem ZSTD_decompress_length (zstd : List Nat → Option (List Nat)) (capacity : Nat)
    (src d : List Nat) (h : ZSTD_decompress zstd capacity src = some d) :
    d.length ≤ capacity := by
  unfold ZSTD_decompress at h
  cases hz : zstd src with
  | none => simp [hz] at h
  | some d1 =>
    simp only [hz] at h
    by_cases hc : d1.length ≤ capacity
    · rw [if_pos hc] at h
      cases h
      exact hc
    · rw [if_neg hc] at h
      cases h

theorem store_low_zero (w : Nat) (bytes : List Nat) : store_low 0 w bytes = le_int bytes := by
  simp [store_low]

theorem usub64_of_le (a b : Nat) (hab : a ≤ b) (hb : b < 2 ^ 64) : usub64 b a = b - a := by
  unfold usub64
  have ha : a < 2 ^ 64 := lt_of_le_of_lt hab hb
  rw [Nat.mod_eq_of_lt hb, Nat.mod_eq_of_lt ha]
  have h1 : b + 2 ^ 64 - a = (b - a) + 2 ^ 64 := by omega
  rw [h1, Nat.add_mod_right]
  exact Nat.mod_eq_of_lt (by omega)

theorem article_buf_read_inside (d : List Nat) (pos n : Nat) (hin : pos + n ≤ d.length)
    (hd : d.length ≤ MAX_ARTICLE_SIZE) :
    article_buf_read d pos n = some ((d.drop pos).take n) := by
  unfold article_buf_read
  have hlen : ((d.drop pos).take n).length = n := by
    rw [List.length_take, List.length_drop]
    omega
  rw [if_pos (by omega), hlen]
  simp

theorem read_int_from_buf_inside (d : List Nat) (pos w : Nat) (hw : w = 4 ∨ w = 8)
    (hin : pos + w ≤ d.length) (hd : d.length ≤ MAX_ARTICLE_SIZE) :
    read_int_from_buf d pos w 0 = some (0, le_int ((d.drop pos).take w)) := by
  unfold read_int_from_buf
  rw [article_buf_read_inside d pos w hin hd]
  have hcase : w = 2 ∨ w = 4 ∨ w = 8 := Or.inr hw
  simp only [if_pos hcase, store_low_zero]

theorem strndup_buf_inside (d : List Nat) (first last : Nat) (hle : first ≤ last)
    (hin : last ≤ d.length) :
    strndup_buf d first (last - first)
      = some (cstr ((d.drop first).take (last - first))) := by
  unfold strndup_buf
  have hlen : ((d.drop first).take (last - first)).length = last - first := by
    rw [List.length_take, List.length_drop]
    omega
  by_cases hc : (cstr ((d.drop first).take (last - first))).length
      < ((d.drop first).take (last - first)).length
  · simp only [if_pos hc]
  · simp only [if_neg hc, if_pos hlen]

theorem cstr_of_no_nul (l : List Nat) (h : ∀ b ∈ l, b ≠ 0) : cstr l = l := by
  unfold cstr
  rw [List.takeWhile_eq_self_iff]
  intro b hb
  simpa using h b hb

theorem blob_offset_mono (w : Nat) (d : List Nat) (n : Nat)
    (hmono : ∀ i, i < n → blob_offset w d i ≤ blob_offset w d (i + 1)) :
    ∀ j, j ≤ n → ∀ i, i ≤ j → blob_offset w d i ≤ blob_offset w d j := by
  intro j
  induction j with
  | zero =>
    intro _ i hi
    have : i = 0 := by omega
    rw [this]
  | succ j ih =>
    intro hj i hi
    by_cases h : i = j + 1
    · rw [h]
    · exact le_trans (ih (by omega) i (by omega)) (hmono j (by omega))

/-- C5 as stated fails: the quantified statement "for a zstd cluster that
decodes to `d`, starting with a well-formed offset table, and `k < n`, the
reader returns exactly the bytes of blob `k`" is false. The cluster with
offsets 8 and 11 and the one blob `a`, NUL, `b` is read as `a`: `strndup`
stops at the NUL byte. -/
theorem zstd_blob_with_nul_is_cut :
    ¬ (∀ (zstd : List Nat → Option (List Nat)) (entry : zim_directory_entry_t) (file : FILE)
        (offset_size cluster_len : Nat) (d : List Nat) (n : Nat),
        (offset_size = 4 ∨ offset_size = 8) →
        (fread file cluster_len).1.length = cluster_len →
        ZSTD_decompress zstd MAX_ARTICLE_SIZE (fread file cluster_len).1 = some d →
        well_formed_offsets offset_size d n →
        entry.blob_number < n →
        read_article_from_zstd_compressed_cluster zstd entry file offset_size cluster_len
          = Content.str (blob_bytes offset_size d entry.blob_number)) := by
  intro h
  have hwf : well_formed_offsets 4 (le_bytes 4 8 ++ le_bytes 4 11 ++ [97, 0, 98]) 1 := by
    refine ⟨by decide, ?_, by decide⟩
    intro i hi
    have hi0 : i = 0 := by omega
    rw [hi0]
    decide
  have hk : (hello_entry 0).blob_number < 1 := by decide
  have := h (fun _ => some (le_bytes 4 8 ++ le_bytes 4 11 ++ [97, 0, 98])) (hello_entry 0)
    ⟨[40, 181, 47, 253], 0⟩ 4 4 (le_bytes 4 8 ++ le_bytes 4 11 ++ [97, 0, 98]) 1
    (Or.inl rfl) (by decide) (by decide) hwf hk
  revert this
  decide

/-- C5, amended: for a zstd cluster whose `cluster_len` bytes are read and
decode (within the `MAX_ARTICLE_SIZE` bytes of the buffer) to `d`, where `d`
starts with a well-formed offset table for `n` blobs, and for `k < n`, the
reader returns the bytes of blob `k` up to its first NUL byte; a blob without
NUL byte is returned whole. -/
theorem zstd_blob_read_up_to_nul (zstd : List Nat → Option (List Nat))
    (entry : zim_directory_entry_t) (file : FILE) (offset_size cluster_len : Nat)
    (d : List Nat) (n : Nat)
    (hsize : offset_size = 4 ∨ offset_size = 8)
    (hread : (fread file cluster_len).1.length = cluster_len)
    (hdec : ZSTD_decompress zstd MAX_ARTICLE_SIZE (fread file cluster_len).1 = some d)
    (hwf : well_formed_offsets offset_size d n)
    (hk : entry.blob_number < n) :
    read_article_from_zstd_compressed_cluster zstd entry file offset_size cluster_len
        = Content.str (cstr (blob_bytes offset_size d entry.blob_number))
      ∧ ((∀ b ∈ blob_bytes offset_size d entry.blob_number, b ≠ 0) →
        read_article_from_zstd_compressed_cluster zstd entry file offset_size cluster_len
          = Content.str (blob_bytes offset_size d entry.blob_number)) := by
  obtain ⟨htable, hmono, hlast⟩ := hwf
  have hd : d.length ≤ MAX_ARTICLE_SIZE := ZSTD_decompress_length zstd _ _ d hdec
  have hmax : MAX_ARTICLE_SIZE = 10000000 := rfl
  have hle : blob_offset offset_size d entry.blob_number
      ≤ blob_offset offset_size d (entry.blob_number + 1) := hmono _ hk
  have hend : blob_offset offset_size d (entry.blob_number + 1) ≤ d.length := by
    rw [← hlast]
    exact blob_offset_mono offset_size d n hmono n (le_refl n) _ (by omega)
  have hin1 : offset_size * entry.blob_number + offset_size ≤ d.length := by
    rcases hsize with h | h <;> rw [h] at htable ⊢ <;> omega
  have hin2 : offset_size * (entry.blob_number + 1) + offset_size ≤ d.length := by
    rcases hsize with h | h <;> rw [h] at htable ⊢ <;> omega
  have hpos : (offset_size * entry.blob_number) % 2 ^ 64 = offset_size * entry.blob_number :=
    Nat.mod_eq_of_lt (by omega)
  have hpos2 : (offset_size * entry.blob_number + offset_size) % 2 ^ 64
      = offset_size * (entry.blob_number + 1) := by
    rw [Nat.mod_eq_of_lt (by omega), Nat.mul_add, Nat.mul_one]
  have hsub : usub64 (blob_offset offset_size d (entry.blob_number + 1))
      (blob_offset offset_size d entry.blob_number)
      = blob_offset offset_size d (entry.blob_number + 1)
        - blob_offset offset_size d entry.blob_number :=
    usub64_of_le _ _ hle (by omega)
  have hmain : read_article_from_zstd_compressed_cluster zstd entry file offset_size cluster_len
      = Content.str (cstr (blob_bytes offset_size d entry.blob_number)) := by
    unfold read_article_from_zstd_compressed_cluster
    simp only [hread, ne_eq, not_true_eq_false, if_false, hdec, hpos, hpos2]
    rw [read_int_from_buf_inside d _ offset_size hsize hin1 hd]
    simp only [ne_eq, not_true_eq_false, if_false]
    rw [read_int_from_buf_inside d _ offset_size hsize hin2 hd]
    simp only [ne_eq, not_true_eq_false, if_false]
    change (match strndup_buf d (blob_offset offset_size d entry.blob_number)
        (usub64 (blob_offset offset_size d (entry.blob_number + 1))
          (blob_offset offset_size d entry.blob_number)) with
      | none => Content.out_of_bounds
      | some s => Content.str s) = _
    rw [hsub, strndup_buf_inside d _ _ hle hend]
    rfl
  refine ⟨hmain, ?_⟩
  intro hnul
  rw [hmain, cstr_of_no_nul _ hnul]

/-- C5, amended, at a concrete input: the cluster of the blobs `alpha` and
`bravo-bravo` with 4-byte offsets; blob 1 is read as `bravo-bravo`. -/
theorem zstd_blob_read_up_to_nul_witness :
    read_article_from_zstd_compressed_cluster (fun _ => some two_blobs) (hello_entry 1)
        ⟨[40, 181, 47, 253], 0⟩ 4 4 = Content.str bravo_bravo := by
  have hwf : well_formed_offsets 4 two_blobs 2 := by
    refine ⟨by decide, ?_, by decide⟩
    intro i hi
    have hi0 : i = 0 ∨ i = 1 := by omega
    rcases hi0 with h | h <;> rw [h] <;> decide
  have h := (zstd_blob_read_up_to_nul (fun _ => some two_blobs) (hello_entry 1)
    ⟨[40, 181, 47, 253], 0⟩ 4 4 two_blobs 2 (Or.inl rfl) (by decide) (by decide) hwf
    (by decide)).2 (by decide)
  exact h

/-! ## Reads at a known place of the file -/

theorem drop_after (data : List Nat) (p : Nat) (bs rest : List Nat)
    (h : data.drop p = bs ++ rest) : data.drop (p + bs.length) = rest := by
  rw [← List.drop_drop, h, List.drop_left]

theorem fread_of_drop (data : List Nat) (p n : Nat) (bs rest : List Nat)
    (h : data.drop p = bs ++ rest) (hn : bs.length = n) :
    fread ⟨data, p⟩ n = (bs, ⟨data, p + n⟩) := by
  unfold fread
  simp only [h, List.take_left' hn, hn]

theorem read_int_of_drop (data : List Nat) (p len dest : Nat) (bs rest : List Nat)
    (h : data.drop p = bs ++ rest) (hn : bs.length = len)
    (hlen : len = 2 ∨ len = 4 ∨ len = 8) :
    read_int ⟨data, p⟩ len dest = (0, store_low dest len bs, ⟨data, p + len⟩) := by
  unfold read_int
  rw [fread_of_drop data p len bs rest h hn]
  simp only [hn, ne_eq, not_true_eq_false, if_false, if_pos hlen]

theorem fseek_cur_one (data : List Nat) (p : Nat) :
    fseek_cur ⟨data, p⟩ 1 = some ⟨data, p + 1⟩ := by
  have h1 : to_long 1 = 1 := by decide
  unfold fseek_cur
  rw [h1]
  have h2 : (0 : Int) ≤ (p : Int) + 1 := by omega
  have h3 : ((p : Int) + 1).toNat = p + 1 := by omega
  simp only [h2, if_true, h3]

theorem fseek_set_small (file : FILE) (offset : Nat) (h : offset < 2 ^ 63) :
    fseek_set file offset = some ⟨file.data, offset⟩ := by
  have hmod : offset % 2 ^ 64 = offset := Nat.mod_eq_of_lt (by omega)
  have hl : to_long offset = (offset : Int) := by
    unfold to_long
    rw [hmod, if_pos h]
  unfold fseek_set
  rw [hl]
  have h0 : (0 : Int) ≤ (offset : Int) := by omega
  simp only [h0, if_true, Int.toNat_ofNat]

/-- The byte loops on a string that ends before the bound: the string is
read and the cursor is left after its NUL. -/
theorem read_string_loop_terminated (s : List Nat) :
    ∀ (bound : Nat) (data : List Nat) (p : Nat) (acc rest : List Nat),
      (∀ b ∈ s, b ≠ 0) → s.length < bound → data.drop p = s ++ 0 :: rest →
      read_string_loop bound ⟨data, p⟩ acc = some (acc ++ s, ⟨data, p + s.length + 1⟩) := by
  induction s with
  | nil =>
    intro bound data p acc rest _ hb hd
    obtain ⟨b, rfl⟩ : ∃ b, bound = b + 1 := ⟨bound - 1, by simp at hb; omega⟩
    unfold read_string_loop
    have hr : fread ⟨data, p⟩ 1 = ([0], ⟨data, p + 1⟩) :=
      fread_of_drop data p 1 [0] rest (by simpa using hd) rfl
    simp [hr]
  | cons c s ih =>
    intro bound data p acc rest hs hb hd
    obtain ⟨b, rfl⟩ : ∃ b, bound = b + 1 := ⟨bound - 1, by simp at hb; omega⟩
    have hc : c ≠ 0 := hs c (List.mem_cons_self c s)
    have hr : fread ⟨data, p⟩ 1 = ([c], ⟨data, p + 1⟩) :=
      fread_of_drop data p 1 [c] (s ++ 0 :: rest) (by simpa using hd) rfl
    have hd2 : data.drop (p + 1) = s ++ 0 :: rest := by
      have := drop_after data p [c] (s ++ 0 :: rest) (by simpa using hd)
      simpa using this
    unfold read_string_loop
    simp only [hr, hc, if_false]
    rw [ih b data (p + 1) (acc ++ [c]) rest (fun x hx => hs x (List.mem_cons_of_mem c hx))
      (by simp at hb; omega) hd2]
    simp [Nat.add_assoc, Nat.add_comm 1]

/-- The byte loops on a stretch of `bound` bytes without NUL: the loop ends
on its bound, with the cursor right after the bytes read; a NUL that follows
is not consumed. -/
theorem read_string_loop_full (s : List Nat) :
    ∀ (data : List Nat) (p : Nat) (acc rest : List Nat),
      (∀ b ∈ s, b ≠ 0) → data.drop p = s ++ rest →
      read_string_loop s.length ⟨data, p⟩ acc = some (acc ++ s, ⟨data, p + s.length⟩) := by
  induction s with
  | nil =>
    intro data p acc rest _ _
    simp [read_string_loop]
  | cons c s ih =>
    intro data p acc rest hs hd
    have hc : c ≠ 0 := hs c (List.mem_cons_self c s)
    have hr : fread ⟨data, p⟩ 1 = ([c], ⟨data, p + 1⟩) :=
      fread_of_drop data p 1 [c] (s ++ rest) (by simpa using hd) rfl
    have hd2 : data.drop (p + 1) = s ++ rest := by
      have := drop_after data p [c] (s ++ rest) (by simpa using hd)
      simpa using this
    rw [List.length_cons]
    unfold read_string_loop
    simp only [hr, hc, if_false]
    rw [ih data (p + 1) (acc ++ [c]) rest (fun x hx => hs x (List.mem_cons_of_mem c hx)) hd2]
    simp [Nat.add_assoc, Nat.add_comm 1]

/-! ## Directory records -/

/-- A content record read by `parse_directory_entry`: the fixed part is
decoded from its 16 bytes (the third byte, the parameter length, is skipped
whatever it holds), then the two byte loops give the url and the title. -/
theorem parse_directory_entry_content_steps (data : List Nat) (p : Nat)
    (mime rev cl bl rest : List Nat) (x ns : Nat) (url title : List Nat) (f6 f7 : FILE)
    (hdata : data.drop p = mime ++ ([x, ns] ++ (rev ++ (cl ++ (bl ++ rest)))))
    (hmime : mime.length = 2) (hrev : rev.length = 4) (hcl : cl.length = 4)
    (hbl : bl.length = 4) (hnot : le_int mime ≠ 0xffff)
    (hurl : read_string_loop 1000 ⟨data, p + 16⟩ [] = some (url, f6))
    (htitle : read_string_loop 1000 f6 [] = some (title, f7)) :
    parse_directory_entry ⟨data, p⟩ zero_entry
      = (0, ⟨le_int mime, ns, le_int rev, 0, le_int cl, le_int bl, url, title⟩, f7) := by
  have d2 := drop_after data p mime _ hdata
  rw [hmime] at d2
  have d3 : data.drop (p + 2 + 1) = [ns] ++ (rev ++ (cl ++ (bl ++ rest))) :=
    drop_after data (p + 2) [x] _ (by simpa using d2)
  have d4 := drop_after data (p + 2 + 1) [ns] _ d3
  have d8 := drop_after data (p + 2 + 1 + 1) rev _ (by simpa using d4)
  rw [hrev] at d8
  have d12 := drop_after data (p + 2 + 1 + 1 + 4) cl _ d8
  rw [hcl] at d12
  have h1 : read_int ⟨data, p⟩ 2 0 = (0, le_int mime, ⟨data, p + 2⟩) := by
    rw [read_int_of_drop data p 2 0 mime _ hdata hmime (Or.inl rfl), store_low_zero]
  have h2 := fseek_cur_one data (p + 2)
  have h3 : fread ⟨data, p + 2 + 1⟩ 1 = ([ns], ⟨data, p + 2 + 1 + 1⟩) :=
    fread_of_drop data (p + 2 + 1) 1 [ns] _ d3 rfl
  have h4 : read_int ⟨data, p + 2 + 1 + 1⟩ 4 0 = (0, le_int rev, ⟨data, p + 2 + 1 + 1 + 4⟩) := by
    rw [read_int_of_drop data _ 4 0 rev _ (by simpa using d4) hrev (Or.inr (Or.inl rfl)),
      store_low_zero]
  have h5 : read_int ⟨data, p + 2 + 1 + 1 + 4⟩ 4 0
      = (0, le_int cl, ⟨data, p + 2 + 1 + 1 + 4 + 4⟩) := by
    rw [read_int_of_drop data _ 4 0 cl _ d8 hcl (Or.inr (Or.inl rfl)), store_low_zero]
  have h6 : read_int ⟨data, p + 2 + 1 + 1 + 4 + 4⟩ 4 0
      = (0, le_int bl, ⟨data, p + 2 + 1 + 1 + 4 + 4 + 4⟩) := by
    rw [read_int_of_drop data _ 4 0 bl _ d12 hbl (Or.inr (Or.inl rfl)), store_low_zero]
  have hp : p + 2 + 1 + 1 + 4 + 4 + 4 = p + 16 := by omega
  have hns : le_int [ns] = ns := by simp [le_int]
  have hnot2 : ¬ (le_int mime = MIME_TYPE_REDIRECT) := hnot
  unfold parse_directory_entry
  rw [← hp] at hurl
  generalize read_string_loop 1000 = byte_loop at hurl htitle ⊢
  have z1 : zero_entry.mime_type = 0 := rfl
  have z2 : zero_entry.revision = 0 := rfl
  have z3 : zero_entry.cluster_number = 0 := rfl
  have z4 : zero_entry.blob_number = 0 := rfl
  have z5 : zero_entry.redirect_index = 0 := rfl
  have n0 : ¬ ((0 : Nat) ≠ 0) := by decide
  have n1 : ¬ ([ns].length ≠ 1) := by simp
  rw [z1, h1]
  dsimp only
  rw [if_neg n0, h2]
  dsimp only
  rw [h3]
  dsimp only
  rw [if_neg n1, z2, h4]
  dsimp only
  rw [if_neg n0, if_neg hnot2, z3, h5]
  dsimp only
  rw [if_neg n0, z4, h6]
  dsimp only
  rw [if_neg n0, hurl]
  dsimp only
  rw [htitle]
  dsimp only
  rw [hns, z5]

/-- A redirect record read by `parse_directory_entry`: after the 8 bytes of
mime code, skipped byte, namespace and revision come the 4 bytes of the
redirect index and then the url; `cluster_number` and `blob_number` are left
as they were. -/
theorem parse_directory_entry_redirect_steps (data : List Nat) (p : Nat)
    (mime rev ri rest : List Nat) (x ns : Nat) (url title : List Nat) (f6 f7 : FILE)
    (hdata : data.drop p = mime ++ ([x, ns] ++ (rev ++ (ri ++ rest))))
    (hmime : mime.length = 2) (hrev : rev.length = 4) (hri : ri.length = 4)
    (hred : le_int mime = 0xffff)
    (hurl : read_string_loop 1000 ⟨data, p + 12⟩ [] = some (url, f6))
    (htitle : read_string_loop 1000 f6 [] = some (title, f7)) :
    parse_directory_entry ⟨data, p⟩ zero_entry
      = (0, ⟨0xffff, ns, le_int rev, le_int ri, 0, 0, url, title⟩, f7) := by
  have d2 := drop_after data p mime _ hdata
  rw [hmime] at d2
  have d3 : data.drop (p + 2 + 1) = [ns] ++ (rev ++ (ri ++ rest)) :=
    drop_after data (p + 2) [x] _ (by simpa using d2)
  have d4 := drop_after data (p + 2 + 1) [ns] _ d3
  have d8 := drop_after data (p + 2 + 1 + 1) rev _ (by simpa using d4)
  rw [hrev] at d8
  have h1 : read_int ⟨data, p⟩ 2 0 = (0, le_int mime, ⟨data, p + 2⟩) := by
    rw [read_int_of_drop data p 2 0 mime _ hdata hmime (Or.inl rfl), store_low_zero]
  have h2 := fseek_cur_one data (p + 2)
  have h3 : fread ⟨data, p + 2 + 1⟩ 1 = ([ns], ⟨data, p + 2 + 1 + 1⟩) :=
    fread_of_drop data (p + 2 + 1) 1 [ns] _ d3 rfl
  have h4 : read_int ⟨data, p + 2 + 1 + 1⟩ 4 0 = (0, le_int rev, ⟨data, p + 2 + 1 + 1 + 4⟩) := by
    rw [read_int_of_drop data _ 4 0 rev _ (by simpa using d4) hrev (Or.inr (Or.inl rfl)),
      store_low_zero]
  have h5 : read_int ⟨data, p + 2 + 1 + 1 + 4⟩ 4 0
      = (0, le_int ri, ⟨data, p + 2 + 1 + 1 + 4 + 4⟩) := by
    rw [read_int_of_drop data _ 4 0 ri _ d8 hri (Or.inr (Or.inl rfl)), store_low_zero]
  have hp : p + 2 + 1 + 1 + 4 + 4 = p + 12 := by omega
  have hns : le_int [ns] = ns := by simp [le_int]
  have hred2 : le_int mime = MIME_TYPE_REDIRECT := hred
  unfold parse_directory_entry
  rw [← hp] at hurl
  generalize read_string_loop 1000 = byte_loop at hurl htitle ⊢
  have z1 : zero_entry.mime_type = 0 := rfl
  have z2 : zero_entry.revision = 0 := rfl
  have z3 : zero_entry.cluster_number = 0 := rfl
  have z4 : zero_entry.blob_number = 0 := rfl
  have z5 : zero_entry.redirect_index = 0 := rfl
  have n0 : ¬ ((0 : Nat) ≠ 0) := by decide
  have n1 : ¬ ([ns].length ≠ 1) := by simp
  rw [z1, h1]
  dsimp only
  rw [if_neg n0, h2]
  dsimp only
  rw [h3]
  dsimp only
  rw [if_neg n1, z2, h4]
  dsimp only
  rw [if_pos hred2, z5, h5]
  dsimp only
  rw [if_neg n0, hurl]
  dsimp only
  rw [htitle]
  dsimp only
  rw [hns, z3, z4, hred]
  rw [if_neg n0]

/-- A content record with url `a` whose title starts with 1000 bytes
without NUL: the title loop stops on its bound, the title returned is those
1000 bytes and the cursor is left right after them. -/
theorem content_record_long_title (data t rest : List Nat) (ht : t.length = 1000)
    (h0 : ∀ b ∈ t, b ≠ 0)
    (hdata : data.drop 0 = [0, 0] ++ ([0, 65] ++ ([0, 0, 0, 0] ++ ([0, 0, 0, 0]
      ++ ([0, 0, 0, 0] ++ ([97] ++ 0 :: (t ++ rest))))))) :
    parse_directory_entry ⟨data, 0⟩ zero_entry
      = (0, ⟨0, 65, 0, 0, 0, 0, [97], t⟩, ⟨data, 1018⟩) := by
  have d16 : data.drop (0 + 16) = [97] ++ 0 :: (t ++ rest) := by
    have := drop_after data 0 [0, 0, 0, 65, 0, 0, 0, 0, 0, 0, 0, 0, 0, 0, 0, 0] _
      (by simpa using hdata)
    simpa using this
  have hurl : read_string_loop 1000 ⟨data, 0 + 16⟩ [] = some ([97], ⟨data, 18⟩) := by
    have := read_string_loop_terminated [97] 1000 data (0 + 16) [] _
      (by decide) (by decide) d16
    simpa using this
  have d18 : data.drop 18 = t ++ rest := by
    have := drop_after data (0 + 16) [97, 0] _ (by simpa using d16)
    simpa using this
  have htitle : read_string_loop 1000 ⟨data, 18⟩ [] = some (t, ⟨data, 1018⟩) := by
    have := read_string_loop_full t data 18 [] rest h0 d18
    rw [ht] at this
    simpa using this
  have hle : le_int [0, 0] ≠ 0xffff := by decide
  have := parse_directory_entry_content_steps data 0 [0, 0] [0, 0, 0, 0]
    [0, 0, 0, 0] [0, 0, 0, 0] _ 0 65 [97] t _ _ hdata rfl rfl rfl rfl hle hurl htitle
  simpa [le_int] using this

/-- A content record whose url starts with 1000 bytes without NUL, followed
by a NUL: the url loop stops on its bound without reading the NUL, which the
title loop then reads: the title returned is empty and the cursor is left
right after that NUL. -/
theorem content_record_long_url (data u rest : List Nat) (hu : u.length = 1000)
    (h0 : ∀ b ∈ u, b ≠ 0)
    (hdata : data.drop 0 = [0, 0] ++ ([0, 65] ++ ([0, 0, 0, 0] ++ ([0, 0, 0, 0]
      ++ ([0, 0, 0, 0] ++ (u ++ 0 :: rest)))))) :
    parse_directory_entry ⟨data, 0⟩ zero_entry
      = (0, ⟨0, 65, 0, 0, 0, 0, u, []⟩, ⟨data, 1017⟩) := by
  have d16 : data.drop (0 + 16) = u ++ 0 :: rest := by
    have := drop_after data 0 [0, 0, 0, 65, 0, 0, 0, 0, 0, 0, 0, 0, 0, 0, 0, 0] _
      (by simpa using hdata)
    simpa using this
  have hurl : read_string_loop 1000 ⟨data, 0 + 16⟩ [] = some (u, ⟨data, 1016⟩) := by
    have := read_string_loop_full u data (0 + 16) [] _ h0 d16
    rw [hu] at this
    simpa using this
  have d1016 : data.drop 1016 = [] ++ 0 :: rest := by
    have := drop_after data (0 + 16) u _ d16
    rw [hu] at this
    simpa using this
  have htitle : read_string_loop 1000 ⟨data, 1016⟩ [] = some ([], ⟨data, 1017⟩) := by
    have := read_string_loop_terminated [] 1000 data 1016 [] rest
      (by simp) (by decide) d1016
    simpa using this
  have hle : le_int [0, 0] ≠ 0xffff := by decide
  have := parse_directory_entry_content_steps data 0 [0, 0] [0, 0, 0, 0]
    [0, 0, 0, 0] [0, 0, 0, 0] _ 0 65 u [] _ _ hdata rfl rfl rfl rfl hle hurl htitle
  simpa [le_int] using this

/-- C16 as stated fails for a record whose title exceeds the bound of the
title loop: in the record with url `a` and a title of 1001 letters `t`, the
title returned has 1000 letters, so it is not the NUL-terminated string that
follows the url, and the cursor is left before the last letter. -/
theorem long_title_is_cut :
    long_title_record = le_bytes 2 0 ++ [0, 65] ++ le_bytes 4 0 ++ le_bytes 4 0 ++ le_bytes 4 0
        ++ [97] ++ [0] ++ List.replicate 1001 116 ++ [0]
      ∧ parse_directory_entry ⟨long_title_record, 0⟩ zero_entry
        = (0, ⟨0, 65, 0, 0, 0, 0, [97], List.replicate 1000 116⟩, ⟨long_title_record, 1018⟩)
      ∧ List.replicate 1000 116 ≠ List.replicate 1001 116 := by
  refine ⟨rfl, ?_, ?_⟩
  · have h1 : List.replicate 1001 116 = List.replicate 1000 116 ++ [116] :=
      List.replicate_succ' 1000 116
    have hrec : long_title_record.drop 0
        = [0, 0] ++ ([0, 65] ++ ([0, 0, 0, 0] ++ ([0, 0, 0, 0] ++ ([0, 0, 0, 0]
            ++ ([97] ++ 0 :: (List.replicate 1000 116 ++ [116, 0])))))) := by
      unfold long_title_record
      rw [h1]
      generalize List.replicate 1000 116 = t
      simp [le_bytes]
    exact content_record_long_title long_title_record (List.replicate 1000 116) [116, 0]
      (List.length_replicate 1000 116)
      (fun b hb => by rw [List.eq_of_mem_replicate hb]; decide) hrec
  · intro h
    have h2 := congrArg List.length h
    rw [List.length_replicate, List.length_replicate] at h2
    exact absurd h2 (by decide)

/-- C16, amended: for a record with a zero parameter-length byte whose url
and title are each shorter than 1000 bytes, `parse_directory_entry` started
at the first byte of the record decodes the mime code from the 2 bytes at
offset 0, the namespace from the byte at offset 3 and the revision from the 4
bytes at offset 4; for the mime code 0xffff the redirect index from the 4
bytes at offset 8, the url from offset 12, leaving `cluster_number` and
`blob_number` at 0; otherwise the cluster number from offset 8, the blob
number from offset 12 and the url from offset 16; the title is the string
after the NUL of the url, and the cursor ends after the NUL of the title. -/
theorem parse_directory_entry_decodes_record (data : List Nat) (p : Nat)
    (mime rev a b url title rest : List Nat) (ns : Nat)
    (hmime : mime.length = 2) (hrev : rev.length = 4) (ha : a.length = 4)
    (hb : b.length = 4)
    (hurl0 : ∀ c ∈ url, c ≠ 0) (hurl : url.length < 1000)
    (htitle0 : ∀ c ∈ title, c ≠ 0) (htitle : title.length < 1000) :
    (le_int mime = 0xffff →
        data.drop p = mime ++ [0, ns] ++ rev ++ a ++ url ++ [0] ++ title ++ [0] ++ rest →
        parse_directory_entry ⟨data, p⟩ zero_entry
          = (0, ⟨0xffff, ns, le_int rev, le_int a, 0, 0, url, title⟩,
              ⟨data, p + 12 + url.length + 1 + title.length + 1⟩))
      ∧ (le_int mime ≠ 0xffff →
        data.drop p = mime ++ [0, ns] ++ rev ++ a ++ b ++ url ++ [0] ++ title ++ [0] ++ rest →
        parse_directory_entry ⟨data, p⟩ zero_entry
          = (0, ⟨le_int mime, ns, le_int rev, 0, le_int a, le_int b, url, title⟩,
              ⟨data, p + 16 + url.length + 1 + title.length + 1⟩)) := by
  constructor
  · intro hred hdata
    have hd : data.drop p
        = mime ++ ([0, ns] ++ (rev ++ (a ++ (url ++ 0 :: (title ++ 0 :: rest))))) := by
      rw [hdata]
      simp
    have d12 : data.drop (p + 12) = url ++ 0 :: (title ++ 0 :: rest) := by
      have := drop_after data p (mime ++ ([0, ns] ++ (rev ++ a))) _ (by simpa using hd)
      simpa [hmime, hrev, ha] using this
    have h1 := read_string_loop_terminated url 1000 data (p + 12) [] _ hurl0 hurl d12
    have d2 : data.drop (p + 12 + url.length + 1) = title ++ 0 :: rest := by
      have := drop_after data (p + 12) (url ++ [0]) _ (by simpa using d12)
      simpa [Nat.add_assoc] using this
    have h2 := read_string_loop_terminated title 1000 data (p + 12 + url.length + 1) [] _
      htitle0 htitle d2
    rw [List.nil_append] at h1 h2
    exact parse_directory_entry_redirect_steps data p mime rev a _ 0 ns url title _ _ hd
      hmime hrev ha hred h1 h2
  · intro hnot hdata
    have hd : data.drop p
        = mime ++ ([0, ns] ++ (rev ++ (a ++ (b ++ (url ++ 0 :: (title ++ 0 :: rest)))))) := by
      rw [hdata]
      simp
    have d16 : data.drop (p + 16) = url ++ 0 :: (title ++ 0 :: rest) := by
      have := drop_after data p (mime ++ ([0, ns] ++ (rev ++ (a ++ b)))) _ (by simpa using hd)
      simpa [hmime, hrev, ha, hb] using this
    have h1 := read_string_loop_terminated url 1000 data (p + 16) [] _ hurl0 hurl d16
    have d2 : data.drop (p + 16 + url.length + 1) = title ++ 0 :: rest := by
      have := drop_after data (p + 16) (url ++ [0]) _ (by simpa using d16)
      simpa [Nat.add_assoc] using this
    have h2 := read_string_loop_terminated title 1000 data (p + 16 + url.length + 1) [] _
      htitle0 htitle d2
    rw [List.nil_append] at h1 h2
    exact parse_directory_entry_content_steps data p mime rev a b _ 0 ns url title _ _ hd
      hmime hrev ha hb hnot h1 h2

set_option maxRecDepth 8000 in
/-- C16, amended, at two records of the archive of three entries: the
redirect record at offset 148 (url `b`) and the content record at offset 128
(url `a`). -/
theorem parse_directory_entry_decodes_record_witness :
    parse_directory_entry ⟨three_archive, 148⟩ zero_entry
        = (0, ⟨0xffff, 65, 0, 0, 0, 0, [98], [84]⟩, ⟨three_archive, 164⟩)
      ∧ parse_directory_entry ⟨three_archive, 128⟩ zero_entry
        = (0, ⟨0, 65, 0, 0, 0, 0, [97], [84]⟩, ⟨three_archive, 148⟩) :=
  ⟨(parse_directory_entry_decodes_record three_archive 148 [255, 255] [0, 0, 0, 0]
      [0, 0, 0, 0] [0, 0, 0, 0] [98] [84] (three_archive.drop 164) 65 rfl rfl rfl rfl
      (by decide) (by decide) (by decide) (by decide)).1 (by decide) (by decide),
   (parse_directory_entry_decodes_record three_archive 128 [0, 0] [0, 0, 0, 0]
      [0, 0, 0, 0] [0, 0, 0, 0] [97] [84] (three_archive.drop 148) 65 rfl rfl rfl rfl
      (by decide) (by decide) (by decide) (by decide)).2 (by decide) (by decide)⟩

/-- C17, evaluated on a record whose url is 1000 letters `a` and whose
title is `T`: the url loop ends on its bound without reading the NUL of the
url, the title loop reads that NUL, so the title returned is empty instead of
`T` and the cursor is left at offset 1017, before the title of the record,
whose terminating NUL is the last byte of the 1019. -/
theorem long_url_loses_title :
    long_url_record = le_bytes 2 0 ++ [0, 65] ++ le_bytes 4 0 ++ le_bytes 4 0 ++ le_bytes 4 0
        ++ List.replicate 1000 97 ++ [0] ++ [84, 0]
      ∧ parse_directory_entry ⟨long_url_record, 0⟩ zero_entry
        = (0, ⟨0, 65, 0, 0, 0, 0, List.replicate 1000 97, []⟩, ⟨long_url_record, 1017⟩)
      ∧ long_url_record.length = 1019 := by
  have hrec : long_url_record.drop 0
      = [0, 0] ++ ([0, 65] ++ ([0, 0, 0, 0] ++ ([0, 0, 0, 0] ++ ([0, 0, 0, 0]
          ++ (List.replicate 1000 97 ++ 0 :: [84, 0]))))) := by
    unfold long_url_record example_content_entry
    generalize List.replicate 1000 97 = u
    simp [le_bytes]
  refine ⟨rfl, ?_, ?_⟩
  · exact content_record_long_url long_url_record (List.replicate 1000 97) [84, 0]
      (List.length_replicate 1000 97)
      (fun b hb => by rw [List.eq_of_mem_replicate hb]; decide) hrec
  · have h := congrArg List.length hrec
    rw [List.drop_zero] at h
    rw [h]
    simp only [List.length_append, List.length_cons, List.length_nil, List.length_replicate]

/-! ## The header -/

theorem read_int_short (file : FILE) (len dest : Nat)
    (hl : ((file.data.drop file.pos).take len).length ≠ len) :
    (read_int file len dest).1 = 1 := by
  unfold read_int fread
  dsimp only
  rw [if_pos hl]

theorem read_int_full (file : FILE) (len dest : Nat)
    (hl : ((file.data.drop file.pos).take len).length = len) :
    read_int file len dest
      = if len = 2 ∨ len = 4 ∨ len = 8 then
          (0, store_low dest len ((file.data.drop file.pos).take len),
            ⟨file.data, file.pos + len⟩)
        else if len = 16 then
          (0, store_low dest 8 (((file.data.drop file.pos).take len).take 8),
            ⟨file.data, file.pos + len⟩)
        else (1, dest, ⟨file.data, file.pos + len⟩) := by
  unfold read_int fread
  dsimp only
  rw [if_neg (not_not.mpr hl), hl]

theorem read_int_ok_place (file : FILE) (len dest : Nat) (h : (read_int file len dest).1 = 0) :
    file.pos + len ≤ file.data.length
      ∧ (read_int file len dest).2.2 = ⟨file.data, file.pos + len⟩ := by
  by_cases hl : ((file.data.drop file.pos).take len).length = len
  · rw [read_int_full file len dest hl] at h ⊢
    by_cases h1 : len = 2 ∨ len = 4 ∨ len = 8
    · rw [if_pos h1]
      refine ⟨?_, rfl⟩
      rw [List.length_take, List.length_drop] at hl
      omega
    · rw [if_neg h1] at h ⊢
      by_cases h2 : len = 16
      · rw [if_pos h2]
        refine ⟨?_, rfl⟩
        rw [List.length_take, List.length_drop] at hl
        omega
      · rw [if_neg h2] at h
        exact absurd h Nat.one_ne_zero
  · rw [read_int_short file len dest hl] at h
    exact absurd h (by decide)

theorem read_int_value (file : FILE) (len dest : Nat) (hlen : len = 2 ∨ len = 4 ∨ len = 8)
    (h : (read_int file len dest).1 = 0) :
    (read_int file len dest).2.1 = store_low dest len ((file.data.drop file.pos).take len) := by
  by_cases hl : ((file.data.drop file.pos).take len).length = len
  · rw [read_int_full file len dest hl, if_pos hlen]
  · rw [read_int_short file len dest hl] at h
    exact absurd h (by decide)

theorem read_int_value_16 (file : FILE) (dest : Nat) (h : (read_int file 16 dest).1 = 0) :
    (read_int file 16 dest).2.1 = store_low dest 8 ((file.data.drop file.pos).take 8) := by
  by_cases hl : ((file.data.drop file.pos).take 16).length = 16
  · have h1 : ¬ ((16 : Nat) = 2 ∨ (16 : Nat) = 4 ∨ (16 : Nat) = 8) := by decide
    rw [read_int_full file 16 dest hl, if_neg h1, if_pos rfl, List.take_take]
    rfl
  · rw [read_int_short file 16 dest hl] at h
    exact absurd h (by decide)

/-- A field of `parse_headers` that leaves no error: no earlier field had
failed, the bytes of the field were in the file, and the field now holds
what `read_int` stored. -/
theorem header_field_ok (st : Nat × zim_header_t × FILE) (len : Nat)
    (get : zim_header_t → Nat) (set : zim_header_t → Nat → zim_header_t)
    (h : (header_field st len get set).1 = 0) :
    st.1 = 0 ∧ st.2.2.pos + len ≤ st.2.2.data.length
      ∧ (read_int st.2.2 len (get st.2.1)).1 = 0
      ∧ header_field st len get set
        = (0, set st.2.1 (read_int st.2.2 len (get st.2.1)).2.1,
            ⟨st.2.2.data, st.2.2.pos + len⟩) := by
  unfold header_field at h ⊢
  by_cases h0 : st.1 ≠ 0
  · rw [if_pos h0] at h
    exact absurd h h0
  · rw [if_neg h0] at h ⊢
    by_cases h1 : (read_int st.2.2 len (get st.2.1)).1 ≠ 0
    · rw [if_pos h1] at h
      exact absurd h Nat.one_ne_zero
    · rw [if_neg h1]
      have h1' : (read_int st.2.2 len (get st.2.1)).1 = 0 := not_not.mp h1
      have hp := read_int_ok_place st.2.2 len (get st.2.1) h1'
      exact ⟨not_not.mp h0, hp.1, h1', by rw [hp.2]⟩

/-- A run of `parse_headers` that returns 0 has read the 72 bytes after the
cursor and stored, field by field, the little-endian integers found there:
two bytes each for the versions, the first 8 of the 16 bytes of the uuid,
four bytes for the counts and the page indexes, eight bytes for the four
positions, and four bytes for `checksum_pos`. -/
theorem parse_headers_ok (header : zim_header_t) (data : List Nat) (p : Nat)
    (h : (parse_headers header ⟨data, p⟩).1 = 0) :
    p + 72 ≤ data.length
      ∧ parse_headers header ⟨data, p⟩
        = (0,
            ⟨header.magic_number,
             store_low header.major_version 2 ((data.drop p).take 2),
             store_low header.minor_version 2 ((data.drop (p + 2)).take 2),
             store_low header.uuid 8 ((data.drop (p + 4)).take 8),
             store_low header.article_count 4 ((data.drop (p + 20)).take 4),
             store_low header.cluster_count 4 ((data.drop (p + 24)).take 4),
             store_low header.url_ptr_pos 8 ((data.drop (p + 28)).take 8),
             store_low header.title_ptr_pos 8 ((data.drop (p + 36)).take 8),
             header.dir_entries_pos,
             store_low header.cluster_ptr_pos 8 ((data.drop (p + 44)).take 8),
             store_low header.mime_list_pos 8 ((data.drop (p + 52)).take 8),
             store_low header.main_page 4 ((data.drop (p + 60)).take 4),
             store_low header.layout_page 4 ((data.drop (p + 64)).take 4),
             store_low header.checksum_pos 4 ((data.drop (p + 68)).take 4)⟩,
            ⟨data, p + 72⟩) := by
  unfold parse_headers at h ⊢
  dsimp only at h ⊢
  have a12 := header_field_ok _ _ _ _ h
  have a11 := header_field_ok _ _ _ _ a12.1
  have a10 := header_field_ok _ _ _ _ a11.1
  have a9 := header_field_ok _ _ _ _ a10.1
  have a8 := header_field_ok _ _ _ _ a9.1
  have a7 := header_field_ok _ _ _ _ a8.1
  have a6 := header_field_ok _ _ _ _ a7.1
  have a5 := header_field_ok _ _ _ _ a6.1
  have a4 := header_field_ok _ _ _ _ a5.1
  have a3 := header_field_ok _ _ _ _ a4.1
  have a2 := header_field_ok _ _ _ _ a3.1
  have a1 := header_field_ok _ _ _ _ a2.1
  have v1 := read_int_value _ 2 _ (Or.inl rfl) a1.2.2.1
  have e1 := a1.2.2.2
  rw [v1] at e1
  dsimp only at e1
  rw [e1] at a2 a3 a4 a5 a6 a7 a8 a9 a10 a11 a12 ⊢
  dsimp only at a2 a3 a4 a5 a6 a7 a8 a9 a10 a11 a12
  have v2 := read_int_value _ 2 _ (Or.inl rfl) a2.2.2.1
  have e2 := a2.2.2.2
  rw [v2] at e2
  dsimp only at e2
  rw [e2] at a3 a4 a5 a6 a7 a8 a9 a10 a11 a12 ⊢
  dsimp only at a3 a4 a5 a6 a7 a8 a9 a10 a11 a12
  have v3 := read_int_value_16 _ _ a3.2.2.1
  have e3 := a3.2.2.2
  rw [v3] at e3
  dsimp only at e3
  rw [e3] at a4 a5 a6 a7 a8 a9 a10 a11 a12 ⊢
  dsimp only at a4 a5 a6 a7 a8 a9 a10 a11 a12
  have v4 := read_int_value _ 4 _ (Or.inr (Or.inl rfl)) a4.2.2.1
  have e4 := a4.2.2.2
  rw [v4] at e4
  dsimp only at e4
  rw [e4] at a5 a6 a7 a8 a9 a10 a11 a12 ⊢
  dsimp only at a5 a6 a7 a8 a9 a10 a11 a12
  have v5 := read_int_value _ 4 _ (Or.inr (Or.inl rfl)) a5.2.2.1
  have e5 := a5.2.2.2
  rw [v5] at e5
  dsimp only at e5
  rw [e5] at a6 a7 a8 a9 a10 a11 a12 ⊢
  dsimp only at a6 a7 a8 a9 a10 a11 a12
  have v6 := read_int_value _ 8 _ (Or.inr (Or.inr rfl)) a6.2.2.1
  have e6 := a6.2.2.2
  rw [v6] at e6
  dsimp only at e6
  rw [e6] at a7 a8 a9 a10 a11 a12 ⊢
  dsimp only at a7 a8 a9 a10 a11 a12
  have v7 := read_int_value _ 8 _ (Or.inr (Or.inr rfl)) a7.2.2.1
  have e7 := a7.2.2.2
  rw [v7] at e7
  dsimp only at e7
  rw [e7] at a8 a9 a10 a11 a12 ⊢
  dsimp only at a8 a9 a10 a11 a12
  have v8 := read_int_value _ 8 _ (Or.inr (Or.inr rfl)) a8.2.2.1
  have e8 := a8.2.2.2
  rw [v8] at e8
  dsimp only at e8
  rw [e8] at a9 a10 a11 a12 ⊢
  dsimp only at a9 a10 a11 a12
  have v9 := read_int_value _ 8 _ (Or.inr (Or.inr rfl)) a9.2.2.1
  have e9 := a9.2.2.2
  rw [v9] at e9
  dsimp only at e9
  rw [e9] at a10 a11 a12 ⊢
  dsimp only at a10 a11 a12
  have v10 := read_int_value _ 4 _ (Or.inr (Or.inl rfl)) a10.2.2.1
  have e10 := a10.2.2.2
  rw [v10] at e10
  dsimp only at e10
  rw [e10] at a11 a12 ⊢
  dsimp only at a11 a12
  have v11 := read_int_value _ 4 _ (Or.inr (Or.inl rfl)) a11.2.2.1
  have e11 := a11.2.2.2
  rw [v11] at e11
  dsimp only at e11
  rw [e11] at a12 ⊢
  dsimp only at a12
  have v12 := read_int_value _ 4 _ (Or.inr (Or.inl rfl)) a12.2.2.1
  have e12 := a12.2.2.2
  rw [v12] at e12
  dsimp only at e12
  have hlen := a12.2.1
  refine ⟨by omega, ?_⟩
  rw [e12]

/-- A run of `zim_parse` that returns 0: the file exists, starts with the
magic number, and the rest of the procedure returned 0 from offset 4. -/
theorem zim_parse_ok (fs : FileSystem) (path : String) (a0 a : zim_archive_t)
    (h : zim_parse fs path a0 = Outcome.ret (0, a)) :
    ∃ data, fs path = some data ∧ 4 ≤ data.length ∧ le_int (data.take 4) = ZIM_MAGIC
      ∧ zim_parse_after_magic path a0 (le_int (data.take 4)) ⟨data, 4⟩ = Outcome.ret (0, a) := by
  unfold zim_parse fopen at h
  dsimp only at h
  cases hfs : fs path with
  | none =>
    rw [hfs] at h
    dsimp only at h
    injection h with h1
    injection h1 with h2 _
    exact absurd h2 Nat.one_ne_zero
  | some data =>
    rw [hfs] at h
    dsimp only at h
    have hbytes : (fread ⟨data, 0⟩ 4).1 = data.take 4 := by simp [fread]
    rw [hbytes] at h
    by_cases hl : (data.take 4).length ≠ 4
    · rw [if_pos hl] at h
      injection h with h1
      injection h1 with h2 _
      exact absurd h2 Nat.one_ne_zero
    · rw [if_neg hl] at h
      by_cases hm : le_int (data.take 4) ≠ ZIM_MAGIC
      · rw [if_pos hm] at h
        injection h with h1
        injection h1 with h2 _
        exact absurd h2 Nat.one_ne_zero
      · rw [if_neg hm] at h
        have hl4 : (data.take 4).length = 4 := not_not.mp hl
        have hfile : (fread ⟨data, 0⟩ 4).2 = ⟨data, 4⟩ := by
          simp only [fread, List.drop_zero, hl4]
        rw [hfile] at h
        refine ⟨data, rfl, ?_, not_not.mp hm, h⟩
        rw [List.length_take] at hl4
        omega

/-- What `zim_parse` does after the magic number, when it returns 0:
`parse_headers` returned 0, the path is recorded, the mime-type list is the
one `parse_mime_type_list` built, and the header is the one of
`parse_headers` but for `dir_entries_pos`. -/
theorem zim_parse_after_magic_ok (path : String) (a0 a : zim_archive_t) (m : Nat)
    (file : FILE) (h : zim_parse_after_magic path a0 m file = Outcome.ret (0, a)) :
    (parse_headers { a0.header with magic_number := m } file).1 = 0
      ∧ a.path = some path
      ∧ (∃ d, a.header
          = { (parse_headers { a0.header with magic_number := m } file).2.1 with
              dir_entries_pos := d })
      ∧ (∃ f3, parse_mime_type_list
          ⟨some path, (parse_headers { a0.header with magic_number := m } file).2.1,
            a0.mime_type_list⟩
          (parse_headers { a0.header with magic_number := m } file).2.2
          = Outcome.ret (a.mime_type_list, f3)) := by
  unfold zim_parse_after_magic at h
  dsimp only at h
  generalize parse_headers { a0.header with magic_number := m } file = ph at h ⊢
  by_cases hp : ph.1 ≠ 0
  · rw [if_pos hp] at h
    injection h with h1
    injection h1 with h2 _
    exact absurd h2 hp
  · rw [if_neg hp] at h
    refine ⟨not_not.mp hp, ?_⟩
    generalize parse_mime_type_list ⟨some path, ph.2.1, a0.mime_type_list⟩ ph.2.2 = pm at h ⊢
    cases pm with
    | exit c => cases h
    | diverge => cases h
    | ret r =>
      obtain ⟨list, f3⟩ := r
      dsimp only at h
      cases hs : fseek_set f3 ph.2.1.url_ptr_pos with
      | none =>
        rw [hs] at h
        dsimp only at h
        injection h with h1
        injection h1 with h2 _
        exact absurd h2 Nat.one_ne_zero
      | some f4 =>
        rw [hs] at h
        dsimp only at h
        injection h with h1
        injection h1 with _ h3
        rw [← h3]
        exact ⟨rfl, ⟨_, rfl⟩, ⟨f3, rfl⟩⟩

/-- The header of an archive that `zim_parse` accepted, starting from a fresh
archive: each field but `dir_entries_pos` is the little-endian integer at its
place in the first 76 bytes of the file. -/
theorem zim_parse_header (fs : FileSystem) (path : String) (data : List Nat)
    (a : zim_archive_t) (hfile : fs path = some data)
    (h : zim_parse fs path new_zim_archive = Outcome.ret (0, a)) :
    76 ≤ data.length ∧ a.path = some path
      ∧ ∃ d, a.header
        = ⟨ZIM_MAGIC,
           le_int ((data.drop 4).take 2),
           le_int ((data.drop 6).take 2),
           le_int ((data.drop 8).take 8),
           le_int ((data.drop 24).take 4),
           le_int ((data.drop 28).take 4),
           le_int ((data.drop 32).take 8),
           le_int ((data.drop 40).take 8),
           d,
           le_int ((data.drop 48).take 8),
           le_int ((data.drop 56).take 8),
           le_int ((data.drop 64).take 4),
           le_int ((data.drop 68).take 4),
           le_int ((data.drop 72).take 4)⟩ := by
  obtain ⟨data1, hf1, _, hmagic, hafter⟩ := zim_parse_ok fs path new_zim_archive a h
  have hd : data1 = data := by
    rw [hfile] at hf1
    exact (Option.some.inj hf1).symm
  rw [hd] at hmagic hafter
  obtain ⟨hph, hpath, ⟨d, hhdr⟩, _⟩ :=
    zim_parse_after_magic_ok path new_zim_archive a _ _ hafter
  obtain ⟨hlen, hexp⟩ := parse_headers_ok _ data 4 hph
  rw [hexp] at hhdr
  refine ⟨by omega, hpath, d, ?_⟩
  rw [hhdr, hmagic]
  simp only [new_zim_archive, zero_header, store_low_zero]

/-- C12: when `zim_parse` returns 0 on a file, the header fields are the
little-endian integers at the fixed offsets of the layout: the versions on 2
bytes at 4 and 6, the counts on 4 bytes at 24 and 28, the four positions on 8
bytes at 32, 40, 48 and 56, the main and layout pages on 4 bytes at 64 and
68; bytes 8 to 23, the uuid, lie in between. -/
theorem zim_parse_header_fields (fs : FileSystem) (path : String) (data : List Nat)
    (a : zim_archive_t) (hfile : fs path = some data)
    (h : zim_parse fs path new_zim_archive = Outcome.ret (0, a)) :
    a.header.major_version = le_int ((data.drop 4).take 2)
      ∧ a.header.minor_version = le_int ((data.drop 6).take 2)
      ∧ a.header.article_count = le_int ((data.drop 24).take 4)
      ∧ a.header.cluster_count = le_int ((data.drop 28).take 4)
      ∧ a.header.url_ptr_pos = le_int ((data.drop 32).take 8)
      ∧ a.header.title_ptr_pos = le_int ((data.drop 40).take 8)
      ∧ a.header.cluster_ptr_pos = le_int ((data.drop 48).take 8)
      ∧ a.header.mime_list_pos = le_int ((data.drop 56).take 8)
      ∧ a.header.main_page = le_int ((data.drop 64).take 4)
      ∧ a.header.layout_page = le_int ((data.drop 68).take 4) := by
  obtain ⟨_, _, d, hhdr⟩ := zim_parse_header fs path data a hfile h
  rw [hhdr]
  exact ⟨rfl, rfl, rfl, rfl, rfl, rfl, rfl, rfl, rfl, rfl⟩

set_option maxRecDepth 8000 in
/-- C12 at a concrete input: the header of the single-article archive. -/
theorem zim_parse_header_fields_witness :
    (archive_of (hello_archive 1)).header.major_version = 5
      ∧ (archive_of (hello_archive 1)).header.minor_version = 0
      ∧ (archive_of (hello_archive 1)).header.article_count = 1
      ∧ (archive_of (hello_archive 1)).header.cluster_count = 1
      ∧ (archive_of (hello_archive 1)).header.url_ptr_pos = 92
      ∧ (archive_of (hello_archive 1)).header.title_ptr_pos = 100
      ∧ (archive_of (hello_archive 1)).header.cluster_ptr_pos = 128
      ∧ (archive_of (hello_archive 1)).header.mime_list_pos = 80
      ∧ (archive_of (hello_archive 1)).header.main_page = 0xffffffff
      ∧ (archive_of (hello_archive 1)).header.layout_page = 0xffffffff :=
  zim_parse_header_fields (fun _ => some (hello_archive 1)) "a.zim" (hello_archive 1)
    (archive_of (hello_archive 1)) rfl (by decide)

/-- The field `checksum_pos` of an accepted archive is the integer held by
the four bytes at offset 72: `parse_headers` reads it with length 4, so
bytes 76 to 79 of the header are never read. -/
theorem checksum_pos_four_bytes (fs : FileSystem) (path : String) (data : List Nat)
    (a : zim_archive_t) (hfile : fs path = some data)
    (h : zim_parse fs path new_zim_archive = Outcome.ret (0, a)) :
    a.header.checksum_pos = le_int ((data.drop 72).take 4) := by
  obtain ⟨_, _, d, hhdr⟩ := zim_parse_header fs path data a hfile h
  rw [hhdr]

set_option maxRecDepth 8000 in
/-- C13, evaluated on the single-article archive whose header bytes 72 to
79 hold 2^32 + 150: `zim_parse` returns 0 and `checksum_pos` is 150, the value
of the four bytes at 72, not the 8-byte integer stored there; the cursor of
`parse_headers` stops at offset 76, not at the end of the 80-byte header. -/
theorem checksum_pos_is_cut_to_four_bytes :
    le_int (((hello_archive_with 1 (2 ^ 32 + 150)).drop 72).take 8) = 2 ^ 32 + 150
      ∧ zim_parse (fun _ => some (hello_archive_with 1 (2 ^ 32 + 150))) "a.zim" new_zim_archive
        = Outcome.ret (0, archive_of (hello_archive_with 1 (2 ^ 32 + 150)))
      ∧ (archive_of (hello_archive_with 1 (2 ^ 32 + 150))).header.checksum_pos = 150
      ∧ (parse_headers zero_header ⟨hello_archive_with 1 (2 ^ 32 + 150), 4⟩).2.2.pos = 76 := by
  decide

/-! ## The mime-type list -/

theorem strncmp_empty_ne (s : List Nat) (hs : s ≠ []) (h0 : ∀ b ∈ s, b ≠ 0) :
    strncmp s [] 100 ≠ 0 := by
  cases s with
  | nil => exact absurd rfl hs
  | cons c t =>
    have hc : c ≠ 0 := h0 c (List.mem_cons_self c t)
    show ((c : Nat) : Int) ≠ 0
    exact_mod_cast hc

/-- One turn of the loop of `parse_mime_type_list` on a non-empty string
shorter than 100 bytes, with room left in the list: the string is stored and
the loop goes on after its NUL. -/
theorem parse_mime_type_loop_store (fuel : Nat) (data : List Nat) (p : Nat)
    (list : zim_mime_type_list_t) (s rest : List Nat)
    (hs : s ≠ []) (h0 : ∀ b ∈ s, b ≠ 0) (hlen : s.length < 100)
    (hd : data.drop p = s ++ 0 :: rest) (hroom : list.len + 1 ≤ MAX_MIME_TYPES_LEN) :
    parse_mime_type_loop (fuel + 1) ⟨data, p⟩ list
      = parse_mime_type_loop fuel ⟨data, p + s.length + 1⟩
          ⟨list.items ++ [s], list.len + 1⟩ := by
  have hr := read_string_loop_terminated s 100 data p [] rest h0 hlen hd
  rw [List.nil_append] at hr
  have hroom2 : ¬ (list.len + 1 > MAX_MIME_TYPES_LEN) := by omega
  rw [parse_mime_type_loop, hr]
  dsimp only
  rw [if_neg (strncmp_empty_ne s hs h0), if_neg hroom2]

/-- One turn of the loop on a string when the list is full: `len` is
incremented, nothing is stored, and the procedure returns. -/
theorem parse_mime_type_loop_overflow (fuel : Nat) (data : List Nat) (p : Nat)
    (list : zim_mime_type_list_t) (s rest : List Nat)
    (hs : s ≠ []) (h0 : ∀ b ∈ s, b ≠ 0) (hlen : s.length < 100)
    (hd : data.drop p = s ++ 0 :: rest) (hfull : list.len + 1 > MAX_MIME_TYPES_LEN) :
    parse_mime_type_loop (fuel + 1) ⟨data, p⟩ list
      = Outcome.ret (⟨list.items, list.len + 1⟩, ⟨data, p + s.length + 1⟩) := by
  have hr := read_string_loop_terminated s 100 data p [] rest h0 hlen hd
  rw [List.nil_append] at hr
  rw [parse_mime_type_loop, hr]
  dsimp only
  rw [if_neg (strncmp_empty_ne s hs h0), if_pos hfull]

/-- One turn of the loop on the closing empty string: the list is returned
as it is. -/
theorem parse_mime_type_loop_end (fuel : Nat) (data : List Nat) (p : Nat)
    (list : zim_mime_type_list_t) (rest : List Nat) (hd : data.drop p = 0 :: rest) :
    parse_mime_type_loop (fuel + 1) ⟨data, p⟩ list = Outcome.ret (list, ⟨data, p + 1⟩) := by
  have hr := read_string_loop_terminated [] 100 data p [] rest (by simp) (by decide)
    (by simpa using hd)
  rw [parse_mime_type_loop, hr]
  dsimp only
  have h0 : strncmp ([] ++ []) [] 100 = 0 := by decide
  rw [if_pos h0]
  rfl

/-- The loop of `parse_mime_type_list` over a run of strings, each non-empty
and shorter than 100 bytes, that fits in the list: all are stored in order. -/
theorem parse_mime_type_loop_strings (strs : List (List Nat)) :
    ∀ (fuel : Nat) (data : List Nat) (p : Nat) (list : zim_mime_type_list_t) (rest : List Nat),
      (∀ s ∈ strs, s ≠ [] ∧ (∀ b ∈ s, b ≠ 0) ∧ s.length < 100) →
      data.drop p = mime_list_bytes strs ++ rest →
      list.len + strs.length ≤ MAX_MIME_TYPES_LEN →
      parse_mime_type_loop (fuel + strs.length) ⟨data, p⟩ list
        = parse_mime_type_loop fuel ⟨data, p + (mime_list_bytes strs).length⟩
            ⟨list.items ++ strs, list.len + strs.length⟩ := by
  induction strs with
  | nil =>
    intro fuel data p list rest _ _ _
    simp [mime_list_bytes]
  | cons s tl ih =>
    intro fuel data p list rest hall hd hroom
    obtain ⟨hs, h0, hlen⟩ := hall s (List.mem_cons_self s tl)
    have hd1 : data.drop p = s ++ 0 :: (mime_list_bytes tl ++ rest) := by
      rw [hd]
      simp [mime_list_bytes]
    have hd2 : data.drop (p + s.length + 1) = mime_list_bytes tl ++ rest := by
      have := drop_after data p (s ++ [0]) _ (by simpa using hd1)
      simpa [Nat.add_assoc] using this
    rw [List.length_cons] at hroom ⊢
    rw [← Nat.add_assoc, parse_mime_type_loop_store (fuel + tl.length) data p list s _ hs h0
      hlen hd1 (by omega)]
    rw [ih fuel data (p + s.length + 1) ⟨list.items ++ [s], list.len + 1⟩ rest
      (fun x hx => hall x (List.mem_cons_of_mem s hx)) hd2 (by dsimp only; omega)]
    simp [mime_list_bytes, Nat.add_assoc, Nat.add_comm 1]

/-- A mime-type list of at most 10000 strings, each non-empty and shorter
than 100 bytes, closed by an empty string, is read whole and in order by
`parse_mime_type_list` into a fresh list; `len` is the number of strings. -/
theorem parse_mime_type_list_strings (archive : zim_archive_t) (file : FILE)
    (strs : List (List Nat)) (rest : List Nat)
    (hfresh : archive.mime_type_list = ⟨[], 0⟩)
    (hpos : archive.header.mime_list_pos < 2 ^ 63)
    (hall : ∀ s ∈ strs, s ≠ [] ∧ (∀ b ∈ s, b ≠ 0) ∧ s.length < 100)
    (hcount : strs.length ≤ MAX_MIME_TYPES_LEN)
    (hd : file.data.drop archive.header.mime_list_pos = mime_list_bytes strs ++ 0 :: rest) :
    parse_mime_type_list archive file
      = Outcome.ret (⟨strs, strs.length⟩,
          ⟨file.data, archive.header.mime_list_pos + (mime_list_bytes strs).length + 1⟩) := by
  unfold parse_mime_type_list
  rw [fseek_set_small file _ hpos, hfresh]
  dsimp only [Option.getD]
  have hfuel : MAX_MIME_TYPES_LEN + 2
      = (MAX_MIME_TYPES_LEN - strs.length + 1) + 1 + strs.length := by omega
  rw [hfuel, parse_mime_type_loop_strings strs _ file.data _ ⟨[], 0⟩ (0 :: rest) hall hd
    (by dsimp only; omega)]
  have hd2 := drop_after file.data _ (mime_list_bytes strs) _ hd
  rw [parse_mime_type_loop_end _ file.data _ _ rest hd2]
  simp

/-- A string of exactly 100 bytes in the mime-type list: the byte loop ends
on its bound and leaves the NUL of the string unread; the next turn of the
loop reads that NUL as the empty string that closes the list, whatever
follows. -/
theorem hundred_byte_string_closes_list (fuel : Nat) (data : List Nat) (p : Nat)
    (list : zim_mime_type_list_t) (s rest : List Nat)
    (h0 : ∀ b ∈ s, b ≠ 0) (hlen : s.length = 100)
    (hd : data.drop p = s ++ 0 :: rest) (hroom : list.len + 1 ≤ MAX_MIME_TYPES_LEN) :
    parse_mime_type_loop (fuel + 2) ⟨data, p⟩ list
      = Outcome.ret (⟨list.items ++ [s], list.len + 1⟩, ⟨data, p + 101⟩) := by
  have hs : s ≠ [] := by
    intro hnil
    rw [hnil] at hlen
    exact absurd hlen (by decide)
  have hr := read_string_loop_full s data p [] (0 :: rest) h0 hd
  rw [hlen, List.nil_append] at hr
  have hroom2 : ¬ (list.len + 1 > MAX_MIME_TYPES_LEN) := by omega
  have hd2 : data.drop (p + 100) = 0 :: rest := by
    have := drop_after data p s _ hd
    rwa [hlen] at this
  rw [parse_mime_type_loop, hr]
  dsimp only
  rw [if_neg (strncmp_empty_ne s hs h0), if_neg hroom2,
    parse_mime_type_loop_end fuel data (p + 100) _ rest hd2]

set_option maxRecDepth 100000 in
/-- C14, evaluated on an archive whose mime-type list holds a string of 100
letters `a` and then `text/plain`, both NUL-terminated, followed by an empty
string: `zim_parse` returns 0 and builds a list of one item, the long string;
`text/plain`, which the claim gives mime code 1, is not in the list. -/
theorem hundred_byte_mime_type_cuts_list :
    (long_mime_archive.drop 80).take 113
        = mime_list_bytes [List.replicate 100 97,
            [116, 101, 120, 116, 47, 112, 108, 97, 105, 110]] ++ [0]
      ∧ (match zim_parse (fun _ => some long_mime_archive) "a.zim" new_zim_archive with
          | Outcome.ret (err, a) => some (err, a.mime_type_list)
          | _ => none)
        = some (0, ⟨[List.replicate 100 97], 1⟩) := by
  decide

theorem mime_list_bytes_append (l1 l2 : List (List Nat)) :
    mime_list_bytes (l1 ++ l2) = mime_list_bytes l1 ++ mime_list_bytes l2 := by
  induction l1 with
  | nil => simp [mime_list_bytes]
  | cons s tl ih => simp [mime_list_bytes, ih]

theorem mime_list_bytes_replicate_length (n : Nat) (s : List Nat) :
    (mime_list_bytes (List.replicate n s)).length = n * (s.length + 1) := by
  induction n with
  | zero => simp [mime_list_bytes]
  | succ n ih =>
    rw [List.replicate_succ, mime_list_bytes, List.length_append, List.length_cons, ih]
    ring

/-- A mime-type list of one more string than `MAX_MIME_TYPES_LEN`, read into
a fresh list: the first `MAX_MIME_TYPES_LEN` strings are stored, the next one
makes `len` exceed the bound and the procedure returns with `len` one more
than the number of items. -/
theorem parse_mime_type_loop_one_too_many (n : Nat) (data : List Nat) (p : Nat)
    (s rest : List Nat) (hn : n = MAX_MIME_TYPES_LEN)
    (hs : s ≠ []) (h0 : ∀ b ∈ s, b ≠ 0) (hlen : s.length < 100)
    (hd : data.drop p = mime_list_bytes (List.replicate (n + 1) s) ++ rest) :
    parse_mime_type_loop (MAX_MIME_TYPES_LEN + 2) ⟨data, p⟩ ⟨[], 0⟩
      = Outcome.ret (⟨List.replicate n s, n + 1⟩,
          ⟨data, p + (n + 1) * (s.length + 1)⟩) := by
  have hd1 : data.drop p
      = mime_list_bytes (List.replicate n s) ++ (s ++ 0 :: rest) := by
    rw [hd, List.replicate_succ', mime_list_bytes_append]
    simp [mime_list_bytes]
  have hall : ∀ x ∈ List.replicate n s, x ≠ [] ∧ (∀ b ∈ x, b ≠ 0) ∧ x.length < 100 := by
    intro x hx
    rw [List.eq_of_mem_replicate hx]
    exact ⟨hs, h0, hlen⟩
  have hcount : (List.replicate n s).length = n := List.length_replicate n s
  have hfuel : MAX_MIME_TYPES_LEN + 2 = 1 + 1 + (List.replicate n s).length := by
    rw [hcount, hn]
    omega
  rw [hfuel, parse_mime_type_loop_strings (List.replicate n s) (1 + 1) data p ⟨[], 0⟩ _ hall hd1
    (by dsimp only; rw [hcount, hn]; omega)]
  have hd2 := drop_after data p (mime_list_bytes (List.replicate n s)) _ hd1
  rw [parse_mime_type_loop_overflow 1 data _ _ s rest hs h0 hlen hd2
    (by dsimp only; rw [hcount, hn]; omega)]
  rw [mime_list_bytes_replicate_length, hcount]
  simp only [List.nil_append, Nat.zero_add]
  congr 2
  ring_nf

/-- C15, evaluated on a file whose mime-type list at offset 80 holds 10001
strings `a`: `parse_mime_type_list`, started with the fresh list of
`new_zim_archive`, returns a list whose `len` is 10001, above 10000, while
`items` holds 10000 strings; index 10000, which is below `len`, lies outside
`items`. -/
theorem mime_list_len_exceeds_items :
    parse_mime_type_list ⟨some "a.zim", { zero_header with mime_list_pos := 80 }, ⟨[], 0⟩⟩
        ⟨many_mimes_archive, 76⟩
        = Outcome.ret (⟨List.replicate 10000 [97], 10001⟩, ⟨many_mimes_archive, 20082⟩)
      ∧ (List.replicate 10000 [97]).length = 10000
      ∧ (List.replicate 10000 [97])[10000]? = none := by
  have hhdr : (example_header 0 0 20083 20091 20091 80 20091).length = 80 := by decide
  have hd : many_mimes_archive.drop 80
      = mime_list_bytes (List.replicate (10000 + 1) [97])
        ++ 0 :: (le_bytes 8 0 ++ List.replicate 16 0) := by
    unfold many_mimes_archive
    exact List.drop_left' hhdr
  refine ⟨?_, List.length_replicate 10000 [97], ?_⟩
  · unfold parse_mime_type_list
    rw [fseek_set_small _ _ (by decide)]
    exact parse_mime_type_loop_one_too_many 10000 many_mimes_archive 80 [97] _ rfl
      (by decide) (by decide) (by decide) hd
  · exact List.getElem?_eq_none (by rw [List.length_replicate])

/-! ## The length of the last cluster -/

/-- Locating a cluster uses two fields of the header only, `cluster_ptr_pos`
and `cluster_count`: `checksum_pos` plays no part in it. -/
theorem locate_cluster_header_fields (env : Env) (path : Option String)
    (h1 h2 : zim_header_t) (l1 l2 : zim_mime_type_list_t) (entry : zim_directory_entry_t)
    (hptr : h1.cluster_ptr_pos = h2.cluster_ptr_pos)
    (hcount : h1.cluster_count = h2.cluster_count) :
    locate_cluster env ⟨path, h1, l1⟩ entry = locate_cluster env ⟨path, h2, l2⟩ entry := by
  unfold locate_cluster
  dsimp only
  rw [hptr, hcount]

/-- For the last cluster (or any `cluster_number` that is not below
`cluster_count - 1`) `cluster_end` is not read and stays 0: `cluster_len` is
`0 - cluster_start - 1` on `unsigned long`. -/
theorem last_cluster_len (env : Env) (archive : zim_archive_t) (entry : zim_directory_entry_t)
    (info cluster_len : Nat) (file f1 after : FILE)
    (hopen : fopen env.fs archive.path = some file)
    (hseek : fseek_set file
      ((archive.header.cluster_ptr_pos + (entry.cluster_number * 8) % 2 ^ 32) % 2 ^ 64) = some f1)
    (hlast : ¬ entry.cluster_number < (archive.header.cluster_count + 2 ^ 32 - 1) % 2 ^ 32)
    (hloc : locate_cluster env archive entry = some (info, cluster_len, after)) :
    cluster_len = usub64 (usub64 0 (read_int f1 8 0).2.1) 1 := by
  unfold locate_cluster at hloc
  rw [hopen] at hloc
  dsimp only at hloc
  rw [hseek] at hloc
  dsimp only at hloc
  rw [if_neg hlast] at hloc
  by_cases h1 : (read_int f1 8 0).1 ≠ 0
  · rw [if_pos h1] at hloc
    cases hloc
  · rw [if_neg h1] at hloc
    dsimp only at hloc
    rw [if_neg (by decide : ¬ ((0 : Nat) ≠ 0))] at hloc
    cases h3 : fseek_set (read_int f1 8 0).2.2 (read_int f1 8 0).2.1 with
    | none =>
      rw [h3] at hloc
      cases hloc
    | some f3 =>
      rw [h3] at hloc
      dsimp only at hloc
      by_cases h4 : (fread f3 1).1.length ≠ 1
      · rw [if_pos h4] at hloc
        cases hloc
      · rw [if_neg h4] at hloc
        have h5 := congrArg (fun t : Nat × Nat × FILE => t.2.1) (Option.some.inj hloc)
        exact h5.symm

set_option maxRecDepth 100000 in
/-- C11, evaluated on the single-article archive with a zstd cluster (info
byte 5), which is its last cluster: the cluster starts at 136 and
`checksum_pos` is 150, so the claim gives `cluster_len = 150 - 136 - 1 = 13`,
and with that length the zstd reader returns the blob; the code computes
`cluster_len = 2^64 - 137`, asks the reader for that many bytes, and
`retrieve_directory_entry_content` returns `NULL`. -/
theorem last_cluster_len_ignores_checksum_pos :
    (archive_of (hello_archive 5)).header.checksum_pos = 150
      ∧ (archive_of (hello_archive 5)).header.cluster_count = 1
      ∧ locate_cluster (zstd_env (hello_archive 5) two_blobs) (archive_of (hello_archive 5))
          (hello_entry 0) = some (5, 2 ^ 64 - 137, ⟨hello_archive 5, 137⟩)
      ∧ retrieve_directory_entry_content (zstd_env (hello_archive 5) two_blobs)
          (archive_of (hello_archive 5)) (hello_entry 0) = Content.null
      ∧ read_article_from_zstd_compressed_cluster (fun _ => some two_blobs) (hello_entry 0)
          ⟨hello_archive 5, 137⟩ 4 (150 - 136 - 1) = Content.str alpha := by
  decide

/-! ## The value returned by `dump_all_articles` -/

set_option maxRecDepth 100000 in
/-- C20, evaluated on the archive of three entries with one url pointer
pointing at the end of the file (222), so that the entry there does not
parse: when that pointer is the last one, the two other records are printed
and `dump_all_articles` returns 1; when it is the first or the middle one,
the two other records are printed and the value is 0. -/
theorem bogus_last_entry_gives_nonzero :
    (three_archive_with 128 148 222).length = 222
      ∧ dump_all_articles (one_file_env (three_archive_with 128 148 222)) 5 "a.zim" false []
        = Outcome.ret (1,
            [⟨[97], [84], some [116, 101, 120, 116, 47, 112, 108, 97, 105, 110],
                ContentLines.absent⟩,
             ⟨[98], [84], some none_redirect, ContentLines.absent⟩])
      ∧ dump_all_articles (one_file_env (three_archive_with 222 148 164)) 5 "a.zim" false []
        = Outcome.ret (0,
            [⟨[98], [84], some none_redirect, ContentLines.absent⟩,
             ⟨[99], [84], some none_deleted_page, ContentLines.absent⟩])
      ∧ dump_all_articles (one_file_env (three_archive_with 128 222 164)) 5 "a.zim" false []
        = Outcome.ret (0,
            [⟨[97], [84], some [116, 101, 120, 116, 47, 112, 108, 97, 105, 110],
                ContentLines.absent⟩,
             ⟨[99], [84], some none_deleted_page, ContentLines.absent⟩]) := by
  decide

/-! ## The mime-type line of a record -/

/-- One turn of the loop of `dump_all_articles` on an index whose url
pointer is read and whose entry parses: the record of the entry is printed
and the loop goes on with the next index and `err` at 0. -/
theorem dump_articles_loop_step (env : Env) (fuel : Nat) (archive : zim_archive_t)
    (file : FILE) (show_article_content : Bool) (mime_type_whitelist : List Nat)
    (e : zim_directory_entry_t) (remaining i err : Nat) (f1 f2 : FILE)
    (hs1 : fseek_set file ((archive.header.url_ptr_pos + (i * 8) % 2 ^ 64) % 2 ^ 64)
      = some f1)
    (hr1 : (read_int f1 8 0).1 = 0)
    (hs2 : fseek_set (read_int f1 8 0).2.2 (read_int f1 8 0).2.1 = some f2)
    (hp : (parse_directory_entry f2 zero_entry).1 = 0)
    (he : (parse_directory_entry f2 zero_entry).2.1 = e) :
    dump_articles_loop env fuel archive file show_article_content mime_type_whitelist
        (remaining + 1) i err
      = match article_record env fuel archive show_article_content mime_type_whitelist e with
        | Outcome.exit c => Outcome.exit c
        | Outcome.diverge => Outcome.diverge
        | Outcome.ret record =>
          add_record record
            (dump_articles_loop env fuel archive file show_article_content
              mime_type_whitelist remaining (i + 1) 0) := by
  rw [dump_articles_loop, hs1]
  dsimp only
  rw [if_neg (not_not.mpr hr1), hs2]
  dsimp only
  rw [if_neg (not_not.mpr hp), he]

/-- C18: the text `dump_all_articles` prints after `mime-type: ` for a parsed
entry is `items[mime_type]` when the code is below `len` (the string of that
index when `len` is the number of items); otherwise `none (redirect)` for
0xffff, `none (deleted page)` for 0xfffe and 0xfffd, `unknown` for any other
code; that text is the one of the record printed for the entry; and on an
entry of unknown code the loop prints its record and goes on with the next
index. -/
theorem dump_mime_type_line (env : Env) (fuel : Nat) (archive : zim_archive_t)
    (file : FILE) (show_article_content : Bool) (mime_type_whitelist : List Nat)
    (e : zim_directory_entry_t) :
    (e.mime_type < archive.mime_type_list.len →
        mime_type_line archive.mime_type_list e
          = archive.mime_type_list.items[e.mime_type]?)
      ∧ (∀ h : e.mime_type < archive.mime_type_list.items.length,
        archive.mime_type_list.len = archive.mime_type_list.items.length →
        mime_type_line archive.mime_type_list e
          = some (archive.mime_type_list.items.get ⟨e.mime_type, h⟩))
      ∧ (¬ e.mime_type < archive.mime_type_list.len → e.mime_type = 0xffff →
        mime_type_line archive.mime_type_list e = some none_redirect)
      ∧ (¬ e.mime_type < archive.mime_type_list.len →
        (e.mime_type = 0xfffe ∨ e.mime_type = 0xfffd) →
        mime_type_line archive.mime_type_list e = some none_deleted_page)
      ∧ (¬ e.mime_type < archive.mime_type_list.len → e.mime_type ≠ 0xffff →
        e.mime_type ≠ 0xfffe → e.mime_type ≠ 0xfffd →
        mime_type_line archive.mime_type_list e = some unknown)
      ∧ (∀ r, article_record env fuel archive show_article_content mime_type_whitelist e
          = Outcome.ret r → r.mime_type = mime_type_line archive.mime_type_list e)
      ∧ (∀ (remaining i err : Nat) (f1 f2 : FILE),
        fseek_set file ((archive.header.url_ptr_pos + (i * 8) % 2 ^ 64) % 2 ^ 64) = some f1 →
        (read_int f1 8 0).1 = 0 →
        fseek_set (read_int f1 8 0).2.2 (read_int f1 8 0).2.1 = some f2 →
        (parse_directory_entry f2 zero_entry).1 = 0 →
        (parse_directory_entry f2 zero_entry).2.1 = e →
        ¬ e.mime_type < archive.mime_type_list.len → e.mime_type ≠ 0xffff →
        e.mime_type ≠ 0xfffe → e.mime_type ≠ 0xfffd →
        dump_articles_loop env fuel archive file show_article_content mime_type_whitelist
            (remaining + 1) i err
          = add_record ⟨e.url, e.title, some unknown, ContentLines.absent⟩
              (dump_articles_loop env fuel archive file show_article_content
                mime_type_whitelist remaining (i + 1) 0)) := by
  have hunknown : ¬ e.mime_type < archive.mime_type_list.len → e.mime_type ≠ 0xffff →
      e.mime_type ≠ 0xfffe → e.mime_type ≠ 0xfffd →
      mime_type_line archive.mime_type_list e = some unknown := by
    intro hlt h1 h2 h3
    have g1 : ¬ (e.mime_type = MIME_TYPE_REDIRECT) := h1
    have g2 : ¬ (e.mime_type = MIME_TYPE_REDLINK ∨ e.mime_type = MIME_TYPE_DELETED) := by
      rintro (h | h)
      · exact h2 h
      · exact h3 h
    unfold mime_type_line sentinel_mime_line
    rw [if_neg hlt, if_neg g1, if_neg g2]
  refine ⟨?_, ?_, ?_, ?_, hunknown, ?_, ?_⟩
  · intro hlt
    unfold mime_type_line
    rw [if_pos hlt]
  · intro h hlen
    unfold mime_type_line
    rw [if_pos (by rw [hlen]; exact h)]
    exact List.getElem?_eq_getElem h
  · intro hlt h1
    have g1 : e.mime_type = MIME_TYPE_REDIRECT := h1
    unfold mime_type_line sentinel_mime_line
    rw [if_neg hlt, if_pos g1]
  · intro hlt h1
    have g1 : ¬ (e.mime_type = MIME_TYPE_REDIRECT) := by
      rcases h1 with h | h <;> rw [h] <;> decide
    have g2 : e.mime_type = MIME_TYPE_REDLINK ∨ e.mime_type = MIME_TYPE_DELETED := h1
    unfold mime_type_line sentinel_mime_line
    rw [if_neg hlt, if_neg g1, if_pos g2]
  · intro r hr
    unfold article_record at hr
    by_cases hlt : e.mime_type < archive.mime_type_list.len
    · rw [if_pos hlt] at hr
      cases hitem : archive.mime_type_list.items[e.mime_type]? with
      | none =>
        rw [hitem] at hr
        dsimp only at hr
        cases hr
        rfl
      | some m =>
        rw [hitem] at hr
        dsimp only at hr
        by_cases hshow : show_article_content = true
        · rw [if_pos hshow] at hr
          by_cases hacc : is_accepted_mimetype m mime_type_whitelist = true
          · rw [if_pos hacc] at hr
            cases hurl : read_article_at_url env fuel archive e.url with
            | exit c =>
              rw [hurl] at hr
              cases hr
            | diverge =>
              rw [hurl] at hr
              cases hr
            | ret a =>
              rw [hurl] at hr
              dsimp only at hr
              cases hr
              rfl
          · rw [if_neg hacc] at hr
            cases hr
            rfl
        · rw [if_neg hshow] at hr
          cases hr
          rfl
    · rw [if_neg hlt] at hr
      cases hr
      rfl
  · intro remaining i err f1 f2 hs1 hr1 hs2 hp he hlt h1 h2 h3
    have hrec : article_record env fuel archive show_article_content mime_type_whitelist e
        = Outcome.ret ⟨e.url, e.title, some unknown, ContentLines.absent⟩ := by
      unfold article_record
      rw [if_neg hlt, hunknown hlt h1 h2 h3]
    rw [dump_articles_loop_step env fuel archive file show_article_content mime_type_whitelist
      e remaining i err f1 f2 hs1 hr1 hs2 hp he, hrec]


set_option maxRecDepth 100000 in
/-- C18 at concrete inputs, on the archive of three entries whose first entry
has the mime code 7 while the list holds one string: the line of a code below
`len`, of a redirect, of a deleted page, of the code 7, and the turn of the
loop on the first entry, which prints its record and goes on with index 1. -/
theorem dump_mime_type_line_witness :
    mime_type_line (archive_of (three_archive_mime 7)).mime_type_list
        ⟨0, 65, 0, 0, 0, 0, [97], [84]⟩
      = some [116, 101, 120, 116, 47, 112, 108, 97, 105, 110]
    ∧ mime_type_line (archive_of (three_archive_mime 7)).mime_type_list
        ⟨0xffff, 65, 0, 0, 0, 0, [98], [84]⟩ = some none_redirect
    ∧ mime_type_line (archive_of (three_archive_mime 7)).mime_type_list
        ⟨0xfffd, 65, 0, 0, 0, 0, [99], [84]⟩ = some none_deleted_page
    ∧ mime_type_line (archive_of (three_archive_mime 7)).mime_type_list
        ⟨7, 65, 0, 0, 0, 0, [97], [84]⟩ = some unknown
    ∧ dump_articles_loop (one_file_env (three_archive_mime 7)) 5
        (archive_of (three_archive_mime 7)) ⟨three_archive_mime 7, 0⟩ false [] 3 0 0
      = add_record ⟨[97], [84], some unknown, ContentLines.absent⟩
          (dump_articles_loop (one_file_env (three_archive_mime 7)) 5
            (archive_of (three_archive_mime 7)) ⟨three_archive_mime 7, 0⟩ false [] 2 1 0) :=
  ⟨(dump_mime_type_line (one_file_env (three_archive_mime 7)) 5
      (archive_of (three_archive_mime 7)) ⟨three_archive_mime 7, 0⟩ false []
      ⟨0, 65, 0, 0, 0, 0, [97], [84]⟩).2.1 (by decide) (by decide),
   (dump_mime_type_line (one_file_env (three_archive_mime 7)) 5
      (archive_of (three_archive_mime 7)) ⟨three_archive_mime 7, 0⟩ false []
      ⟨0xffff, 65, 0, 0, 0, 0, [98], [84]⟩).2.2.1 (by decide) (by decide),
   (dump_mime_type_line (one_file_env (three_archive_mime 7)) 5
      (archive_of (three_archive_mime 7)) ⟨three_archive_mime 7, 0⟩ false []
      ⟨0xfffd, 65, 0, 0, 0, 0, [99], [84]⟩).2.2.2.1 (by decide) (by decide),
   (dump_mime_type_line (one_file_env (three_archive_mime 7)) 5
      (archive_of (three_archive_mime 7)) ⟨three_archive_mime 7, 0⟩ false []
      ⟨7, 65, 0, 0, 0, 0, [97], [84]⟩).2.2.2.2.1 (by decide) (by decide) (by decide)
      (by decide),
   (dump_mime_type_line (one_file_env (three_archive_mime 7)) 5
      (archive_of (three_archive_mime 7)) ⟨three_archive_mime 7, 0⟩ false []
      ⟨7, 65, 0, 0, 0, 0, [97], [84]⟩).2.2.2.2.2.2 2 0 0
      ⟨three_archive_mime 7, 92⟩ ⟨three_archive_mime 7, 128⟩
      (by decide) (by decide) (by decide) (by decide) (by decide) (by decide) (by decide)
      (by decide) (by decide)⟩

/-! ## The records of `dump_all_articles` -/

/-- The loop of `read_article_at_url` ends within `steps` iterations when
`ceil - floor` is below `steps`: each iteration that does not leave the loop
makes `ceil - floor` smaller. -/
theorem url_search_loop_ends (file : FILE) (header : zim_header_t) (url : List Nat) :
    ∀ (steps floor ceil parses : Nat), ceil - floor < steps →
      (url_search_loop file header url steps floor ceil parses).1 ≠ SearchEnd.out_of_steps := by
  intro steps
  induction steps with
  | zero =>
    intro floor ceil parses h
    exact absurd h (Nat.not_lt_zero _)
  | succ n ih =>
    intro floor ceil parses h
    unfold url_search_loop
    dsimp only
    by_cases hcut : floor = floor + (ceil - floor) / 2
    · rw [if_pos hcut]
      intro hc
      cases hc
    · rw [if_neg hcut]
      cases hs1 : fseek_set file
          ((header.url_ptr_pos + ((floor + (ceil - floor) / 2) * 8) % 2 ^ 64) % 2 ^ 64) with
      | none =>
        dsimp only
        intro hc
        cases hc
      | some f1 =>
        dsimp only
        by_cases hr : (read_int f1 8 0).1 ≠ 0
        · rw [if_pos hr]
          intro hc
          cases hc
        · rw [if_neg hr]
          cases hs2 : fseek_set (read_int f1 8 0).2.2 (read_int f1 8 0).2.1 with
          | none =>
            dsimp only
            intro hc
            cases hc
          | some f2 =>
            dsimp only
            generalize parse_directory_entry f2 zero_entry = pe
            by_cases hp : pe.1 ≠ 0
            · rw [if_pos hp]
              intro hc
              cases hc
            · rw [if_neg hp]
              by_cases hz : strncmp url pe.2.1.url url.length = 0
              · rw [if_pos hz]
                intro hc
                cases hc
              · rw [if_neg hz]
                by_cases hlt : strncmp url pe.2.1.url url.length < 0
                · rw [if_pos hlt]
                  apply ih
                  omega
                · rw [if_neg hlt]
                  apply ih
                  omega

/-- An entry that `parse_directory_entry` accepts: the two bytes of the mime
code were read, and the mime code of the entry is what that read stored. -/
theorem parse_directory_entry_mime_type (file : FILE) (entry : zim_directory_entry_t)
    (h : (parse_directory_entry file entry).1 = 0) :
    (read_int file 2 entry.mime_type).1 = 0
      ∧ (parse_directory_entry file entry).2.1.mime_type
        = (read_int file 2 entry.mime_type).2.1 := by
  revert h
  unfold parse_directory_entry
  dsimp only
  generalize read_int file 2 entry.mime_type = r1
  by_cases h1 : r1.1 ≠ 0
  · rw [if_pos h1]
    intro h
    exact absurd h h1
  · rw [if_neg h1]
    cases hs : fseek_cur r1.2.2 1 with
    | none =>
      intro h
      exact absurd h Nat.one_ne_zero
    | some f2 =>
      dsimp only
      generalize fread f2 1 = r3
      by_cases h3 : r3.1.length ≠ 1
      · rw [if_pos h3]
        intro h
        exact absurd h Nat.one_ne_zero
      · rw [if_neg h3]
        generalize read_int r3.2 4 entry.revision = r4
        by_cases h4 : r4.1 ≠ 0
        · rw [if_pos h4]
          intro h
          exact absurd h h4
        · rw [if_neg h4]
          generalize read_string_loop 1000 = byte_loop
          by_cases hm : r1.2.1 = MIME_TYPE_REDIRECT
          · rw [if_pos hm]
            dsimp only
            generalize read_int r4.2.2 4 entry.redirect_index = a
            by_cases h5 : a.1 ≠ 0
            · rw [if_pos h5]
              intro h
              exact absurd h h5
            · rw [if_neg h5]
              cases hu : byte_loop a.2.2 [] with
              | none =>
                intro h
                exact absurd h Nat.one_ne_zero
              | some u =>
                dsimp only
                cases ht : byte_loop u.2 [] with
                | none =>
                  intro h
                  exact absurd h Nat.one_ne_zero
                | some t =>
                  intro _
                  exact ⟨not_not.mp h1, rfl⟩
          · rw [if_neg hm]
            generalize read_int r4.2.2 4 entry.cluster_number = a
            by_cases h5 : a.1 ≠ 0
            · rw [if_pos h5]
              dsimp only
              rw [if_pos h5]
              intro h
              exact absurd h h5
            · rw [if_neg h5]
              dsimp only
              generalize read_int a.2.2 4 entry.blob_number = b
              by_cases h6 : b.1 ≠ 0
              · rw [if_pos h6]
                intro h
                exact absurd h h6
              · rw [if_neg h6]
                cases hu : byte_loop b.2.2 [] with
                | none =>
                  intro h
                  exact absurd h Nat.one_ne_zero
                | some u =>
                  dsimp only
                  cases ht : byte_loop u.2 [] with
                  | none =>
                    intro h
                    exact absurd h Nat.one_ne_zero
                  | some t =>
                    intro _
                    exact ⟨not_not.mp h1, rfl⟩

theorem fseek_set_some (file f1 : FILE) (offset : Nat) (h : fseek_set file offset = some f1) :
    f1 = ⟨file.data, offset % 2 ^ 64⟩ := by
  unfold fseek_set at h
  by_cases h0 : 0 ≤ to_long offset
  · rw [if_pos h0] at h
    have h1 := (Option.some.inj h).symm
    rw [h1]
    unfold to_long at h0 ⊢
    by_cases hlt : offset % 2 ^ 64 < 2 ^ 63
    · rw [if_pos hlt]
      rfl
    · rw [if_neg hlt] at h0
      omega
  · rw [if_neg h0] at h
    cases h

theorem fseek_set_zero (file : FILE) : fseek_set file 0 = some ⟨file.data, 0⟩ :=
  fseek_set_small file 0 (by decide)

theorem read_int_failed (file : FILE) (len dest : Nat) (h : (read_int file len dest).1 ≠ 0) :
    (read_int file len dest).2.1 = dest ∧ (read_int file len dest).2.2.data = file.data := by
  revert h
  unfold read_int fread
  dsimp only
  by_cases hl : ((file.data.drop file.pos).take len).length ≠ len
  · rw [if_pos hl]
    intro _
    exact ⟨rfl, rfl⟩
  · rw [if_neg hl]
    by_cases h1 : len = 2 ∨ len = 4 ∨ len = 8
    · rw [if_pos h1]
      intro h
      exact absurd rfl h
    · rw [if_neg h1]
      by_cases h2 : len = 16
      · rw [if_pos h2]
        intro h
        exact absurd rfl h
      · rw [if_neg h2]
        intro _
        exact ⟨rfl, rfl⟩

/-- The low two bytes of a file that starts with the magic number do not
hold 0xffff: the magic number minus 0xffff is odd. -/
theorem magic_low_bytes (data : List Nat) (h4 : 4 ≤ data.length)
    (hm : le_int (data.take 4) = ZIM_MAGIC) : le_int (data.take 2) ≠ 0xffff := by
  match data, h4 with
  | a :: b :: c :: d :: rest, _ =>
    simp only [List.take, le_int, ZIM_MAGIC] at hm ⊢
    omega

/-- With one level of recursion granted, `read_article_at_index` returns on
a file that starts with the magic number: it leaves at once when the url
pointer is read; when it is not, `dir_entry` is still 0, the entry parsed at
offset 0 has the low two bytes of the magic number for mime code, which is
not the code of a redirect, so the procedure does not call itself. -/
theorem read_article_at_index_returns (env : Env) (fuel : Nat) (archive : zim_archive_t)
    (i : Nat) (path : String) (data : List Nat) (hpath : archive.path = some path)
    (hfs : env.fs path = some data) (h4 : 4 ≤ data.length)
    (hm : le_int (data.take 4) = ZIM_MAGIC) :
    ∃ r, read_article_at_index env (fuel + 1) archive i = Outcome.ret r := by
  have hopen : fopen env.fs archive.path = some ⟨data, 0⟩ := by
    rw [hpath]
    unfold fopen
    dsimp only
    rw [hfs]
  unfold read_article_at_index
  rw [hopen]
  dsimp only
  cases hs1 : fseek_set ⟨data, 0⟩
      ((archive.header.url_ptr_pos + (i * 8) % 2 ^ 64) % 2 ^ 64) with
  | none => exact ⟨_, rfl⟩
  | some f1 =>
    dsimp only
    by_cases hr : (read_int f1 8 0).1 = 0
    · rw [if_pos hr]
      exact ⟨_, rfl⟩
    · rw [if_neg hr]
      have hf1 : f1.data = data := by
        rw [fseek_set_some _ _ _ hs1]
      obtain ⟨hv, hd⟩ := read_int_failed f1 8 0 hr
      have hs2 : fseek_set (read_int f1 8 0).2.2 (read_int f1 8 0).2.1 = some ⟨data, 0⟩ := by
        rw [hv, fseek_set_zero, hd, hf1]
      rw [hs2]
      dsimp only
      by_cases hp : (parse_directory_entry ⟨data, 0⟩ zero_entry).1 ≠ 0
      · rw [if_pos hp]
        exact ⟨_, rfl⟩
      · rw [if_neg hp]
        obtain ⟨hr2, hmime⟩ := parse_directory_entry_mime_type ⟨data, 0⟩ zero_entry
          (not_not.mp hp)
        have hval := read_int_value ⟨data, 0⟩ 2 zero_entry.mime_type (Or.inl rfl) hr2
        have hnot : ¬ ((parse_directory_entry ⟨data, 0⟩ zero_entry).2.1.mime_type
            = MIME_TYPE_REDIRECT) := by
          rw [hmime, hval]
          have hz : zero_entry.mime_type = 0 := rfl
          rw [hz, store_low_zero]
          exact magic_low_bytes data h4 hm
        rw [if_neg hnot]
        by_cases hdel : (parse_directory_entry ⟨data, 0⟩ zero_entry).2.1.mime_type
            = MIME_TYPE_REDLINK
            ∨ (parse_directory_entry ⟨data, 0⟩ zero_entry).2.1.mime_type = MIME_TYPE_DELETED
        · rw [if_pos hdel]
          exact ⟨_, rfl⟩
        · rw [if_neg hdel]
          exact ⟨_, rfl⟩

/-- With one level of recursion granted, `read_article_at_url` returns on a
file that starts with the magic number. -/
theorem read_article_at_url_returns (env : Env) (fuel : Nat) (archive : zim_archive_t)
    (url : List Nat) (path : String) (data : List Nat) (hpath : archive.path = some path)
    (hfs : env.fs path = some data) (h4 : 4 ≤ data.length)
    (hm : le_int (data.take 4) = ZIM_MAGIC) :
    ∃ r, read_article_at_url env (fuel + 1) archive url = Outcome.ret r := by
  have hopen : fopen env.fs archive.path = some ⟨data, 0⟩ := by
    rw [hpath]
    unfold fopen
    dsimp only
    rw [hfs]
  have hends := url_search_loop_ends ⟨data, 0⟩ archive.header url
    (archive.header.article_count + 1) 0 archive.header.article_count 0 (by omega)
  unfold read_article_at_url
  rw [hopen]
  dsimp only
  generalize (url_search_loop ⟨data, 0⟩ archive.header url (archive.header.article_count + 1)
    0 archive.header.article_count 0).1 = search at hends ⊢
  cases search with
  | out_of_steps => exact absurd rfl hends
  | failed => exact ⟨_, rfl⟩
  | stopped found =>
    cases found with
    | none => exact ⟨_, rfl⟩
    | some entry =>
      dsimp only
      by_cases hred : entry.mime_type = MIME_TYPE_REDIRECT
      · rw [if_pos hred]
        exact read_article_at_index_returns env fuel archive entry.redirect_index path data
          hpath hfs h4 hm
      · rw [if_neg hred]
        by_cases hdel : entry.mime_type = MIME_TYPE_REDLINK
            ∨ entry.mime_type = MIME_TYPE_DELETED
        · rw [if_pos hdel]
          exact ⟨_, rfl⟩
        · rw [if_neg hdel]
          exact ⟨_, rfl⟩

/-- The record of a parsed entry is always printed, with the url and the
title of the entry, on a file that starts with the magic number. -/
theorem article_record_returns (env : Env) (fuel : Nat) (archive : zim_archive_t)
    (show_article_content : Bool) (mime_type_whitelist : List Nat)
    (e : zim_directory_entry_t) (path : String) (data : List Nat)
    (hpath : archive.path = some path) (hfs : env.fs path = some data)
    (h4 : 4 ≤ data.length) (hm : le_int (data.take 4) = ZIM_MAGIC) :
    ∃ r, article_record env (fuel + 1) archive show_article_content mime_type_whitelist e
        = Outcome.ret r ∧ r.url = e.url ∧ r.title = e.title := by
  unfold article_record
  by_cases hlt : e.mime_type < archive.mime_type_list.len
  · rw [if_pos hlt]
    cases hitem : archive.mime_type_list.items[e.mime_type]? with
    | none => exact ⟨_, rfl, rfl, rfl⟩
    | some m =>
      dsimp only
      by_cases hshow : show_article_content = true
      · rw [if_pos hshow]
        by_cases hacc : is_accepted_mimetype m mime_type_whitelist = true
        · rw [if_pos hacc]
          obtain ⟨r, hr⟩ := read_article_at_url_returns env fuel archive e.url path data
            hpath hfs h4 hm
          rw [hr]
          exact ⟨_, rfl, rfl, rfl⟩
        · rw [if_neg hacc]
          exact ⟨_, rfl, rfl, rfl⟩
      · rw [if_neg hshow]
        exact ⟨_, rfl, rfl, rfl⟩
  · rw [if_neg hlt]
    exact ⟨_, rfl, rfl, rfl⟩


/-- The steps behind an entry reached through the `i`-th url pointer. -/
theorem entry_at_index_steps (env : Env) (archive : zim_archive_t) (i : Nat)
    (e : zim_directory_entry_t) (file : FILE)
    (hopen : fopen env.fs archive.path = some file)
    (h : entry_at_index env archive i = some e) :
    ∃ f1 f2, fseek_set file ((archive.header.url_ptr_pos + (i * 8) % 2 ^ 64) % 2 ^ 64)
        = some f1
      ∧ (read_int f1 8 0).1 = 0
      ∧ fseek_set (read_int f1 8 0).2.2 (read_int f1 8 0).2.1 = some f2
      ∧ (parse_directory_entry f2 zero_entry).1 = 0
      ∧ (parse_directory_entry f2 zero_entry).2.1 = e := by
  unfold entry_at_index at h
  rw [hopen] at h
  dsimp only at h
  cases hs1 : fseek_set file ((archive.header.url_ptr_pos + (i * 8) % 2 ^ 64) % 2 ^ 64) with
  | none =>
    rw [hs1] at h
    cases h
  | some f1 =>
    rw [hs1] at h
    dsimp only at h
    by_cases hr : (read_int f1 8 0).1 ≠ 0
    · rw [if_pos hr] at h
      cases h
    · rw [if_neg hr] at h
      cases hs2 : fseek_set (read_int f1 8 0).2.2 (read_int f1 8 0).2.1 with
      | none =>
        rw [hs2] at h
        cases h
      | some f2 =>
        rw [hs2] at h
        dsimp only at h
        by_cases hp : (parse_directory_entry f2 zero_entry).1 ≠ 0
        · rw [if_pos hp] at h
          cases h
        · rw [if_neg hp] at h
          exact ⟨f1, f2, rfl, not_not.mp hr, hs2, not_not.mp hp, Option.some.inj h⟩

/-- Where the entry reached through the `i`-th url pointer lies: the 8 bytes
at `url_ptr_pos + 8 * i` (on 64 bits) are in the file, and the entry is the
one parsed at the offset they hold. -/
theorem entry_at_index_place (env : Env) (archive : zim_archive_t) (i : Nat)
    (e : zim_directory_entry_t) (data : List Nat)
    (hopen : fopen env.fs archive.path = some ⟨data, 0⟩)
    (h : entry_at_index env archive i = some e) :
    (archive.header.url_ptr_pos + 8 * i) % 2 ^ 64 + 8 ≤ data.length
      ∧ (parse_directory_entry
          ⟨data, le_int ((data.drop ((archive.header.url_ptr_pos + 8 * i) % 2 ^ 64)).take 8)
            % 2 ^ 64⟩ zero_entry).1 = 0
      ∧ e = (parse_directory_entry
          ⟨data, le_int ((data.drop ((archive.header.url_ptr_pos + 8 * i) % 2 ^ 64)).take 8)
            % 2 ^ 64⟩ zero_entry).2.1 := by
  obtain ⟨f1, f2, hs1, hr1, hs2, hp, he⟩ := entry_at_index_steps env archive i e _ hopen h
  have hplace : (archive.header.url_ptr_pos + (i * 8) % 2 ^ 64) % 2 ^ 64 % 2 ^ 64
      = (archive.header.url_ptr_pos + 8 * i) % 2 ^ 64 := by
    rw [Nat.mod_mod, Nat.add_mod_mod, Nat.mul_comm]
  have hf1 := fseek_set_some _ _ _ hs1
  rw [hplace] at hf1
  have hf2 := fseek_set_some _ _ _ hs2
  have hval := read_int_value f1 8 0 (Or.inr (Or.inr rfl)) hr1
  obtain ⟨hin, hafter⟩ := read_int_ok_place f1 8 0 hr1
  rw [hval, store_low_zero, hafter] at hf2
  rw [hf1] at hf2 hin
  dsimp only at hf2 hin
  rw [hf2] at hp he
  exact ⟨hin, hp, he.symm⟩

/-- The loop of `dump_all_articles` over indices whose url pointer and entry
are all readable, when every record is printed: one record for each index,
in order, each with the url and title of the entry of its index, and `err`
is 0 at the end. -/
theorem dump_articles_loop_records (env : Env) (fuel : Nat) (archive : zim_archive_t)
    (file : FILE) (show_article_content : Bool) (mime_type_whitelist : List Nat)
    (hopen : fopen env.fs archive.path = some file)
    (hrec : ∀ e, ∃ r,
      article_record env fuel archive show_article_content mime_type_whitelist e
        = Outcome.ret r ∧ r.url = e.url ∧ r.title = e.title) :
    ∀ (remaining i : Nat),
      (∀ k, k < remaining → ∃ e, entry_at_index env archive (i + k) = some e) →
      ∃ records,
        dump_articles_loop env fuel archive file show_article_content mime_type_whitelist
            remaining i 0 = Outcome.ret (0, records)
          ∧ records.length = remaining
          ∧ ∀ k, k < remaining → ∃ e, entry_at_index env archive (i + k) = some e
            ∧ records[k]?.map (fun r => (r.url, r.title)) = some (e.url, e.title) := by
  intro remaining
  induction remaining with
  | zero =>
    intro i _
    refine ⟨[], ?_, rfl, ?_⟩
    · unfold dump_articles_loop
      rfl
    · intro k hk
      exact absurd hk (Nat.not_lt_zero k)
  | succ n ih =>
    intro i hall
    obtain ⟨e, he⟩ := hall 0 (Nat.succ_pos n)
    obtain ⟨f1, f2, hs1, hr1, hs2, hp, hpe⟩ :=
      entry_at_index_steps env archive (i + 0) e file hopen he
    obtain ⟨r, hr, hurl, htitle⟩ := hrec e
    obtain ⟨records, hloop, hlen, hrecords⟩ := ih (i + 1) (fun k hk => by
      have h := hall (k + 1) (Nat.succ_lt_succ hk)
      rw [Nat.add_assoc, Nat.add_comm 1 k]
      exact h)
    refine ⟨r :: records, ?_, ?_, ?_⟩
    · rw [dump_articles_loop_step env fuel archive file show_article_content
        mime_type_whitelist e n i 0 f1 f2 hs1 hr1 hs2 hp hpe, hr]
      dsimp only
      rw [hloop]
      rfl
    · rw [List.length_cons, hlen]
    · intro k hk
      cases k with
      | zero =>
        refine ⟨e, he, ?_⟩
        rw [List.getElem?_cons_zero, Option.map_some', hurl, htitle]
      | succ k =>
        obtain ⟨e2, he2, hk2⟩ := hrecords k (Nat.lt_of_succ_lt_succ hk)
        refine ⟨e2, ?_, ?_⟩
        · rw [Nat.add_assoc, Nat.add_comm 1 k] at he2
          exact he2
        · rw [List.getElem?_cons_succ]
          exact hk2

/-- C19: on a file that `zim_parse` accepts and in which, for every index
below `article_count`, the url pointer and the directory entry it points at
can be read, `dump_all_articles` returns 0 after printing exactly
`article_count` records, and the record of rank `i` carries the url and the
title of the entry reached through the `i`-th url pointer: the 8 bytes at
`url_ptr_pos + 8 * i` are in the file and the entry is the one parsed at the
offset they hold. Whether the contents are asked for, and with which
whitelist, does not matter. -/
theorem dump_all_articles_records (env : Env) (fuel : Nat) (path : String) (data : List Nat)
    (show_article_content : Bool) (mime_type_whitelist : List Nat) (archive : zim_archive_t)
    (hfile : env.fs path = some data)
    (hparse : zim_parse env.fs path new_zim_archive = Outcome.ret (0, archive))
    (hall : ∀ i, i < archive.header.article_count →
      ∃ e, entry_at_index env archive i = some e) :
    ∃ records,
      dump_all_articles env (fuel + 1) path show_article_content mime_type_whitelist
          = Outcome.ret (0, records)
        ∧ records.length = archive.header.article_count
        ∧ ∀ i, i < archive.header.article_count →
          ∃ e, entry_at_index env archive i = some e
            ∧ (archive.header.url_ptr_pos + 8 * i) % 2 ^ 64 + 8 ≤ data.length
            ∧ e = (parse_directory_entry
                ⟨data, le_int ((data.drop ((archive.header.url_ptr_pos + 8 * i) % 2 ^ 64)).take 8)
                  % 2 ^ 64⟩ zero_entry).2.1
            ∧ records[i]?.map (fun r => (r.url, r.title)) = some (e.url, e.title) := by
  obtain ⟨data1, hf1, h4, hmagic, hafter⟩ :=
    zim_parse_ok env.fs path new_zim_archive archive hparse
  have hd : data1 = data := by
    rw [hfile] at hf1
    exact (Option.some.inj hf1).symm
  rw [hd] at h4 hmagic hafter
  obtain ⟨_, hpath, _, _⟩ := zim_parse_after_magic_ok path new_zim_archive archive _ _ hafter
  have hopen : fopen env.fs archive.path = some ⟨data, 0⟩ := by
    rw [hpath]
    unfold fopen
    dsimp only
    rw [hfile]
  obtain ⟨records, hloop, hlen, hrecords⟩ :=
    dump_articles_loop_records env (fuel + 1) archive ⟨data, 0⟩ show_article_content
      mime_type_whitelist hopen
      (fun e => article_record_returns env fuel archive show_article_content
        mime_type_whitelist e path data hpath hfile h4 hmagic)
      archive.header.article_count 0
      (fun k hk => by
        rw [Nat.zero_add]
        exact hall k hk)
  refine ⟨records, ?_, hlen, ?_⟩
  · unfold dump_all_articles
    rw [hparse]
    dsimp only
    rw [if_neg (not_not.mpr rfl), hopen]
    dsimp only
    exact hloop
  · intro i hi
    obtain ⟨e, he, hi2⟩ := hrecords i hi
    rw [Nat.zero_add] at he
    obtain ⟨hin, _, hplace⟩ := entry_at_index_place env archive i e data hopen he
    exact ⟨e, he, hin, hplace, hi2⟩

set_option maxRecDepth 100000 in
/-- C19 on the archive of three entries, with the contents asked for and the
whitelist `text`: three records, those of the entries reached through the
three url pointers, in that order. -/
theorem dump_all_articles_records_witness :
    ∃ records,
      dump_all_articles (one_file_env three_archive) (0 + 1) "a.zim" true
          [116, 101, 120, 116] = Outcome.ret (0, records)
        ∧ records.length = (archive_of three_archive).header.article_count
        ∧ ∀ i, i < (archive_of three_archive).header.article_count →
          ∃ e, entry_at_index (one_file_env three_archive) (archive_of three_archive) i
              = some e
            ∧ ((archive_of three_archive).header.url_ptr_pos + 8 * i) % 2 ^ 64 + 8
              ≤ three_archive.length
            ∧ e = (parse_directory_entry
                ⟨three_archive,
                  le_int ((three_archive.drop
                    (((archive_of three_archive).header.url_ptr_pos + 8 * i) % 2 ^ 64)).take 8)
                  % 2 ^ 64⟩ zero_entry).2.1
            ∧ records[i]?.map (fun r => (r.url, r.title)) = some (e.url, e.title) :=
  dump_all_articles_records (one_file_env three_archive) 0 "a.zim" three_archive true
    [116, 101, 120, 116] (archive_of three_archive) rfl (by decide)
    (fun i hi => by
      have h3 : (archive_of three_archive).header.article_count = 3 := by decide
      rw [h3] at hi
      interval_cases i
      · exact Option.isSome_iff_exists.mp (by decide)
      · exact Option.isSome_iff_exists.mp (by decide)
      · exact Option.isSome_iff_exists.mp (by decide))


/-! ## `read_int` on 16 bytes -/

/-- C30, evaluated on a file of 16 bytes whose bytes 0 and 8 hold 1 and the
others 0: the little-endian integer formed by the 16 bytes is `1 + 2^64`,
`read_int` with length 16 returns 0 and advances the cursor by 16, but the
value stored is 1, the integer of the first 8 bytes; the lengths 2, 4 and 8
store the integer of the bytes read, a short read returns 1 and leaves the
destination, and the length 3 returns 1. -/
theorem read_int_sixteen_stores_eight_bytes :
    le_int [1, 0, 0, 0, 0, 0, 0, 0, 1, 0, 0, 0, 0, 0, 0, 0] = 1 + 2 ^ 64
      ∧ read_int ⟨[1, 0, 0, 0, 0, 0, 0, 0, 1, 0, 0, 0, 0, 0, 0, 0], 0⟩ 16 0
        = (0, 1, ⟨[1, 0, 0, 0, 0, 0, 0, 0, 1, 0, 0, 0, 0, 0, 0, 0], 16⟩)
      ∧ read_int ⟨[1, 2, 3, 4, 5, 6, 7, 8, 9], 1⟩ 2 0
        = (0, le_int [2, 3], ⟨[1, 2, 3, 4, 5, 6, 7, 8, 9], 3⟩)
      ∧ read_int ⟨[1, 2, 3, 4, 5, 6, 7, 8, 9], 1⟩ 4 0
        = (0, le_int [2, 3, 4, 5], ⟨[1, 2, 3, 4, 5, 6, 7, 8, 9], 5⟩)
      ∧ read_int ⟨[1, 2, 3, 4, 5, 6, 7, 8, 9], 1⟩ 8 0
        = (0, le_int [2, 3, 4, 5, 6, 7, 8, 9], ⟨[1, 2, 3, 4, 5, 6, 7, 8, 9], 9⟩)
      ∧ (read_int ⟨[1, 2, 3, 4, 5, 6, 7, 8, 9], 2⟩ 8 77).1 = 1
      ∧ (read_int ⟨[1, 2, 3, 4, 5, 6, 7, 8, 9], 2⟩ 8 77).2.1 = 77
      ∧ (read_int ⟨[1, 2, 3, 4, 5, 6, 7, 8, 9], 0⟩ 3 77).1 = 1 := by
  decide

/-! ## The parameter-length byte of a record -/

/-- C29 as stated fails on a record whose parameter-length byte holds 2: the
claim places the namespace at offset 3 + 2, where the record holds `A` (65),
and the revision at offset 4 + 2, where it holds 1; `parse_directory_entry`
returns the namespace 7, the byte at offset 3, and the revision 82185, the
integer of the four bytes at offset 4, and goes on with the cluster number at
offset 8, the blob number at offset 12 and the url at offset 16. -/
theorem parameter_bytes_are_not_skipped :
    parameter_record[2]? = some 2
      ∧ parameter_record[3 + 2]? = some 65
      ∧ le_int ((parameter_record.drop (4 + 2)).take 4) = 1
      ∧ parameter_record[3]? = some 7
      ∧ le_int ((parameter_record.drop 4).take 4) = 82185
      ∧ parse_directory_entry ⟨parameter_record, 0⟩ zero_entry
        = (0, ⟨0, 7, 82185, 0, 0, 0, [], []⟩, ⟨parameter_record, 18⟩) := by
  decide

/-- C29, amended: `parse_directory_entry` steps over the parameter-length
byte without reading it: whatever the byte `x` at offset 2 holds, the
namespace is the byte at offset 3 and the revision the integer of the four
bytes at offset 4, followed at offset 8 by the redirect index and the url (mime
code 0xffff) or by the cluster number, the blob number at offset 12 and the url
(other mime codes), for a url and a title shorter than 1000 bytes. -/
theorem parse_directory_entry_skips_parameter_length (data : List Nat) (p : Nat)
    (mime rev a b url title rest : List Nat) (x ns : Nat)
    (hmime : mime.length = 2) (hrev : rev.length = 4) (ha : a.length = 4)
    (hb : b.length = 4)
    (hurl0 : ∀ c ∈ url, c ≠ 0) (hurl : url.length < 1000)
    (htitle0 : ∀ c ∈ title, c ≠ 0) (htitle : title.length < 1000) :
    (le_int mime = 0xffff →
        data.drop p = mime ++ [x, ns] ++ rev ++ a ++ url ++ [0] ++ title ++ [0] ++ rest →
        parse_directory_entry ⟨data, p⟩ zero_entry
          = (0, ⟨0xffff, ns, le_int rev, le_int a, 0, 0, url, title⟩,
              ⟨data, p + 12 + url.length + 1 + title.length + 1⟩))
      ∧ (le_int mime ≠ 0xffff →
        data.drop p = mime ++ [x, ns] ++ rev ++ a ++ b ++ url ++ [0] ++ title ++ [0] ++ rest →
        parse_directory_entry ⟨data, p⟩ zero_entry
          = (0, ⟨le_int mime, ns, le_int rev, 0, le_int a, le_int b, url, title⟩,
              ⟨data, p + 16 + url.length + 1 + title.length + 1⟩)) := by
  constructor
  · intro hred hdata
    have hd : data.drop p
        = mime ++ ([x, ns] ++ (rev ++ (a ++ (url ++ 0 :: (title ++ 0 :: rest))))) := by
      rw [hdata]
      simp
    have d12 : data.drop (p + 12) = url ++ 0 :: (title ++ 0 :: rest) := by
      have := drop_after data p (mime ++ ([x, ns] ++ (rev ++ a))) _ (by simpa using hd)
      simpa [hmime, hrev, ha] using this
    have h1 := read_string_loop_terminated url 1000 data (p + 12) [] _ hurl0 hurl d12
    have d2 : data.drop (p + 12 + url.length + 1) = title ++ 0 :: rest := by
      have := drop_after data (p + 12) (url ++ [0]) _ (by simpa using d12)
      simpa [Nat.add_assoc] using this
    have h2 := read_string_loop_terminated title 1000 data (p + 12 + url.length + 1) [] _
      htitle0 htitle d2
    rw [List.nil_append] at h1 h2
    exact parse_directory_entry_redirect_steps data p mime rev a _ x ns url title _ _ hd
      hmime hrev ha hred h1 h2
  · intro hnot hdata
    have hd : data.drop p
        = mime ++ ([x, ns] ++ (rev ++ (a ++ (b ++ (url ++ 0 :: (title ++ 0 :: rest)))))) := by
      rw [hdata]
      simp
    have d16 : data.drop (p + 16) = url ++ 0 :: (title ++ 0 :: rest) := by
      have := drop_after data p (mime ++ ([x, ns] ++ (rev ++ (a ++ b)))) _ (by simpa using hd)
      simpa [hmime, hrev, ha, hb] using this
    have h1 := read_string_loop_terminated url 1000 data (p + 16) [] _ hurl0 hurl d16
    have d2 : data.drop (p + 16 + url.length + 1) = title ++ 0 :: rest := by
      have := drop_after data (p + 16) (url ++ [0]) _ (by simpa using d16)
      simpa [Nat.add_assoc] using this
    have h2 := read_string_loop_terminated title 1000 data (p + 16 + url.length + 1) [] _
      htitle0 htitle d2
    rw [List.nil_append] at h1 h2
    exact parse_directory_entry_content_steps data p mime rev a b _ x ns url title _ _ hd
      hmime hrev ha hb hnot h1 h2

/-- C29, amended, at a record whose byte at offset 2 holds 2 and one where it
holds 0xff: a content record with namespace `A` at offset 3, url `a` and
title `T`, and a redirect record to index 5. -/
theorem parse_directory_entry_skips_parameter_length_witness :
    parse_directory_entry
        ⟨[0xff, 0xff, 0xff, 65, 1, 0, 0, 0, 5, 0, 0, 0, 97, 0, 84, 0], 0⟩ zero_entry
        = (0, ⟨0xffff, 65, 1, 5, 0, 0, [97], [84]⟩,
            ⟨[0xff, 0xff, 0xff, 65, 1, 0, 0, 0, 5, 0, 0, 0, 97, 0, 84, 0], 16⟩)
      ∧ parse_directory_entry
        ⟨[0, 0, 2, 65, 1, 0, 0, 0, 3, 0, 0, 0, 4, 0, 0, 0, 97, 0, 84, 0], 0⟩ zero_entry
        = (0, ⟨0, 65, 1, 0, 3, 4, [97], [84]⟩,
            ⟨[0, 0, 2, 65, 1, 0, 0, 0, 3, 0, 0, 0, 4, 0, 0, 0, 97, 0, 84, 0], 20⟩) :=
  ⟨(parse_directory_entry_skips_parameter_length
      [0xff, 0xff, 0xff, 65, 1, 0, 0, 0, 5, 0, 0, 0, 97, 0, 84, 0] 0 [0xff, 0xff]
      [1, 0, 0, 0] [5, 0, 0, 0] [0, 0, 0, 0] [97] [84] [] 0xff 65 rfl rfl rfl rfl
      (by decide) (by decide) (by decide) (by decide)).1 (by decide) (by decide),
   (parse_directory_entry_skips_parameter_length
      [0, 0, 2, 65, 1, 0, 0, 0, 3, 0, 0, 0, 4, 0, 0, 0, 97, 0, 84, 0] 0 [0, 0]
      [1, 0, 0, 0] [3, 0, 0, 0] [4, 0, 0, 0] [97] [84] [] 2 65 rfl rfl rfl rfl
      (by decide) (by decide) (by decide) (by decide)).2 (by decide) (by decide)⟩

/-! ## The value returned by the XZ reader -/

/-- C26, evaluated on four decoder runs with `BUFSIZ` 8192: when the five
bytes asked for at offset 12 are captured ("all is read") the value returned
is 1; when the decoder reports an error at its first call, and when the
stream ends after 3 bytes while 10 are asked for, the value is 0; when the
decoder cannot be initialised it is 1. The caller takes the 0 of the two
errors for a success: with the decoder in error at its first call it hands
back its buffer, an empty string, not `Error reading article.`. -/
theorem xz_reader_returns_one_on_success :
    read_from_xz_compressed_cluster 8192 ⟨true, [], two_blobs, true⟩ 12 5 = (1, alpha)
      ∧ read_from_xz_compressed_cluster 8192 ⟨true, [], [], false⟩ 12 5 = (0, [])
      ∧ read_from_xz_compressed_cluster 8192 ⟨true, [], [1, 2, 3], true⟩ 0 10 = (0, [1, 2, 3])
      ∧ read_from_xz_compressed_cluster 8192 ⟨false, [], [], false⟩ 12 5 = (1, [])
      ∧ read_article_from_xz_compressed_cluster (fun _ => ⟨true, [], [], false⟩) 8192
          (hello_entry 0) ⟨hello_archive 4, 137⟩ 4 = Content.str [] := by
  decide


/-! ## The number of entries parsed by the url search -/

/-- The number of calls of `parse_directory_entry` counted by
`url_search_loop` is the number of indices listed by `url_search_cuts`. -/
theorem url_search_loop_count (file : FILE) (header : zim_header_t) (url : List Nat) :
    ∀ (steps floor ceil parses : Nat),
      (url_search_loop file header url steps floor ceil parses).2
        = parses + (url_search_cuts file header url steps floor ceil).length := by
  intro steps
  induction steps with
  | zero =>
    intro floor ceil parses
    unfold url_search_loop url_search_cuts
    rfl
  | succ n ih =>
    intro floor ceil parses
    unfold url_search_loop url_search_cuts
    dsimp only
    by_cases hcut : floor = floor + (ceil - floor) / 2
    · rw [if_pos hcut, if_pos hcut]
      rfl
    · rw [if_neg hcut, if_neg hcut]
      cases hs1 : fseek_set file
          ((header.url_ptr_pos + ((floor + (ceil - floor) / 2) * 8) % 2 ^ 64) % 2 ^ 64) with
      | none => rfl
      | some f1 =>
        dsimp only
        by_cases hr : (read_int f1 8 0).1 ≠ 0
        · rw [if_pos hr, if_pos hr]
          rfl
        · rw [if_neg hr, if_neg hr]
          cases hs2 : fseek_set (read_int f1 8 0).2.2 (read_int f1 8 0).2.1 with
          | none => rfl
          | some f2 =>
            dsimp only
            generalize parse_directory_entry f2 zero_entry = pe
            by_cases hp : pe.1 ≠ 0
            · rw [if_pos hp, if_pos hp]
              rfl
            · rw [if_neg hp, if_neg hp]
              by_cases hz : strncmp url pe.2.1.url url.length = 0
              · rw [if_pos hz, if_pos hz]
                rfl
              · rw [if_neg hz, if_neg hz]
                by_cases hlt : strncmp url pe.2.1.url url.length < 0
                · rw [if_pos hlt, if_pos hlt, ih, List.length_cons]
                  omega
                · rw [if_neg hlt, if_neg hlt, ih, List.length_cons]
                  omega

/-- Every index at which the search calls `parse_directory_entry` lies
strictly between `floor` and `ceil`. -/
theorem url_search_cuts_between (file : FILE) (header : zim_header_t) (url : List Nat) :
    ∀ (steps floor ceil : Nat), ∀ c ∈ url_search_cuts file header url steps floor ceil,
      floor < c ∧ c < ceil := by
  intro steps
  induction steps with
  | zero =>
    intro floor ceil c hc
    unfold url_search_cuts at hc
    cases hc
  | succ n ih =>
    intro floor ceil c
    unfold url_search_cuts
    dsimp only
    by_cases hcut : floor = floor + (ceil - floor) / 2
    · rw [if_pos hcut]
      intro hc
      cases hc
    · rw [if_neg hcut]
      have hin : floor < floor + (ceil - floor) / 2 ∧ floor + (ceil - floor) / 2 < ceil := by
        omega
      cases hs1 : fseek_set file
          ((header.url_ptr_pos + ((floor + (ceil - floor) / 2) * 8) % 2 ^ 64) % 2 ^ 64) with
      | none =>
        intro hc
        cases hc
      | some f1 =>
        dsimp only
        by_cases hr : (read_int f1 8 0).1 ≠ 0
        · rw [if_pos hr]
          intro hc
          cases hc
        · rw [if_neg hr]
          cases hs2 : fseek_set (read_int f1 8 0).2.2 (read_int f1 8 0).2.1 with
          | none =>
            intro hc
            cases hc
          | some f2 =>
            dsimp only
            generalize parse_directory_entry f2 zero_entry = pe
            by_cases hp : pe.1 ≠ 0
            · rw [if_pos hp]
              intro hc
              rw [List.mem_singleton] at hc
              rw [hc]
              exact hin
            · rw [if_neg hp]
              by_cases hz : strncmp url pe.2.1.url url.length = 0
              · rw [if_pos hz]
                intro hc
                rw [List.mem_singleton] at hc
                rw [hc]
                exact hin
              · rw [if_neg hz]
                by_cases hlt : strncmp url pe.2.1.url url.length < 0
                · rw [if_pos hlt]
                  intro hc
                  rcases List.mem_cons.mp hc with h | h
                  · rw [h]
                    exact hin
                  · have := ih floor _ c h
                    omega
                · rw [if_neg hlt]
                  intro hc
                  rcases List.mem_cons.mp hc with h | h
                  · rw [h]
                    exact hin
                  · have := ih _ ceil c h
                    omega

/-- The search parses at most `⌈log2 (ceil - floor)⌉` entries: each entry
parsed without leaving the loop replaces `ceil - floor` by one of its two
halves. -/
theorem url_search_cuts_length (file : FILE) (header : zim_header_t) (url : List Nat) :
    ∀ (steps floor ceil : Nat),
      (url_search_cuts file header url steps floor ceil).length
        ≤ Nat.clog 2 (ceil - floor) := by
  intro steps
  induction steps with
  | zero =>
    intro floor ceil
    unfold url_search_cuts
    exact Nat.zero_le _
  | succ n ih =>
    intro floor ceil
    unfold url_search_cuts
    dsimp only
    by_cases hcut : floor = floor + (ceil - floor) / 2
    · rw [if_pos hcut]
      exact Nat.zero_le _
    · rw [if_neg hcut]
      have hn2 : 2 ≤ ceil - floor := by omega
      have hclog : Nat.clog 2 (ceil - floor)
          = Nat.clog 2 ((ceil - floor + 2 - 1) / 2) + 1 :=
        Nat.clog_of_two_le (by decide) hn2
      have hlow : Nat.clog 2 (floor + (ceil - floor) / 2 - floor)
          ≤ Nat.clog 2 ((ceil - floor + 2 - 1) / 2) :=
        Nat.clog_mono_right 2 (by omega)
      have hhigh : Nat.clog 2 (ceil - (floor + (ceil - floor) / 2))
          ≤ Nat.clog 2 ((ceil - floor + 2 - 1) / 2) :=
        Nat.clog_mono_right 2 (by omega)
      have hone : 1 ≤ Nat.clog 2 (ceil - floor) := by omega
      cases hs1 : fseek_set file
          ((header.url_ptr_pos + ((floor + (ceil - floor) / 2) * 8) % 2 ^ 64) % 2 ^ 64) with
      | none => exact Nat.zero_le _
      | some f1 =>
        dsimp only
        by_cases hr : (read_int f1 8 0).1 ≠ 0
        · rw [if_pos hr]
          exact Nat.zero_le _
        · rw [if_neg hr]
          cases hs2 : fseek_set (read_int f1 8 0).2.2 (read_int f1 8 0).2.1 with
          | none => exact Nat.zero_le _
          | some f2 =>
            dsimp only
            generalize parse_directory_entry f2 zero_entry = pe
            by_cases hp : pe.1 ≠ 0
            · rw [if_pos hp]
              exact hone
            · rw [if_neg hp]
              by_cases hz : strncmp url pe.2.1.url url.length = 0
              · rw [if_pos hz]
                exact hone
              · rw [if_neg hz]
                by_cases hlt : strncmp url pe.2.1.url url.length < 0
                · rw [if_pos hlt, List.length_cons]
                  have := ih floor (floor + (ceil - floor) / 2)
                  omega
                · rw [if_neg hlt, List.length_cons]
                  have := ih (floor + (ceil - floor) / 2) ceil
                  omega

/-- C21: for every file, header and url, the loop of `read_article_at_url`,
run from `floor = 0` and `ceil = article_count`, ends within the
`article_count + 1` iterations granted to it, and the number of its calls of
`parse_directory_entry` is at most `⌈log2 article_count⌉`, hence at most
`⌈log2 article_count⌉ + 1` (none for `article_count` 0 or 1); nothing is
assumed of the entries, sorted or not, readable or not. With one level of
recursion granted for redirects, `read_article_at_url` returns on every
archive whose file starts with the magic number. -/
theorem url_search_parse_bound (file : FILE) (archive : zim_archive_t) (url : List Nat) :
    (url_search_loop file archive.header url (archive.header.article_count + 1) 0
        archive.header.article_count 0).1 ≠ SearchEnd.out_of_steps
      ∧ (url_search_loop file archive.header url (archive.header.article_count + 1) 0
        archive.header.article_count 0).2
        = (url_search_cuts file archive.header url (archive.header.article_count + 1) 0
          archive.header.article_count).length
      ∧ (url_search_loop file archive.header url (archive.header.article_count + 1) 0
        archive.header.article_count 0).2 ≤ Nat.clog 2 archive.header.article_count
      ∧ (url_search_loop file archive.header url (archive.header.article_count + 1) 0
        archive.header.article_count 0).2 ≤ Nat.clog 2 archive.header.article_count + 1
      ∧ (archive.header.article_count ≤ 1 →
        url_search_loop file archive.header url (archive.header.article_count + 1) 0
          archive.header.article_count 0 = (SearchEnd.stopped none, 0))
      ∧ (∀ (env : Env) (fuel : Nat) (path : String) (data : List Nat),
        archive.path = some path → env.fs path = some data → 4 ≤ data.length →
        le_int (data.take 4) = ZIM_MAGIC →
        ∃ r, read_article_at_url env (fuel + 1) archive url = Outcome.ret r) := by
  have hcount := url_search_loop_count file archive.header url
    (archive.header.article_count + 1) 0 archive.header.article_count 0
  have hlen := url_search_cuts_length file archive.header url
    (archive.header.article_count + 1) 0 archive.header.article_count
  rw [Nat.zero_add] at hcount
  rw [Nat.sub_zero] at hlen
  refine ⟨?_, hcount, ?_, ?_, ?_, ?_⟩
  · exact url_search_loop_ends file archive.header url _ 0 _ 0 (by omega)
  · rw [hcount]
    exact hlen
  · rw [hcount]
    exact Nat.le_succ_of_le hlen
  · intro h1
    unfold url_search_loop
    dsimp only
    rw [if_pos (by omega)]
  · intro env fuel path data hpath hfs h4 hm
    exact read_article_at_url_returns env fuel archive url path data hpath hfs h4 hm

set_option maxRecDepth 100000 in
/-- C21 at concrete inputs: on the single-article archive the loop leaves
without parsing any entry and `read_article_at_url` returns; on the archive
of four entries the search for `b` parses at most `⌈log2 4⌉` entries. -/
theorem url_search_parse_bound_witness :
    url_search_loop ⟨hello_archive 1, 0⟩ (archive_of (hello_archive 1)).header hello
        ((archive_of (hello_archive 1)).header.article_count + 1) 0
        (archive_of (hello_archive 1)).header.article_count 0 = (SearchEnd.stopped none, 0)
      ∧ (∃ r, read_article_at_url (one_file_env (hello_archive 1)) (0 + 1)
          (archive_of (hello_archive 1)) hello = Outcome.ret r)
      ∧ (url_search_loop ⟨prefix_archive, 0⟩ (archive_of prefix_archive).header [98]
          ((archive_of prefix_archive).header.article_count + 1) 0
          (archive_of prefix_archive).header.article_count 0).2
        ≤ Nat.clog 2 (archive_of prefix_archive).header.article_count :=
  ⟨(url_search_parse_bound ⟨hello_archive 1, 0⟩ (archive_of (hello_archive 1))
      hello).2.2.2.2.1 (by decide),
   (url_search_parse_bound ⟨hello_archive 1, 0⟩ (archive_of (hello_archive 1))
      hello).2.2.2.2.2 (one_file_env (hello_archive 1)) 0 "a.zim" (hello_archive 1)
      (by decide) rfl (by decide) (by decide),
   (url_search_parse_bound ⟨prefix_archive, 0⟩ (archive_of prefix_archive) [98]).2.2.1⟩


/-! ## The whitelist of mime types -/

/-- Comparing `m` with a string `a` without NUL byte over the length of `a`
gives 0 exactly when `a` is a prefix of `m`. -/
theorem strncmp_zero_of_token (a : List Nat) :
    ∀ (m : List Nat), (∀ b ∈ a, b ≠ 0) → (strncmp m a a.length = 0 ↔ a <+: m) := by
  induction a with
  | nil =>
    intro m _
    constructor
    · intro _
      exact List.nil_prefix
    · intro _
      cases m <;> rfl
  | cons y ys ih =>
    intro m h0
    have hy : y ≠ 0 := h0 y (List.mem_cons_self y ys)
    have hys : ∀ b ∈ ys, b ≠ 0 := fun b hb => h0 b (List.mem_cons_of_mem y hb)
    cases m with
    | nil =>
      constructor
      · intro h
        have h1 : (0 : Int) - (y : Int) = 0 := h
        omega
      · intro h
        exact absurd (List.prefix_nil.mp h) (List.cons_ne_nil y ys)
    | cons x xs =>
      have hstep : strncmp (x :: xs) (y :: ys) (y :: ys).length
          = if x = y then strncmp xs ys ys.length else (x : Int) - (y : Int) := rfl
      rw [hstep, List.cons_prefix_cons]
      by_cases hxy : x = y
      · rw [if_pos hxy, ih xs hys]
        exact ⟨fun h => ⟨hxy.symm, h⟩, fun h => h.2⟩
      · rw [if_neg hxy]
        constructor
        · intro h
          omega
        · intro h
          exact absurd h.1.symm hxy

/-- The tokens `strtok` yields are the non-empty elements of the list split
at its commas; `cur` is the element being read. -/
theorem strtok_commas_eq_splitOn (w : List Nat) :
    ∀ (acc : List Nat), strtok_commas w acc.reverse
      = (List.splitOnP.go (fun c => c == 44) w acc).filter (fun a => !a.isEmpty) := by
  induction w with
  | nil =>
    intro acc
    unfold strtok_commas List.splitOnP.go
    cases h : acc.reverse with
    | nil => rfl
    | cons c cs => rfl
  | cons c rest ih =>
    intro acc
    unfold strtok_commas List.splitOnP.go
    by_cases hc : c = 44
    · have hP : (c == 44) = true := by
        rw [hc]
        rfl
      rw [if_pos hc, if_pos hP]
      have hrest := ih []
      rw [List.reverse_nil] at hrest
      cases h : acc.reverse with
      | nil =>
        rw [if_pos rfl, hrest]
        rfl
      | cons d ds =>
        rw [if_neg (List.cons_ne_nil d ds), hrest]
        rfl
    · have hP : ¬ ((c == 44) = true) := by
        intro h
        exact hc (beq_iff_eq.mp h)
      rw [if_neg hc, if_neg hP, ← ih (c :: acc), List.reverse_cons]

/-- The bytes of a token are bytes of the whitelist (or of the element being
read). -/
theorem strtok_commas_mem (w : List Nat) :
    ∀ (cur : List Nat), ∀ a ∈ strtok_commas w cur, ∀ b ∈ a, b ∈ cur ∨ b ∈ w := by
  induction w with
  | nil =>
    intro cur a ha b hb
    unfold strtok_commas at ha
    by_cases hcur : cur = []
    · rw [if_pos hcur] at ha
      cases ha
    · rw [if_neg hcur, List.mem_singleton] at ha
      rw [ha] at hb
      exact Or.inl hb
  | cons c rest ih =>
    intro cur a ha b hb
    unfold strtok_commas at ha
    by_cases hc : c = 44
    · rw [if_pos hc] at ha
      by_cases hcur : cur = []
      · rw [if_pos hcur] at ha
        rcases ih [] a ha b hb with h | h
        · cases h
        · exact Or.inr (List.mem_cons_of_mem c h)
      · rw [if_neg hcur] at ha
        rcases List.mem_cons.mp ha with h | h
        · rw [h] at hb
          exact Or.inl hb
        · rcases ih [] a h b hb with h2 | h2
          · cases h2
          · exact Or.inr (List.mem_cons_of_mem c h2)
    · rw [if_neg hc] at ha
      rcases ih (cur ++ [c]) a ha b hb with h | h
      · rcases List.mem_append.mp h with h2 | h2
        · exact Or.inl h2
        · rw [List.mem_singleton] at h2
          rw [h2]
          exact Or.inr (List.mem_cons_self c rest)
      · exact Or.inr (List.mem_cons_of_mem c h)

/-- C22: for every mime type `m` and every whitelist `w` (a C string, hence
without NUL byte), `is_accepted_mimetype` returns true exactly when some
element of `w` split at its commas (byte 44) is a prefix of `m`, the empty
elements, which `strtok` does not yield, being left out. -/
theorem is_accepted_mimetype_iff_element (m w : List Nat) (hw : ∀ b ∈ w, b ≠ 0) :
    is_accepted_mimetype m w = true ↔ ∃ a ∈ List.splitOn 44 w, a ≠ [] ∧ a <+: m := by
  have htok : strtok_commas w [] = (List.splitOn 44 w).filter (fun a => !a.isEmpty) := by
    have h := strtok_commas_eq_splitOn w []
    rw [List.reverse_nil] at h
    exact h
  have hnul : ∀ a ∈ strtok_commas w [], ∀ b ∈ a, b ≠ 0 := by
    intro a ha b hb
    rcases strtok_commas_mem w [] a ha b hb with h | h
    · cases h
    · exact hw b h
  unfold is_accepted_mimetype
  rw [List.any_eq_true]
  constructor
  · rintro ⟨a, ha, hcmp⟩
    have hpre := (strncmp_zero_of_token a m (hnul a ha)).mp (beq_iff_eq.mp hcmp)
    rw [htok, List.mem_filter] at ha
    refine ⟨a, ha.1, ?_, hpre⟩
    intro hempty
    rw [hempty] at ha
    exact absurd ha.2 (by decide)
  · rintro ⟨a, ha, hne, hpre⟩
    have hmem : a ∈ strtok_commas w [] := by
      rw [htok, List.mem_filter]
      refine ⟨ha, ?_⟩
      cases a with
      | nil => exact absurd rfl hne
      | cons c cs => rfl
    exact ⟨a, hmem, beq_iff_eq.mpr ((strncmp_zero_of_token a m (hnul a hmem)).mpr hpre)⟩

/-- C22 at concrete inputs: `text/plain;charset=UTF-8` is accepted by the
whitelist `text/html,text/plain`, whose element `text/plain` is a prefix of
it. -/
theorem is_accepted_mimetype_iff_element_witness :
    is_accepted_mimetype text_plain_utf8 html_or_plain = true :=
  (is_accepted_mimetype_iff_element text_plain_utf8 html_or_plain (by decide)).mpr
    ⟨[116, 101, 120, 116, 47, 112, 108, 97, 105, 110], by decide, by decide, by decide⟩


/-! ## Redirect chains -/

set_option maxRecDepth 100000 in
/-- C23, evaluated on the archive of five entries `a` (content), `b`
(redirect to `a`), `c` and `d` (redirects to each other) and `e` (redirect to
itself), with one level of recursion granted: every read returns, those of
the cycles included, but the chain of one redirect from `b` to the content
entry `a`, whose blob `retrieve_directory_entry_content` reads, returns
`NULL` as well, without any cluster being consulted; so does
`read_article_at_index` at every index, the one of the content entry
included. -/
theorem redirect_chain_of_one_reads_null :
    zim_parse (one_file_env redirect_archive).fs "a.zim" new_zim_archive
        = Outcome.ret (0, archive_of redirect_archive)
      ∧ (List.range 5).map (fun i =>
          (entry_at_index (one_file_env redirect_archive) (archive_of redirect_archive) i).map
            (fun e => (e.url, e.mime_type, e.redirect_index)))
        = [some ([97], 0, 0), some ([98], 0xffff, 0), some ([99], 0xffff, 3),
           some ([100], 0xffff, 2), some ([101], 0xffff, 4)]
      ∧ (entry_at_index (one_file_env redirect_archive) (archive_of redirect_archive) 0).map
          (fun e => retrieve_directory_entry_content (one_file_env redirect_archive)
            (archive_of redirect_archive) e)
        = some (Content.str [119, 111, 114, 108])
      ∧ read_article_at_url (one_file_env redirect_archive) 1 (archive_of redirect_archive) [98]
        = Outcome.ret ⟨Content.null, 0⟩
      ∧ read_article_at_url (one_file_env redirect_archive) 1 (archive_of redirect_archive) [99]
        = Outcome.ret ⟨Content.null, 0⟩
      ∧ read_article_at_url (one_file_env redirect_archive) 1 (archive_of redirect_archive)
          [100] = Outcome.ret ⟨Content.null, 0⟩
      ∧ read_article_at_url (one_file_env redirect_archive) 1 (archive_of redirect_archive)
          [101] = Outcome.ret ⟨Content.null, 0⟩
      ∧ (List.range 5).map (fun i =>
          read_article_at_index (one_file_env redirect_archive) 1
            (archive_of redirect_archive) i)
        = List.replicate 5 (Outcome.ret ⟨Content.null, 0⟩) := by
  decide


/-! ## The content printed by `dump_all_articles` -/

set_option maxRecDepth 100000 in
/-- C25, evaluated with the contents asked for and the whitelist `text`. On
the single-article archive, the record of entry 0 carries no content
(`read_article_at_url` returns `NULL`) although the blob of the entry is
read by `retrieve_directory_entry_content`. On the archive of the four
content entries `a`, `b`, `bc` and `d` with the blobs `one`, `two`, `three`
and `four`, the record of `a` carries no content and the record of `b`, at
index 1, carries what is read of the blob `three` of the entry `bc`, not of
its own blob `two`: the search for `b` stops on `bc`, of which `b` is a
prefix. -/
theorem dump_content_is_not_the_entry_blob :
    dump_all_articles (one_file_env (hello_archive 1)) 1 "a.zim" true [116, 101, 120, 116]
        = Outcome.ret (0,
            [⟨hello, [84], some [116, 101, 120, 116, 47, 112, 108, 97, 105, 110],
              ContentLines.article Content.null⟩])
      ∧ (entry_at_index (one_file_env (hello_archive 1)) (archive_of (hello_archive 1)) 0).map
          (fun e => retrieve_directory_entry_content (one_file_env (hello_archive 1))
            (archive_of (hello_archive 1)) e)
        = some (Content.str [119, 111, 114, 108])
      ∧ (List.range 4).map (fun i =>
          (entry_at_index (one_file_env prefix_archive) (archive_of prefix_archive) i).map
            (fun e => (e.url, e.cluster_number, e.blob_number,
              retrieve_directory_entry_content (one_file_env prefix_archive)
                (archive_of prefix_archive) e)))
        = [some ([97], 0, 0, Content.str [111, 110]),
           some ([98], 0, 1, Content.str [116, 119]),
           some ([98, 99], 0, 2, Content.str [116, 104, 114, 101]),
           some ([100], 0, 3, Content.str [102, 111, 117])]
      ∧ dump_all_articles (one_file_env prefix_archive) 1 "a.zim" true [116, 101, 120, 116]
        = Outcome.ret (0,
            [⟨[97], [84], some [116, 101, 120, 116, 47, 112, 108, 97, 105, 110],
              ContentLines.article Content.null⟩,
             ⟨[98], [84], some [116, 101, 120, 116, 47, 112, 108, 97, 105, 110],
              ContentLines.article (Content.str [116, 104, 114, 101])⟩,
             ⟨[98, 99], [84], some [116, 101, 120, 116, 47, 112, 108, 97, 105, 110],
              ContentLines.article (Content.str [116, 104, 114, 101])⟩,
             ⟨[100], [84], some [116, 101, 120, 116, 47, 112, 108, 97, 105, 110],
              ContentLines.article (Content.str [102, 111, 117])⟩]) := by
  decide


/-! ## Skipping and capturing in the XZ reader -/

/-- The output block on a buffer that holds the end of the bytes asked for:
the bytes are copied and the procedure returns `true`. -/
theorem xz_output_block_done (BUFSIZ start len rc bp : Nat) (captured out : List Nat)
    (hcap : captured.length = bp) (hbp : bp ≤ len)
    (hin : (start - rc) + (len - bp) ≤ out.length) :
    xz_output_block BUFSIZ start len rc bp captured out
      = (true, rc, len, captured ++ (out.drop (start - rc)).take (len - bp)) := by
  unfold xz_output_block
  have h1 : ¬ (rc < start ∧ ¬ (rc + out.length ≥ start)) := by omega
  rw [if_neg h1]
  dsimp only
  have hoff : (if rc < start then start - rc else 0) = start - rc := by
    by_cases h : rc < start
    · rw [if_pos h]
    · rw [if_neg h]
      omega
  rw [hoff]
  have h2 : bp + (out.length - (start - rc)) ≥ len := by omega
  rw [if_pos h2]
  have h3 : bp + (len - bp) ≥ len := by omega
  rw [if_pos h3, ← hcap, List.take_length]
  have h4 : captured.length + (len - captured.length) = len := by omega
  rw [h4]

/-- The output block on a buffer that ends before the first byte asked for:
nothing is copied. -/
theorem xz_output_block_skip (BUFSIZ start len rc bp : Nat) (captured out : List Nat)
    (hskip : out.length < start - rc) :
    xz_output_block BUFSIZ start len rc bp captured out
      = (false, rc + BUFSIZ, bp, captured) := by
  unfold xz_output_block
  have h1 : rc < start ∧ ¬ (rc + out.length ≥ start) := by omega
  rw [if_pos h1]

/-- The output block on a buffer that holds bytes asked for but not the last
one: the bytes from the first one asked for to the end of the buffer are
copied, and the loop goes on. -/
theorem xz_output_block_part (BUFSIZ start len rc bp : Nat) (captured out : List Nat)
    (hcap : captured.length = bp)
    (hin : start - rc ≤ out.length) (hmore : out.length < (start - rc) + (len - bp)) :
    xz_output_block BUFSIZ start len rc bp captured out
      = (false, rc + BUFSIZ, bp + (out.length - (start - rc)),
          captured ++ out.drop (start - rc)) := by
  unfold xz_output_block
  have h1 : ¬ (rc < start ∧ ¬ (rc + out.length ≥ start)) := by omega
  rw [if_neg h1]
  dsimp only
  have hoff : (if rc < start then start - rc else 0) = start - rc := by
    by_cases h : rc < start
    · rw [if_pos h]
    · rw [if_neg h]
      omega
  rw [hoff]
  have h2 : ¬ (bp + (out.length - (start - rc)) ≥ len) := by omega
  rw [if_neg h2, if_neg h2, ← hcap, List.take_length]
  have h3 : (out.drop (start - rc)).take (out.length - (start - rc)) = out.drop (start - rc) :=
    List.take_of_length_le (by rw [List.length_drop])
  rw [h3]

/-- The loop of `read_from_xz_compressed_cluster` over output buffers of
`BUFSIZ` bytes followed by the buffer of the end of the stream, when the bytes
still to skip and to capture all lie in the decoded bytes still to come: the
loop returns `true` with the bytes asked for behind those already captured. -/
theorem xz_decode_loop_captures (BUFSIZ start len : Nat) (last : List Nat)
    (full : List (List Nat)) :
    ∀ (rc bp : Nat) (captured : List Nat), captured.length = bp → bp ≤ len →
      (∀ c ∈ full, c.length = BUFSIZ) →
      (start - rc) + (len - bp) ≤ (full.flatten ++ last).length →
      xz_decode_loop BUFSIZ start len full last true rc bp captured
        = (1, captured ++ ((full.flatten ++ last).drop (start - rc)).take (len - bp)) := by
  induction full with
  | nil =>
    intro rc bp captured hcap hbp _ hin
    rw [List.flatten_nil, List.nil_append] at hin ⊢
    unfold xz_decode_loop
    rw [if_pos (Or.inr rfl), xz_output_block_done BUFSIZ start len rc bp captured last hcap hbp hin]
    rfl
  | cons c rest ih =>
    intro rc bp captured hcap hbp hfull hin
    have hc : c.length = BUFSIZ := hfull c (List.mem_cons_self c rest)
    have hrest : ∀ d ∈ rest, d.length = BUFSIZ :=
      fun d hd => hfull d (List.mem_cons_of_mem c hd)
    rw [List.flatten_cons, List.append_assoc] at hin ⊢
    rw [List.length_append] at hin
    unfold xz_decode_loop
    by_cases hdone : (start - rc) + (len - bp) ≤ c.length
    · rw [xz_output_block_done BUFSIZ start len rc bp captured c hcap hbp hdone]
      dsimp only
      rw [if_pos rfl, List.drop_append_eq_append_drop, List.take_append_eq_append_take]
      have hz : len - bp - (c.drop (start - rc)).length = 0 := by
        rw [List.length_drop]
        omega
      rw [hz, List.take_zero, List.append_nil]
    · by_cases hskip : c.length < start - rc
      · rw [xz_output_block_skip BUFSIZ start len rc bp captured c hskip]
        dsimp only
        have hs : start - (rc + BUFSIZ) = start - rc - c.length := by omega
        have hR : (c ++ (rest.flatten ++ last)).drop (start - rc)
            = (rest.flatten ++ last).drop (start - (rc + BUFSIZ)) := by
          rw [List.drop_append_eq_append_drop, List.drop_eq_nil_of_le (Nat.le_of_lt hskip),
            List.nil_append, hs]
        rw [if_neg (by decide), ih (rc + BUFSIZ) bp captured hcap hbp hrest (by omega), hR]
      · rw [xz_output_block_part BUFSIZ start len rc bp captured c hcap (by omega) (by omega)]
        dsimp only
        have hcap2 : (captured ++ c.drop (start - rc)).length
            = bp + (c.length - (start - rc)) := by
          rw [List.length_append, List.length_drop, hcap]
        have hs : start - (rc + BUFSIZ) = 0 := by omega
        have hs2 : start - rc - c.length = 0 := by omega
        have hl : len - (bp + (c.length - (start - rc)))
            = len - bp - (c.length - (start - rc)) := by
          omega
        have ht : (c.drop (start - rc)).take (len - bp) = c.drop (start - rc) :=
          List.take_of_length_le (by rw [List.length_drop]; omega)
        have hR : ((c ++ (rest.flatten ++ last)).drop (start - rc)).take (len - bp)
            = c.drop (start - rc)
              ++ ((rest.flatten ++ last).drop (start - (rc + BUFSIZ))).take
                (len - (bp + (c.length - (start - rc)))) := by
          rw [List.drop_append_eq_append_drop, List.take_append_eq_append_take, ht,
            List.length_drop, hs2, hs, hl]
        rw [if_neg (by decide), ih (rc + BUFSIZ) _ _ hcap2 (by omega) hrest (by omega), hR,
          List.append_assoc]

/-- C27: when the decoder is initialised and hands the decoded stream `D`
over in output buffers of `BUFSIZ` bytes, `full`, followed by the buffer it
holds when the stream ends, `last` (of any length), then for every `start` and
`len` with `start + len ≤ |D|` the procedure returns `true`, its "all is
read" exit, having copied to `buf` exactly the `len` bytes
`D[start .. start + len)`, wherever `start` and `start + len` fall in the
buffers. -/
theorem xz_skip_then_capture (BUFSIZ : Nat) (full : List (List Nat)) (last : List Nat)
    (start len : Nat) (hfull : ∀ c ∈ full, c.length = BUFSIZ)
    (hin : start + len ≤ (full.flatten ++ last).length) :
    read_from_xz_compressed_cluster BUFSIZ ⟨true, full, last, true⟩ start len
        = (1, ((full.flatten ++ last).drop start).take len)
      ∧ (read_from_xz_compressed_cluster BUFSIZ ⟨true, full, last, true⟩ start len).2.length
        = len := by
  have h : read_from_xz_compressed_cluster BUFSIZ ⟨true, full, last, true⟩ start len
      = (1, ((full.flatten ++ last).drop start).take len) := by
    unfold read_from_xz_compressed_cluster
    dsimp only
    rw [if_neg (by decide),
      xz_decode_loop_captures BUFSIZ start len last full 0 0 [] rfl (Nat.zero_le len) hfull
        (by omega)]
    rfl
  refine ⟨h, ?_⟩
  rw [h]
  dsimp only
  rw [List.length_take, List.length_drop]
  omega

/-- C27 at concrete inputs, with buffers of 4 bytes and the decoded stream
10, 11, .., 19: a capture spanning the three buffers, one inside the second
buffer, one starting on a buffer boundary and one ending on it. -/
theorem xz_skip_then_capture_witness :
    read_from_xz_compressed_cluster 4 ⟨true, [[10, 11, 12, 13], [14, 15, 16, 17]], [18, 19], true⟩
        3 6 = (1, [13, 14, 15, 16, 17, 18])
      ∧ read_from_xz_compressed_cluster 4
          ⟨true, [[10, 11, 12, 13], [14, 15, 16, 17]], [18, 19], true⟩ 5 2 = (1, [15, 16])
      ∧ read_from_xz_compressed_cluster 4
          ⟨true, [[10, 11, 12, 13], [14, 15, 16, 17]], [18, 19], true⟩ 4 3 = (1, [14, 15, 16])
      ∧ read_from_xz_compressed_cluster 4
          ⟨true, [[10, 11, 12, 13], [14, 15, 16, 17]], [18, 19], true⟩ 1 7
        = (1, [11, 12, 13, 14, 15, 16, 17]) :=
  ⟨(xz_skip_then_capture 4 [[10, 11, 12, 13], [14, 15, 16, 17]] [18, 19] 3 6 (by decide)
      (by decide)).1,
   (xz_skip_then_capture 4 [[10, 11, 12, 13], [14, 15, 16, 17]] [18, 19] 5 2 (by decide)
      (by decide)).1,
   (xz_skip_then_capture 4 [[10, 11, 12, 13], [14, 15, 16, 17]] [18, 19] 4 3 (by decide)
      (by decide)).1,
   (xz_skip_then_capture 4 [[10, 11, 12, 13], [14, 15, 16, 17]] [18, 19] 1 7 (by decide)
      (by decide)).1⟩


/-! ## The url search on a sorted table -/

/-- Comparing a string `q` without NUL byte with `u` over the length of `q`
gives 0 exactly when `q` is a prefix of `u`. -/
theorem strncmp_zero_of_query (q : List Nat) :
    ∀ (u : List Nat), (∀ b ∈ q, b ≠ 0) → (strncmp q u q.length = 0 ↔ q <+: u) := by
  induction q with
  | nil =>
    intro u _
    constructor
    · intro _
      exact List.nil_prefix
    · intro _
      cases u <;> rfl
  | cons x xs ih =>
    intro u h0
    have hx : x ≠ 0 := h0 x (List.mem_cons_self x xs)
    have hxs : ∀ b ∈ xs, b ≠ 0 := fun b hb => h0 b (List.mem_cons_of_mem x hb)
    cases u with
    | nil =>
      constructor
      · intro h
        have h1 : (x : Int) = 0 := h
        omega
      · intro h
        exact absurd (List.prefix_nil.mp h) (List.cons_ne_nil x xs)
    | cons y ys =>
      have hstep : strncmp (x :: xs) (y :: ys) (x :: xs).length
          = if x = y then strncmp xs ys xs.length else (x : Int) - (y : Int) := rfl
      rw [hstep, List.cons_prefix_cons]
      by_cases hxy : x = y
      · rw [if_pos hxy, ih ys hxs]
        exact ⟨fun h => ⟨hxy, h⟩, fun h => h.2⟩
      · rw [if_neg hxy]
        constructor
        · intro h
          omega
        · intro h
          exact absurd h.1 hxy

/-- A negative comparison of `q` with `u` over the length of `q`: every
string that starts with `q` comes before `u` in byte order. -/
theorem strncmp_neg_lex (q : List Nat) :
    ∀ (u r : List Nat), strncmp q u q.length < 0 →
      List.Lex (fun a b : Nat => a < b) (q ++ r) u := by
  induction q with
  | nil =>
    intro u r h
    have h0 : strncmp [] u 0 = 0 := by
      cases u <;> rfl
    rw [List.length_nil, h0] at h
    exact absurd h (by decide)
  | cons x xs ih =>
    intro u r h
    cases u with
    | nil =>
      have h1 : (x : Int) < 0 := h
      omega
    | cons y ys =>
      have hstep : strncmp (x :: xs) (y :: ys) (x :: xs).length
          = if x = y then strncmp xs ys xs.length else (x : Int) - (y : Int) := rfl
      rw [hstep] at h
      by_cases hxy : x = y
      · rw [if_pos hxy] at h
        rw [hxy]
        exact List.Lex.cons (ih ys r h)
      · rw [if_neg hxy] at h
        exact List.Lex.rel (by omega)

/-- A positive comparison of `q` with `u` over the length of `q`: `u` comes
before every string that starts with `q` in byte order. -/
theorem strncmp_pos_lex (q : List Nat) :
    ∀ (u r : List Nat), 0 < strncmp q u q.length →
      List.Lex (fun a b : Nat => a < b) u (q ++ r) := by
  induction q with
  | nil =>
    intro u r h
    have h0 : strncmp [] u 0 = 0 := by
      cases u <;> rfl
    rw [List.length_nil, h0] at h
    exact absurd h (by decide)
  | cons x xs ih =>
    intro u r h
    cases u with
    | nil => exact List.Lex.nil
    | cons y ys =>
      have hstep : strncmp (x :: xs) (y :: ys) (x :: xs).length
          = if x = y then strncmp xs ys xs.length else (x : Int) - (y : Int) := rfl
      rw [hstep] at h
      by_cases hxy : x = y
      · rw [if_pos hxy] at h
        rw [hxy]
        exact List.Lex.cons (ih ys r h)
      · rw [if_neg hxy] at h
        exact List.Lex.rel (by omega)

/-- The entry reached through the `i`-th url pointer, from the steps that
fetch it. -/
theorem entry_at_index_of_steps (env : Env) (archive : zim_archive_t) (i : Nat)
    (file f1 f2 : FILE) (hopen : fopen env.fs archive.path = some file)
    (hs1 : fseek_set file ((archive.header.url_ptr_pos + (i * 8) % 2 ^ 64) % 2 ^ 64)
      = some f1)
    (hr1 : ¬ (read_int f1 8 0).1 ≠ 0)
    (hs2 : fseek_set (read_int f1 8 0).2.2 (read_int f1 8 0).2.1 = some f2)
    (hp : ¬ (parse_directory_entry f2 zero_entry).1 ≠ 0) :
    entry_at_index env archive i = some (parse_directory_entry f2 zero_entry).2.1 := by
  unfold entry_at_index
  rw [hopen]
  dsimp only
  rw [hs1]
  dsimp only
  rw [if_neg hr1, hs2]
  dsimp only
  rw [if_neg hp]

/-- Soundness of the url search: an entry on which the loop stops is the
entry of an index strictly between `floor` and `ceil`, and the url asked for
is a prefix of its url. -/
theorem url_search_loop_sound (env : Env) (archive : zim_archive_t) (file : FILE)
    (url : List Nat) (hopen : fopen env.fs archive.path = some file)
    (hurl : ∀ b ∈ url, b ≠ 0) :
    ∀ (steps floor ceil parses : Nat) (e : zim_directory_entry_t),
      (url_search_loop file archive.header url steps floor ceil parses).1
        = SearchEnd.stopped (some e) →
      url <+: e.url ∧ ∃ i, floor < i ∧ i < ceil ∧ entry_at_index env archive i = some e := by
  intro steps
  induction steps with
  | zero =>
    intro floor ceil parses e h
    unfold url_search_loop at h
    cases h
  | succ n ih =>
    intro floor ceil parses e
    unfold url_search_loop
    dsimp only
    by_cases hcut : floor = floor + (ceil - floor) / 2
    · rw [if_pos hcut]
      intro h
      cases h
    · rw [if_neg hcut]
      have hin : floor < floor + (ceil - floor) / 2 ∧ floor + (ceil - floor) / 2 < ceil := by
        omega
      cases hs1 : fseek_set file
          ((archive.header.url_ptr_pos + ((floor + (ceil - floor) / 2) * 8) % 2 ^ 64)
            % 2 ^ 64) with
      | none =>
        intro h
        cases h
      | some f1 =>
        dsimp only
        by_cases hr : (read_int f1 8 0).1 ≠ 0
        · rw [if_pos hr]
          intro h
          cases h
        · rw [if_neg hr]
          cases hs2 : fseek_set (read_int f1 8 0).2.2 (read_int f1 8 0).2.1 with
          | none =>
            intro h
            cases h
          | some f2 =>
            dsimp only
            have hentry := fun hp => entry_at_index_of_steps env archive
              (floor + (ceil - floor) / 2) file f1 f2 hopen hs1 hr hs2 hp
            generalize parse_directory_entry f2 zero_entry = pe at hentry ⊢
            by_cases hp : pe.1 ≠ 0
            · rw [if_pos hp]
              intro h
              cases h
            · rw [if_neg hp]
              by_cases hz : strncmp url pe.2.1.url url.length = 0
              · rw [if_pos hz]
                intro h
                have he : pe.2.1 = e := by
                  injection h with h1
                  exact Option.some.inj h1
                rw [← he]
                exact ⟨(strncmp_zero_of_query url pe.2.1.url hurl).mp hz,
                  _, hin.1, hin.2, hentry hp⟩
              · rw [if_neg hz]
                by_cases hlt : strncmp url pe.2.1.url url.length < 0
                · rw [if_pos hlt]
                  intro h
                  obtain ⟨hpre, i, hi1, hi2, hi3⟩ := ih _ _ _ e h
                  exact ⟨hpre, i, hi1, by omega, hi3⟩
                · rw [if_neg hlt]
                  intro h
                  obtain ⟨hpre, i, hi1, hi2, hi3⟩ := ih _ _ _ e h
                  exact ⟨hpre, i, by omega, hi2, hi3⟩

/-- Completeness of the url search on a table whose entries from index 1 on
are readable and sorted by url: while some entry strictly between `floor`
and `ceil` starts with the url asked for, the loop stops on an entry that
starts with it. -/
theorem url_search_loop_complete (env : Env) (archive : zim_archive_t) (file : FILE)
    (url : List Nat) (hopen : fopen env.fs archive.path = some file)
    (hurl : ∀ b ∈ url, b ≠ 0)
    (hread : ∀ i, 1 ≤ i → i < archive.header.article_count →
      ∃ e, entry_at_index env archive i = some e)
    (hsorted : ∀ i j ei ej, 1 ≤ i → i ≤ j → j < archive.header.article_count →
      entry_at_index env archive i = some ei → entry_at_index env archive j = some ej →
      ¬ List.Lex (fun a b : Nat => a < b) ej.url ei.url) :
    ∀ (steps floor ceil parses : Nat), ceil - floor < steps →
      ceil ≤ archive.header.article_count →
      (∃ j ej, floor < j ∧ j < ceil ∧ entry_at_index env archive j = some ej
        ∧ url <+: ej.url) →
      ∃ e, (url_search_loop file archive.header url steps floor ceil parses).1
          = SearchEnd.stopped (some e) ∧ url <+: e.url := by
  intro steps
  induction steps with
  | zero =>
    intro floor ceil parses h
    exact absurd h (Nat.not_lt_zero _)
  | succ n ih =>
    intro floor ceil parses hsteps hceil hex
    obtain ⟨j, ej, hfj, hjc, hj, hpre⟩ := hex
    have hcut : ¬ floor = floor + (ceil - floor) / 2 := by omega
    have hin : floor < floor + (ceil - floor) / 2 ∧ floor + (ceil - floor) / 2 < ceil := by
      omega
    obtain ⟨ec, hec⟩ := hread (floor + (ceil - floor) / 2) (by omega) (by omega)
    obtain ⟨f1, f2, hs1, hr1, hs2, hp, he⟩ :=
      entry_at_index_steps env archive _ ec file hopen hec
    obtain ⟨r, hr⟩ := hpre
    unfold url_search_loop
    dsimp only
    rw [if_neg hcut, hs1]
    dsimp only
    rw [if_neg (not_not.mpr hr1), hs2]
    dsimp only
    rw [if_neg (not_not.mpr hp), he]
    by_cases hz : strncmp url ec.url url.length = 0
    · rw [if_pos hz]
      exact ⟨ec, rfl, (strncmp_zero_of_query url ec.url hurl).mp hz⟩
    · rw [if_neg hz]
      by_cases hlt : strncmp url ec.url url.length < 0
      · rw [if_pos hlt]
        apply ih floor _ _ (by omega) (by omega)
        refine ⟨j, ej, hfj, ?_, hj, ⟨r, hr⟩⟩
        by_contra hge
        have hlex := strncmp_neg_lex url ec.url r hlt
        rw [hr] at hlex
        exact hsorted _ j ec ej (by omega) (by omega) (by omega) hec hj hlex
      · rw [if_neg hlt]
        apply ih _ ceil _ (by omega) hceil
        refine ⟨j, ej, ?_, hjc, hj, ⟨r, hr⟩⟩
        by_contra hle
        have hlex := strncmp_pos_lex url ec.url r (by omega)
        rw [hr] at hlex
        exact hsorted j _ ej ec (by omega) (by omega) (by omega) hj hec hlex

/-- C28: the loop of `read_article_at_url`, run on the open archive from
`floor = 0` and `ceil = article_count` for a url without NUL byte.
Soundness: an entry on which the loop stops is the entry of an index from 1
to `article_count - 1`, and the url asked for is a prefix of its url.
Completeness away from index 0: when the entries of the indices from 1 on are
readable and their urls do not decrease in byte order, and the url asked for
is a prefix of the url of one of them, the loop stops on an entry of whose
url it is a prefix. Index 0: every index at which the loop calls
`parse_directory_entry` is at least 1. -/
theorem url_search_sorted (env : Env) (archive : zim_archive_t) (file : FILE)
    (url : List Nat) (hopen : fopen env.fs archive.path = some file)
    (hurl : ∀ b ∈ url, b ≠ 0) :
    (∀ e, (url_search_loop file archive.header url (archive.header.article_count + 1) 0
          archive.header.article_count 0).1 = SearchEnd.stopped (some e) →
        url <+: e.url
          ∧ ∃ i, 1 ≤ i ∧ i < archive.header.article_count
            ∧ entry_at_index env archive i = some e)
      ∧ ((∀ i, 1 ≤ i → i < archive.header.article_count →
            ∃ e, entry_at_index env archive i = some e) →
          (∀ i j, 1 ≤ i → i ≤ j → j < archive.header.article_count →
            ¬ List.Lex (fun a b : Nat => a < b)
              (((entry_at_index env archive j).map (fun e => e.url)).getD [])
              (((entry_at_index env archive i).map (fun e => e.url)).getD [])) →
          ∀ j ej, 1 ≤ j → j < archive.header.article_count →
            entry_at_index env archive j = some ej → url <+: ej.url →
            ∃ e, (url_search_loop file archive.header url (archive.header.article_count + 1) 0
                archive.header.article_count 0).1 = SearchEnd.stopped (some e)
              ∧ url <+: e.url)
      ∧ (∀ c ∈ url_search_cuts file archive.header url (archive.header.article_count + 1) 0
            archive.header.article_count, 1 ≤ c ∧ c < archive.header.article_count)
      ∧ (url_search_loop file archive.header url (archive.header.article_count + 1) 0
          archive.header.article_count 0).2
        = (url_search_cuts file archive.header url (archive.header.article_count + 1) 0
            archive.header.article_count).length := by
  refine ⟨?_, ?_, ?_, ?_⟩
  · intro e h
    obtain ⟨hpre, i, hi1, hi2, hi3⟩ :=
      url_search_loop_sound env archive file url hopen hurl _ _ _ _ e h
    exact ⟨hpre, i, hi1, hi2, hi3⟩
  · intro hread hsorted j ej hj1 hj2 hj hpre
    apply url_search_loop_complete env archive file url hopen hurl hread ?_ _ 0 _ 0
      (by omega) (Nat.le_refl _) ⟨j, ej, hj1, hj2, hj, hpre⟩
    intro i k ei ek hi hik hk hei hek
    have h := hsorted i k hi hik hk
    rw [hei, hek] at h
    exact h
  · intro c hc
    exact url_search_cuts_between file archive.header url _ 0 _ c hc
  · have h := url_search_loop_count file archive.header url
      (archive.header.article_count + 1) 0 archive.header.article_count 0
    rw [Nat.zero_add] at h
    exact h

set_option maxRecDepth 100000 in
/-- C28 on the archive of the four entries `a`, `b`, `bc` and `d`, for the
url `b`: the entries of the indices 1 to 3 are readable and sorted, `b` is a
prefix of the url of the entry of index 1, and the loop stops on an entry of
whose url `b` is a prefix (the entry `bc`); it parses no entry at index 0. -/
theorem url_search_sorted_witness :
    (∃ e, (url_search_loop ⟨prefix_archive, 0⟩ (archive_of prefix_archive).header [98]
          ((archive_of prefix_archive).header.article_count + 1) 0
          (archive_of prefix_archive).header.article_count 0).1 = SearchEnd.stopped (some e)
        ∧ [98] <+: e.url)
      ∧ ∀ c ∈ url_search_cuts ⟨prefix_archive, 0⟩ (archive_of prefix_archive).header [98]
          ((archive_of prefix_archive).header.article_count + 1) 0
          (archive_of prefix_archive).header.article_count,
        1 ≤ c ∧ c < (archive_of prefix_archive).header.article_count :=
  ⟨(url_search_sorted (one_file_env prefix_archive) (archive_of prefix_archive)
      ⟨prefix_archive, 0⟩ [98] (by decide) (by decide)).2.1
      (fun i h1 hi => by
        have h4 : (archive_of prefix_archive).header.article_count = 4 := by decide
        rw [h4] at hi
        interval_cases i
        · exact Option.isSome_iff_exists.mp (by decide)
        · exact Option.isSome_iff_exists.mp (by decide)
        · exact Option.isSome_iff_exists.mp (by decide))
      (fun i j h1 hij hj => by
        have h4 : (archive_of prefix_archive).header.article_count = 4 := by decide
        rw [h4] at hj
        interval_cases j <;> interval_cases i <;> decide)
      1 ⟨0, 65, 0, 0, 0, 1, [98], [84]⟩ (by decide) (by decide) (by decide) (by decide),
   (url_search_sorted (one_file_env prefix_archive) (archive_of prefix_archive)
      ⟨prefix_archive, 0⟩ [98] (by decide) (by decide)).2.2.1⟩


/-! ## The width of the offsets of an uncompressed cluster -/

theorem to_long_usub64 (a b : Nat) (ha : a < 2 ^ 63) (hb : b < 2 ^ 63) :
    to_long (usub64 a b) = (a : Int) - (b : Int) := by
  have h1 : usub64 a b = if b ≤ a then a - b else 2 ^ 64 + a - b := by
    unfold usub64
    by_cases hab : b ≤ a
    · rw [if_pos hab]
      omega
    · rw [if_neg hab]
      omega
  unfold to_long
  rw [h1]
  by_cases hab : b ≤ a
  · rw [if_pos hab, Nat.mod_eq_of_lt (by omega), if_pos (by omega)]
    omega
  · rw [if_neg hab, Nat.mod_eq_of_lt (by omega), if_neg (by omega)]
    omega

theorem to_long_small (x : Nat) (h : x < 2 ^ 63) : to_long x = (x : Int) := by
  unfold to_long
  rw [Nat.mod_eq_of_lt (by omega), if_pos h]

theorem to_int_small (x : Nat) (h : x < 2 ^ 31) : to_int x = (x : Int) := by
  unfold to_int
  rw [Nat.mod_eq_of_lt (by omega), if_pos h]

theorem fseek_cur_to (data : List Nat) (p offset q : Nat)
    (h : (p : Int) + to_long offset = (q : Int)) :
    fseek_cur ⟨data, p⟩ offset = some ⟨data, q⟩ := by
  unfold fseek_cur
  dsimp only
  rw [h, if_pos (Int.ofNat_nonneg q), Int.toNat_ofNat]

/-- What `fgets` stores depends on the file only through the `size - 1`
bytes under the cursor. -/
theorem fgets_of_bytes (f1 f2 : FILE) (size : Int)
    (h : (f1.data.drop f1.pos).take (size.toNat - 1)
      = (f2.data.drop f2.pos).take (size.toNat - 1)) :
    (fgets f1 size).1 = (fgets f2 size).1 := by
  unfold fgets
  by_cases h0 : size ≤ 0
  · rw [if_pos h0, if_pos h0]
  · rw [if_neg h0, if_neg h0]
    by_cases h1 : size = 1
    · rw [if_pos h1, if_pos h1]
    · rw [if_neg h1, if_neg h1]
      dsimp only
      rw [h]
      generalize (if (List.takeWhile (fun b => b != 10)
          (List.take (size.toNat - 1) (List.drop f2.pos f2.data))).length
            < (List.take (size.toNat - 1) (List.drop f2.pos f2.data)).length
          then List.takeWhile (fun b => b != 10)
            (List.take (size.toNat - 1) (List.drop f2.pos f2.data)) ++ [10]
          else List.takeWhile (fun b => b != 10)
            (List.take (size.toNat - 1) (List.drop f2.pos f2.data))) = line
      by_cases hl : line.length = 0
      · rw [if_pos hl, if_pos hl]
      · rw [if_neg hl, if_neg hl]

/-- Reading blob `k` of an uncompressed cluster whose logical content `d`
lies at the cursor and starts with a well-formed table of offsets of `w`
bytes: the result is what `fgets`, given the length of the blob as size,
stores of the bytes of the blob. -/
theorem read_article_from_uncompressed_cluster_blob (entry : zim_directory_entry_t)
    (data : List Nat) (p w n : Nat) (d rest : List Nat)
    (hw : w = 4 ∨ w = 8) (hdata : data.drop p = d ++ rest)
    (hwf : well_formed_offsets w d n) (hk : entry.blob_number < n)
    (hsize : d.length < 2 ^ 31) :
    read_article_from_uncompressed_cluster entry ⟨data, p⟩ w
      = match (fgets ⟨blob_bytes w d entry.blob_number, 0⟩
          ((blob_bytes w d entry.blob_number).length : Int)).1 with
        | none => Content.str []
        | some line =>
          if line.length + 1 > MAX_ARTICLE_SIZE then Content.out_of_bounds
          else Content.str (cstr line) := by
  obtain ⟨htable, hmono, hlast⟩ := hwf
  have hle : blob_offset w d entry.blob_number ≤ blob_offset w d (entry.blob_number + 1) :=
    hmono _ hk
  have hend : blob_offset w d (entry.blob_number + 1) ≤ d.length := by
    rw [← hlast]
    exact blob_offset_mono w d n hmono n (le_refl n) _ (by omega)
  have hwk : w * entry.blob_number + w + w ≤ d.length := by
    rcases hw with h | h <;> rw [h] at htable ⊢ <;> omega
  have hw8 : w ≤ 8 := by
    rcases hw with h | h <;> omega
  have hwlen : w = 2 ∨ w = 4 ∨ w = 8 := by
    rcases hw with h | h
    · exact Or.inr (Or.inl h)
    · exact Or.inr (Or.inr h)
  have hk32 : (entry.blob_number + 2) % 2 ^ 32 = entry.blob_number + 2 :=
    Nat.mod_eq_of_lt (by rcases hw with h | h <;> rw [h] at hwk <;> omega)
  have hpos1 : (w * entry.blob_number) % 2 ^ 64 = w * entry.blob_number :=
    Nat.mod_eq_of_lt (by omega)
  have hpos2 : (w * (entry.blob_number + 2)) % 2 ^ 64 = w * (entry.blob_number + 2) := by
    rw [Nat.mul_add]
    exact Nat.mod_eq_of_lt (by omega)
  -- the two offsets
  have hd1 : data.drop (p + w * entry.blob_number)
      = (d.drop (w * entry.blob_number)).take w
        ++ ((d.drop (w * entry.blob_number)).drop w ++ rest) := by
    rw [← List.drop_drop, hdata, List.drop_append_of_le_length (by omega),
      ← List.append_assoc, List.take_append_drop]
  have hl1 : ((d.drop (w * entry.blob_number)).take w).length = w := by
    rw [List.length_take, List.length_drop]
    omega
  have hd2 : data.drop (p + w * entry.blob_number + w)
      = (d.drop (w * (entry.blob_number + 1))).take w
        ++ ((d.drop (w * (entry.blob_number + 1))).drop w ++ rest) := by
    have hp : p + w * entry.blob_number + w = p + w * (entry.blob_number + 1) := by
      rw [Nat.mul_add, Nat.mul_one, Nat.add_assoc]
    rw [hp, ← List.drop_drop, hdata, List.drop_append_of_le_length
      (by rw [Nat.mul_add, Nat.mul_one]; omega), ← List.append_assoc, List.take_append_drop]
  have hl2 : ((d.drop (w * (entry.blob_number + 1))).take w).length = w := by
    rw [List.length_take, List.length_drop, Nat.mul_add, Nat.mul_one]
    omega
  have hr1 := read_int_of_drop data (p + w * entry.blob_number) w 0 _ _ hd1 hl1 hwlen
  have hr2 := read_int_of_drop data (p + w * entry.blob_number + w) w 0 _ _ hd2 hl2 hwlen
  rw [store_low_zero] at hr1 hr2
  have hb1 : le_int ((d.drop (w * entry.blob_number)).take w)
      = blob_offset w d entry.blob_number := rfl
  have hb2 : le_int ((d.drop (w * (entry.blob_number + 1))).take w)
      = blob_offset w d (entry.blob_number + 1) := rfl
  rw [hb1] at hr1
  rw [hb2] at hr2
  -- the seeks
  have hs1 : fseek_cur ⟨data, p⟩ (w * entry.blob_number)
      = some ⟨data, p + w * entry.blob_number⟩ :=
    fseek_cur_to data p _ _ (by rw [to_long_small _ (by omega)]; omega)
  have hs3 : fseek_cur ⟨data, p + w * entry.blob_number + w + w⟩
      (usub64 (blob_offset w d entry.blob_number) (w * (entry.blob_number + 2)))
      = some ⟨data, p + blob_offset w d entry.blob_number⟩ :=
    fseek_cur_to data _ _ _ (by
      rw [to_long_usub64 _ _ (by omega) (by rw [Nat.mul_add]; omega), Nat.mul_add]
      push_cast
      omega)
  have hsub : usub64 (blob_offset w d (entry.blob_number + 1))
      (blob_offset w d entry.blob_number)
      = blob_offset w d (entry.blob_number + 1) - blob_offset w d entry.blob_number :=
    usub64_of_le _ _ hle (by omega)
  have hblen : (blob_bytes w d entry.blob_number).length
      = blob_offset w d (entry.blob_number + 1) - blob_offset w d entry.blob_number := by
    unfold blob_bytes
    rw [List.length_take, List.length_drop]
    omega
  have hint : to_int (blob_offset w d (entry.blob_number + 1)
      - blob_offset w d entry.blob_number)
      = ((blob_bytes w d entry.blob_number).length : Int) := by
    rw [to_int_small _ (by omega), hblen]
  -- what fgets sees
  have hfg : (fgets ⟨data, p + blob_offset w d entry.blob_number⟩
        ((blob_bytes w d entry.blob_number).length : Int)).1
      = (fgets ⟨blob_bytes w d entry.blob_number, 0⟩
        ((blob_bytes w d entry.blob_number).length : Int)).1 := by
    apply fgets_of_bytes
    dsimp only
    rw [List.drop_zero, ← List.drop_drop, hdata, List.drop_append_of_le_length (by omega),
      List.take_append_of_le_length (by rw [List.length_drop, Int.toNat_ofNat, hblen]; omega)]
    unfold blob_bytes
    rw [List.take_take, Int.toNat_ofNat, List.length_take, List.length_drop]
    congr 1
    omega
  unfold read_article_from_uncompressed_cluster
  dsimp only
  rw [hpos1, hs1]
  dsimp only [Option.getD]
  rw [hr1]
  dsimp only
  rw [if_neg (by decide), hr2]
  dsimp only
  rw [if_neg (by decide), hk32, hpos2, hs3]
  dsimp only
  rw [hsub, hint, hfg]

theorem le_bytes_length (w : Nat) : ∀ (v : Nat), (le_bytes w v).length = w := by
  induction w with
  | zero =>
    intro v
    rfl
  | succ w ih =>
    intro v
    unfold le_bytes
    rw [List.length_cons, ih]

theorem le_int_le_bytes (w : Nat) : ∀ (v : Nat), v < 256 ^ w → le_int (le_bytes w v) = v := by
  induction w with
  | zero =>
    intro v hv
    unfold le_bytes le_int
    rw [Nat.pow_zero] at hv
    omega
  | succ w ih =>
    intro v hv
    unfold le_bytes le_int
    rw [ih (v / 256) (by rw [Nat.pow_succ] at hv; omega)]
    omega

theorem blob_table_offsets_length (blobs : List (List Nat)) :
    ∀ (p : Nat), (blob_table_offsets p blobs).length = blobs.length + 1 := by
  induction blobs with
  | nil =>
    intro p
    rfl
  | cons b rest ih =>
    intro p
    unfold blob_table_offsets
    rw [List.length_cons, ih, List.length_cons]

theorem blob_table_offsets_get (blobs : List (List Nat)) :
    ∀ (p i : Nat), i ≤ blobs.length →
      (blob_table_offsets p blobs)[i]? = some (p + (blobs.take i).flatten.length) := by
  induction blobs with
  | nil =>
    intro p i hi
    have h0 : i = 0 := by
      rw [List.length_nil] at hi
      omega
    rw [h0]
    rfl
  | cons b rest ih =>
    intro p i hi
    unfold blob_table_offsets
    cases i with
    | zero =>
      rw [List.getElem?_cons_zero, List.take_zero, List.flatten_nil, List.length_nil,
        Nat.add_zero]
    | succ i =>
      rw [List.getElem?_cons_succ, ih (p + b.length) i (by rw [List.length_cons] at hi; omega),
        List.take_succ_cons, List.flatten_cons, List.length_append, Nat.add_assoc]

/-- The chunk of rank `i` of a list of chunks of `w` bytes laid end to end. -/
theorem flatten_chunk (w : Nat) (chunks : List (List Nat)) :
    ∀ (i : Nat) (c tail : List Nat), (∀ x ∈ chunks, x.length = w) → chunks[i]? = some c →
      ((chunks.flatten ++ tail).drop (w * i)).take w = c := by
  induction chunks with
  | nil =>
    intro i c tail _ hc
    cases hc
  | cons x rest ih =>
    intro i c tail hlen hc
    have hx : x.length = w := hlen x (List.mem_cons_self x rest)
    have hrest : ∀ y ∈ rest, y.length = w := fun y hy => hlen y (List.mem_cons_of_mem x hy)
    rw [List.flatten_cons, List.append_assoc]
    cases i with
    | zero =>
      rw [List.getElem?_cons_zero] at hc
      rw [Nat.mul_zero, List.drop_zero, List.take_append_of_le_length (by omega),
        List.take_of_length_le (by omega)]
      exact Option.some.inj hc
    | succ i =>
      rw [List.getElem?_cons_succ] at hc
      have hdrop : (x ++ (rest.flatten ++ tail)).drop (w * (i + 1))
          = (rest.flatten ++ tail).drop (w * i) := by
        rw [Nat.mul_add, Nat.mul_one, Nat.add_comm, ← List.drop_drop, ← hx, List.drop_left]
      rw [hdrop]
      exact ih i c tail hrest hc

/-- The blob of rank `k` of a list of blobs laid end to end. -/
theorem flatten_blob (blobs : List (List Nat)) :
    ∀ (k : Nat) (b : List Nat), blobs[k]? = some b →
      (blobs.flatten.drop (blobs.take k).flatten.length).take b.length = b
        ∧ (blobs.take (k + 1)).flatten.length = (blobs.take k).flatten.length + b.length := by
  induction blobs with
  | nil =>
    intro k b hb
    cases hb
  | cons x rest ih =>
    intro k b hb
    cases k with
    | zero =>
      rw [List.getElem?_cons_zero] at hb
      have hxb : x = b := Option.some.inj hb
      rw [hxb]
      refine ⟨?_, ?_⟩
      · rw [List.take_zero, List.flatten_nil, List.length_nil, List.drop_zero, List.flatten_cons,
          List.take_left]
      · simp
    | succ k =>
      rw [List.getElem?_cons_succ] at hb
      obtain ⟨h1, h2⟩ := ih k b hb
      refine ⟨?_, ?_⟩
      · rw [List.take_succ_cons, List.flatten_cons, List.flatten_cons, List.length_append,
          ← List.drop_drop, List.drop_left]
        exact h1
      · rw [List.take_succ_cons, List.take_succ_cons, List.flatten_cons, List.flatten_cons,
          List.length_append, List.length_append, h2, Nat.add_assoc]

theorem take_flatten_length_le (blobs : List (List Nat)) :
    ∀ (i : Nat), (blobs.take i).flatten.length ≤ blobs.flatten.length := by
  induction blobs with
  | nil =>
    intro i
    rw [List.take_nil]
  | cons x rest ih =>
    intro i
    cases i with
    | zero =>
      rw [List.take_zero, List.flatten_nil, List.length_nil]
      exact Nat.zero_le _
    | succ i =>
      rw [List.take_succ_cons, List.flatten_cons, List.flatten_cons, List.length_append,
        List.length_append]
      exact Nat.add_le_add_left (ih i) _

/-- The offsets of the table of `cluster_content`: offset `i` is the length
of the table plus the lengths of the blobs before blob `i`. -/
theorem cluster_content_offset (w : Nat) (blobs : List (List Nat)) (i : Nat)
    (hi : i ≤ blobs.length)
    (hfit : w * (blobs.length + 1) + blobs.flatten.length < 256 ^ w) :
    blob_offset w (cluster_content w blobs) i
      = w * (blobs.length + 1) + (blobs.take i).flatten.length := by
  have hget := blob_table_offsets_get blobs (w * (blobs.length + 1)) i hi
  have hchunk : ((blob_table_offsets (w * (blobs.length + 1)) blobs).map (le_bytes w))[i]?
      = some (le_bytes w (w * (blobs.length + 1) + (blobs.take i).flatten.length)) := by
    rw [List.getElem?_map, hget]
    rfl
  unfold blob_offset cluster_content
  rw [flatten_chunk w _ i _ blobs.flatten (by
      intro x hx
      obtain ⟨v, _, hv⟩ := List.mem_map.mp hx
      rw [← hv]
      exact le_bytes_length w v) hchunk]
  exact le_int_le_bytes w _ (by
    have := take_flatten_length_le blobs i
    omega)

theorem cluster_content_length (w : Nat) (blobs : List (List Nat)) :
    (cluster_content w blobs).length = w * (blobs.length + 1) + blobs.flatten.length := by
  unfold cluster_content
  rw [List.length_append]
  congr 1
  have h : ∀ (l : List Nat), (List.map (le_bytes w) l).flatten.length = w * l.length := by
    intro l
    induction l with
    | nil => rfl
    | cons v vs ih =>
      rw [List.map_cons, List.flatten_cons, List.length_append, ih, le_bytes_length,
        List.length_cons, Nat.mul_add, Nat.mul_one, Nat.add_comm]
  rw [h, blob_table_offsets_length]

/-- The content `cluster_content w blobs` starts with a well-formed table of
offsets of `w` bytes, and its blob `k` is the blob of rank `k` of the list. -/
theorem cluster_content_well_formed (w : Nat) (blobs : List (List Nat))
    (hfit : w * (blobs.length + 1) + blobs.flatten.length < 256 ^ w) :
    well_formed_offsets w (cluster_content w blobs) blobs.length
      ∧ ∀ (k : Nat) (b : List Nat), blobs[k]? = some b →
        blob_bytes w (cluster_content w blobs) k = b := by
  have hlen := cluster_content_length w blobs
  refine ⟨⟨?_, ?_, ?_⟩, ?_⟩
  · rw [hlen]
    exact Nat.le_add_right _ _
  · intro i hi
    rw [cluster_content_offset w blobs i (by omega) hfit,
      cluster_content_offset w blobs (i + 1) (by omega) hfit]
    have hb : blobs[i]? = some (blobs[i]) := List.getElem?_eq_getElem hi
    rw [(flatten_blob blobs i _ hb).2]
    omega
  · rw [cluster_content_offset w blobs blobs.length (Nat.le_refl _) hfit, hlen, List.take_length]
  · intro k b hb
    have hk : k < blobs.length := by
      by_contra hge
      rw [List.getElem?_eq_none (by omega)] at hb
      cases hb
    obtain ⟨h1, h2⟩ := flatten_blob blobs k b hb
    unfold blob_bytes
    rw [cluster_content_offset w blobs k (by omega) hfit,
      cluster_content_offset w blobs (k + 1) (by omega) hfit, h2]
    have hsub : w * (blobs.length + 1) + ((blobs.take k).flatten.length + b.length)
        - (w * (blobs.length + 1) + (blobs.take k).flatten.length) = b.length := by
      omega
    rw [hsub]
    have htable : ((blob_table_offsets (w * (blobs.length + 1)) blobs).map
        (le_bytes w)).flatten.length = w * (blobs.length + 1) := by
      have h := hlen
      unfold cluster_content at h
      rw [List.length_append] at h
      omega
    have hdrop : ∀ (t tail : List Nat) (m s : Nat), t.length = m →
        (t ++ tail).drop (m + s) = tail.drop s := by
      intro t tail m s ht
      rw [← List.drop_drop, ← ht, List.drop_left]
    unfold cluster_content
    rw [hdrop _ _ _ _ htable]
    exact h1

/-- C24: a list of blobs laid out in an uncompressed cluster with offsets
of 4 bytes, under an info byte whose bit 4 is clear, and the same list laid
out with offsets of 8 bytes, under an info byte whose bit 4 is set, are read
alike by `retrieve_directory_entry_content` for every blob number `k` below
the number of blobs: both results are what `fgets`, given the length of the
blob as size, stores of the bytes of blob `k`. The clusters are those
`locate_cluster` reaches, with a compression code other than XZ and zstd; the
sizes are below 2^31. -/
theorem offset_width_same_blob (env4 env8 : Env) (archive4 archive8 : zim_archive_t)
    (entry4 entry8 : zim_directory_entry_t) (info4 info8 len4 len8 : Nat)
    (data4 data8 : List Nat) (p4 p8 : Nat) (rest4 rest8 : List Nat)
    (blobs : List (List Nat)) (k : Nat) (b : List Nat)
    (hloc4 : locate_cluster env4 archive4 entry4 = some (info4, len4, ⟨data4, p4⟩))
    (hloc8 : locate_cluster env8 archive8 entry8 = some (info8, len8, ⟨data8, p8⟩))
    (hbit4 : info4 &&& 0x10 = 0) (hbit8 : info8 &&& 0x10 ≠ 0)
    (hxz4 : info4 &&& 0x0F ≠ COMPRESSION_XZ) (hzstd4 : info4 &&& 0x0F ≠ COMPRESSION_ZSTD)
    (hxz8 : info8 &&& 0x0F ≠ COMPRESSION_XZ) (hzstd8 : info8 &&& 0x0F ≠ COMPRESSION_ZSTD)
    (hdata4 : data4.drop p4 = cluster_content 4 blobs ++ rest4)
    (hdata8 : data8.drop p8 = cluster_content 8 blobs ++ rest8)
    (hk4 : entry4.blob_number = k) (hk8 : entry8.blob_number = k)
    (hb : blobs[k]? = some b)
    (hsize : 8 * (blobs.length + 1) + blobs.flatten.length < 2 ^ 31) :
    retrieve_directory_entry_content env4 archive4 entry4
        = retrieve_directory_entry_content env8 archive8 entry8
      ∧ retrieve_directory_entry_content env4 archive4 entry4
        = match (fgets ⟨b, 0⟩ (b.length : Int)).1 with
          | none => Content.str []
          | some line =>
            if line.length + 1 > MAX_ARTICLE_SIZE then Content.out_of_bounds
            else Content.str (cstr line) := by
  have hk : k < blobs.length := by
    by_contra hge
    rw [List.getElem?_eq_none (by omega)] at hb
    cases hb
  have h4 : (256 : Nat) ^ 4 = 4294967296 := by norm_num
  have h8 : (256 : Nat) ^ 8 = 18446744073709551616 := by norm_num
  obtain ⟨hwf4, hblob4⟩ := cluster_content_well_formed 4 blobs (by rw [h4]; omega)
  obtain ⟨hwf8, hblob8⟩ := cluster_content_well_formed 8 blobs (by rw [h8]; omega)
  have hr4 := read_article_from_uncompressed_cluster_blob entry4 data4 p4 4 blobs.length
    (cluster_content 4 blobs) rest4 (Or.inl rfl) hdata4 hwf4 (by rw [hk4]; exact hk)
    (by rw [cluster_content_length]; omega)
  have hr8 := read_article_from_uncompressed_cluster_blob entry8 data8 p8 8 blobs.length
    (cluster_content 8 blobs) rest8 (Or.inr rfl) hdata8 hwf8 (by rw [hk8]; exact hk)
    (by rw [cluster_content_length]; omega)
  rw [hk4, hblob4 k b hb] at hr4
  rw [hk8, hblob8 k b hb] at hr8
  have he4 : retrieve_directory_entry_content env4 archive4 entry4
      = read_article_from_uncompressed_cluster entry4 ⟨data4, p4⟩ 4 := by
    unfold retrieve_directory_entry_content
    rw [hloc4]
    dsimp only
    unfold read_located_cluster
    dsimp only
    rw [if_neg hxz4, if_neg hzstd4, if_neg (not_not.mpr hbit4)]
  have he8 : retrieve_directory_entry_content env8 archive8 entry8
      = read_article_from_uncompressed_cluster entry8 ⟨data8, p8⟩ 8 := by
    unfold retrieve_directory_entry_content
    rw [hloc8]
    dsimp only
    unfold read_located_cluster
    dsimp only
    rw [if_neg hxz8, if_neg hzstd8, if_pos hbit8]
  rw [he4, he8, hr4, hr8]
  exact ⟨rfl, rfl⟩

set_option maxRecDepth 100000 in
/-- C24 on the single-entry archives whose cluster holds `alpha` and
`bravo-bravo` behind offsets of 4 bytes (info byte 0x01) and of 8 bytes (info
byte 0x11), for blob 1: both reads give the same result, `bravo-brav`. -/
theorem offset_width_same_blob_witness :
    retrieve_directory_entry_content (one_file_env (two_blob_archive 1 4))
        (archive_of (two_blob_archive 1 4)) (hello_entry 1)
        = retrieve_directory_entry_content (one_file_env (two_blob_archive 0x11 8))
          (archive_of (two_blob_archive 0x11 8)) (hello_entry 1)
      ∧ retrieve_directory_entry_content (one_file_env (two_blob_archive 1 4))
        (archive_of (two_blob_archive 1 4)) (hello_entry 1)
        = Content.str [98, 114, 97, 118, 111, 45, 98, 114, 97, 118] :=
  offset_width_same_blob (one_file_env (two_blob_archive 1 4))
    (one_file_env (two_blob_archive 0x11 8)) (archive_of (two_blob_archive 1 4))
    (archive_of (two_blob_archive 0x11 8)) (hello_entry 1) (hello_entry 1)
    1 0x11 18446744073709551479 18446744073709551479
    (two_blob_archive 1 4) (two_blob_archive 0x11 8) 137 137
    (List.replicate 16 0) (List.replicate 16 0) [alpha, bravo_bravo] 1 bravo_bravo
    (by decide) (by decide) (by decide) (by decide) (by decide) (by decide) (by decide)
    (by decide) (by decide) (by decide) rfl rfl rfl (by decide)

end ZimDump
